import Mathlib

/-!
# spire-controller-manager: federation-relationship reconciler and spec parser

A shallow embedding of

* `api/v1alpha1/clusterfederatedtrustdomain_webhook.go`
  (`ParseClusterFederatedTrustDomainSpec`, `parseBundleEndpointURL`, the
  admission validators), and
* `pkg/spirefederationrelationship/reconciler.go`
  (`reconcile`, the two listing helpers, the three batch dispatchers).

Conventions of the embedding:

* A Go `error` is its message (`String`); a Go `(T, error)` result is
  `Except String T`.
* A Go `map[K]V` is an association list with pairwise distinct keys. The order
  of the list is the order in which a `range` statement visits the map, which
  Go leaves unspecified; statements about maps therefore quantify over all
  key-distinct association lists.
* Library calls whose code lives outside the repository (`go-spiffe`,
  `net/url`, the `%q` verb of `fmt`) are parameters, collected in `External`.
* Logging and calls on collaborators are recorded as a trace of `Event`s.
* An index out of range is a run-time panic, recorded in `Outcome.panicked`.
-/

deriving instance DecidableEq for Except

namespace spiffeid

/-- The `spiffeid.TrustDomain` of go-spiffe: a comparable value wrapping the
trust domain name. -/
structure TrustDomain where
  name : String
deriving DecidableEq, Repr

/-- The `spiffeid.ID` of go-spiffe: a comparable value wrapping the SPIFFE ID
string. -/
structure ID where
  id : String
deriving DecidableEq, Repr

end spiffeid

namespace url

/-- The `url.Userinfo` of `net/url`. -/
structure Userinfo where
  username : String
  password : Option String
deriving DecidableEq, Repr

/-- The `url.URL` of `net/url`. `User` is a pointer in Go; `none` is `nil`. -/
structure URL where
  Scheme : String
  Opaque : String
  User : Option Userinfo
  Host : String
  Path : String
  RawPath : String
  ForceQuery : Bool
  RawQuery : String
  Fragment : String
  RawFragment : String
deriving DecidableEq, Repr

end url

namespace spireapi

/-- Modelled from the spec: the closed variant `BundleEndpointProfile` of
`pkg/spireapi` (its declaration is not among the sources): `HTTPSWeb` carries
nothing, `HTTPSSPIFFE` carries the expected endpoint identity. -/
inductive BundleEndpointProfile where
  | HTTPSWebProfile
  | HTTPSSPIFFEProfile (EndpointSPIFFEID : spiffeid.ID)
deriving DecidableEq, Repr

/-- Modelled from the spec: the aggregate `FederationRelationship` of
`pkg/spireapi` (its declaration is not among the sources), with the four
fields the parser fills in. `B` is the bundle type of go-spiffe;
`TrustDomainBundle` is a pointer in Go and `none` is `nil`. -/
structure FederationRelationship (B : Type) where
  TrustDomain : spiffeid.TrustDomain
  BundleEndpointURL : url.URL
  BundleEndpointProfile : BundleEndpointProfile
  TrustDomainBundle : Option B
deriving DecidableEq, Repr

/-- Modelled from the spec: the per-item `Status` of a batch call (declared in
`pkg/spireapi`, not among the sources): a gRPC code and a detail message. -/
structure Status where
  Code : Nat
  Message : String
deriving DecidableEq, Repr

end spireapi

namespace codes

/-- The gRPC code `codes.OK`. -/
def OK : Nat := 0

end codes

namespace v1alpha1

/-- Modelled from the spec: the `bundleEndpointProfile` part of a raw
specification (declared in the API types file, not among the sources);
`Type_` is the field `Type`. -/
structure BundleEndpointProfile where
  Type_ : String
  EndpointSPIFFEID : String
deriving DecidableEq, Repr

/-- Modelled from the spec: the raw specification
`{trustDomain, bundleEndpointURL, bundleEndpointProfile, trustDomainBundle}`
(declared in the API types file, not among the sources). -/
structure ClusterFederatedTrustDomainSpec where
  TrustDomain : String
  BundleEndpointURL : String
  BundleEndpointProfile : BundleEndpointProfile
  TrustDomainBundle : String
deriving DecidableEq, Repr

/-- Modelled from the spec: the status slot of a declarative record; nothing
is written to it yet. -/
structure ClusterFederatedTrustDomainStatus where
deriving DecidableEq, Repr

/-- Modelled from the spec: a declarative record, a named object carrying a
raw specification (declared in the API types file, not among the sources). -/
structure ClusterFederatedTrustDomain where
  Name : String
  Spec : ClusterFederatedTrustDomainSpec
deriving DecidableEq, Repr

/-- The library functions and package constants the parser uses and whose code
is outside the sources: `spiffeid.TrustDomainFromString`, `spiffeid.FromString`,
`url.Parse`, `spiffebundle.Read`, the `%q` verb of `fmt`, and the two profile
type constants of the API types file. -/
structure External (B : Type) where
  TrustDomainFromString : String → Except String spiffeid.TrustDomain
  FromString : String → Except String spiffeid.ID
  Parse : String → Except String url.URL
  Read : spiffeid.TrustDomain → String → Except String B
  quote : String → String
  HTTPSWebProfileType : String
  HTTPSSPIFFEProfileType : String

/-- The function `parseBundleEndpointURL`: parse, then the switch on scheme,
host and userinfo. -/
def parseBundleEndpointURL {B : Type} (x : External B) (s : String) :
    Except String url.URL :=
  match x.Parse s with
  | .error err => .error err
  | .ok u =>
    if u.Scheme ≠ "https" then .error "scheme must be https"
    else if u.Host = "" then .error "host is not specified"
    else if u.User ≠ none then .error "cannot contain userinfo"
    else .ok u

/-- The function `ParseClusterFederatedTrustDomainSpec`: the four rules in
source order, each failure returning at once. -/
def ParseClusterFederatedTrustDomainSpec {B : Type} (x : External B)
    (spec : ClusterFederatedTrustDomainSpec) :
    Except String (spireapi.FederationRelationship B) :=
  match x.TrustDomainFromString spec.TrustDomain with
  | .error err => .error ("invalid trustDomain value: " ++ err)
  | .ok trustDomain =>
    match parseBundleEndpointURL x spec.BundleEndpointURL with
    | .error err => .error ("invalid bundleEndpointURL value: " ++ err)
    | .ok bundleEndpointURL =>
      let profile : Except String spireapi.BundleEndpointProfile :=
        if spec.BundleEndpointProfile.Type_ = x.HTTPSWebProfileType then
          if spec.BundleEndpointProfile.EndpointSPIFFEID ≠ "" then
            .error ("invalid endpointSPIFFEID value: not applicable to the "
              ++ x.quote x.HTTPSWebProfileType ++ " profile")
          else .ok spireapi.BundleEndpointProfile.HTTPSWebProfile
        else if spec.BundleEndpointProfile.Type_ = x.HTTPSSPIFFEProfileType then
          match x.FromString spec.BundleEndpointProfile.EndpointSPIFFEID with
          | .error err => .error ("invalid endpointSPIFFEID value: " ++ err)
          | .ok endpointSPIFFEID =>
            .ok (spireapi.BundleEndpointProfile.HTTPSSPIFFEProfile endpointSPIFFEID)
        else .error ("invalid type value " ++ x.quote spec.BundleEndpointProfile.Type_)
      match profile with
      | .error err => .error err
      | .ok bundleEndpointProfile =>
        let bundle : Except String (Option B) :=
          if spec.TrustDomainBundle ≠ "" then
            match x.Read trustDomain spec.TrustDomainBundle with
            | .error err => .error ("invalid trustDomainBundle value: " ++ err)
            | .ok b => .ok (some b)
          else .ok none
        match bundle with
        | .error err => .error err
        | .ok trustDomainBundle =>
          .ok { TrustDomain := trustDomain
                BundleEndpointURL := bundleEndpointURL
                BundleEndpointProfile := bundleEndpointProfile
                TrustDomainBundle := trustDomainBundle }

/-- The method `validate`: the parse error, if any (`none` is a nil error). -/
def validate {B : Type} (x : External B) (r : ClusterFederatedTrustDomain) :
    Option String :=
  match ParseClusterFederatedTrustDomainSpec x r.Spec with
  | .error err => some err
  | .ok _ => none

/-- The method `ValidateCreate`. -/
def ValidateCreate {B : Type} (x : External B) (r : ClusterFederatedTrustDomain) :
    Option String :=
  validate x r

/-- The method `ValidateUpdate`; the old object is not looked at. -/
def ValidateUpdate {B : Type} {Obj : Type} (x : External B)
    (r : ClusterFederatedTrustDomain) (_old : Obj) : Option String :=
  validate x r

/-- The method `ValidateDelete`: deletes are not validated. -/
def ValidateDelete (_r : ClusterFederatedTrustDomain) : Option String :=
  none

/-- The parse after the profile switch: the bundle rule, then the
relationship. -/
def bundleStage {B : Type} (x : External B) (spec : ClusterFederatedTrustDomainSpec)
    (trustDomain : spiffeid.TrustDomain) (bundleEndpointURL : url.URL)
    (bundleEndpointProfile : spireapi.BundleEndpointProfile) :
    Except String (spireapi.FederationRelationship B) :=
  if spec.TrustDomainBundle = "" then
    .ok { TrustDomain := trustDomain, BundleEndpointURL := bundleEndpointURL
          BundleEndpointProfile := bundleEndpointProfile, TrustDomainBundle := none }
  else
    match x.Read trustDomain spec.TrustDomainBundle with
    | .error err => .error ("invalid trustDomainBundle value: " ++ err)
    | .ok b =>
      .ok { TrustDomain := trustDomain, BundleEndpointURL := bundleEndpointURL
            BundleEndpointProfile := bundleEndpointProfile, TrustDomainBundle := some b }

/-- Rule 1: `trustDomain` parses as a trust domain. -/
def rule1 {B : Type} (x : External B) (spec : ClusterFederatedTrustDomainSpec) : Bool :=
  match x.TrustDomainFromString spec.TrustDomain with
  | .ok _ => true
  | .error _ => false

/-- Rule 2: `bundleEndpointURL` passes `parseBundleEndpointURL`. -/
def rule2 {B : Type} (x : External B) (spec : ClusterFederatedTrustDomainSpec) : Bool :=
  match parseBundleEndpointURL x spec.BundleEndpointURL with
  | .ok _ => true
  | .error _ => false

/-- Rule 3: the profile type is the web type with an empty `endpointSPIFFEID`,
or the SPIFFE type with an `endpointSPIFFEID` that parses. -/
def rule3 {B : Type} (x : External B) (spec : ClusterFederatedTrustDomainSpec) : Bool :=
  (decide (spec.BundleEndpointProfile.Type_ = x.HTTPSWebProfileType) &&
    decide (spec.BundleEndpointProfile.EndpointSPIFFEID = "")) ||
  (decide (spec.BundleEndpointProfile.Type_ = x.HTTPSSPIFFEProfileType) &&
    match x.FromString spec.BundleEndpointProfile.EndpointSPIFFEID with
    | .ok _ => true
    | .error _ => false)

/-- Rule 4: `trustDomainBundle` is empty, or reads as a bundle for the parsed
trust domain. -/
def rule4 {B : Type} (x : External B) (spec : ClusterFederatedTrustDomainSpec) : Bool :=
  decide (spec.TrustDomainBundle = "") ||
  match x.TrustDomainFromString spec.TrustDomain with
  | .error _ => false
  | .ok trustDomain =>
    match x.Read trustDomain spec.TrustDomainBundle with
    | .ok _ => true
    | .error _ => false

/-- The result is an error (no value is returned) whose message starts with
`pre`. -/
def failsWith {α : Type} (r : Except String α) (pre : String) : Prop :=
  ∃ msg, r = .error msg ∧ pre.data <+: msg.data

end v1alpha1

namespace spirefederationrelationship

open spireapi

/-- A Go map, as the list of its entries in the order a `range` statement
visits them. Keys of a map are pairwise distinct (`GoMap.WF`). -/
abbrev GoMap (K V : Type) := List (K × V)

/-- The keys of a map are pairwise distinct. -/
def GoMap.WF {K V : Type} (m : GoMap K V) : Prop :=
  (m.map Prod.fst).Nodup

instance GoMap.decidableWF {K V : Type} [DecidableEq K] (m : GoMap K V) :
    Decidable (GoMap.WF m) :=
  inferInstanceAs (Decidable ((m.map Prod.fst).Nodup))

/-- The index expression `v, ok := m[k]`; `none` is `ok == false`. -/
def GoMap.index {K V : Type} [DecidableEq K] : GoMap K V → K → Option V
  | [], _ => none
  | e :: m, k => if e.1 = k then some e.2 else GoMap.index m k

/-- The assignment `m[k] = v`: overwrite the entry of `k`, or add one. -/
def GoMap.assign {K V : Type} [DecidableEq K] : GoMap K V → K → V → GoMap K V
  | [], k, v => [(k, v)]
  | e :: m, k, v => if e.1 = k then (k, v) :: m else e :: GoMap.assign m k v

/-- The struct `clusterFederatedTrustDomainState`. -/
structure clusterFederatedTrustDomainState (B : Type) where
  ClusterFederatedTrustDomain : v1alpha1.ClusterFederatedTrustDomain
  FederationRelationship : FederationRelationship B
  NextStatus : v1alpha1.ClusterFederatedTrustDomainStatus
deriving DecidableEq, Repr

/-- One call on the logger: `log.Info` (`isError = false`) or `log.Error`, with
the error passed (`none` is nil), the message, and the key/value pairs (those
bound by `WithValues` first). -/
structure LogEntry where
  isError : Bool
  err : Option String
  msg : String
  keysAndValues : List (String × String)
deriving DecidableEq, Repr

/-- What a pass does that is visible outside it: calls on the trust-domain
client, the listing of the declarative store, and log entries. -/
inductive Event (B : Type) where
  | ListFederationRelationships
  | ListClusterFederatedTrustDomains
  | CreateFederationRelationships (federationRelationships : List (FederationRelationship B))
  | UpdateFederationRelationships (federationRelationships : List (FederationRelationship B))
  | DeleteFederationRelationships (trustDomains : List spiffeid.TrustDomain)
  | log (entry : LogEntry)
deriving DecidableEq, Repr

/-- Modelled from the spec: the trust-domain service contract
(`spireapi.TrustDomainClient`, declared outside the sources): list, and the
three batch calls returning one status per item or failing as a whole. The
authority is stateful: every call takes its state `σ` and returns the next. -/
structure TrustDomainClient (σ B : Type) where
  ListFederationRelationships : σ → Except String (List (FederationRelationship B)) × σ
  CreateFederationRelationships :
    σ → List (FederationRelationship B) → Except String (List Status) × σ
  UpdateFederationRelationships :
    σ → List (FederationRelationship B) → Except String (List Status) × σ
  DeleteFederationRelationships :
    σ → List spiffeid.TrustDomain → Except String (List Status) × σ

/-- The struct `ReconcilerConfig`. `K8sClient` is what
`k8sapi.ListClusterFederatedTrustDomains` returns for it (the listing of the
declarative store, or its error); `GCInterval` is not used by a pass. -/
structure ReconcilerConfig (σ B : Type) where
  TrustDomainClient : TrustDomainClient σ B
  K8sClient : Except String (List v1alpha1.ClusterFederatedTrustDomain)
  GCInterval : Nat

/-- Functions and constants of the repository that the reconciler uses and
that are declared outside the sources: the method `Equal` of
`FederationRelationship`, the method `Err` of `Status`, the log helpers
`federationRelationshipFields` and `objectName`, and the two log keys. -/
structure Helpers (B : Type) where
  Equal : FederationRelationship B → FederationRelationship B → Bool
  Err : Status → Option String
  federationRelationshipFields : FederationRelationship B → List (String × String)
  objectName : v1alpha1.ClusterFederatedTrustDomain → String
  clusterFederatedTrustDomainLogKey : String
  conflictWithKey : String

/-- The order in which the two `range` statements of `reconcile` visit their
maps: Go leaves it unspecified, so it is a parameter. Each function rearranges
the entries of a map (`RangeOrder.Valid`). -/
structure RangeOrder (B : Type) where
  current : GoMap spiffeid.TrustDomain (FederationRelationship B) →
    GoMap spiffeid.TrustDomain (FederationRelationship B)
  desired : GoMap spiffeid.TrustDomain (clusterFederatedTrustDomainState B) →
    GoMap spiffeid.TrustDomain (clusterFederatedTrustDomainState B)

/-- A range order only rearranges entries. -/
def RangeOrder.Valid {B : Type} (o : RangeOrder B) : Prop :=
  (∀ m, (o.current m).Perm m) ∧ (∀ m, (o.desired m).Perm m)

/-- What a piece of the pass leaves behind: its trace, the state of the
authority, and whether it ended in a run-time panic. -/
structure Outcome (σ B : Type) where
  trace : List (Event B)
  state : σ
  panicked : Bool

/-- Sequencing: a panic ends the pass, otherwise the next piece runs from the
state reached. -/
def Outcome.andThen {σ B : Type} (o : Outcome σ B) (next : σ → Outcome σ B) :
    Outcome σ B :=
  if o.panicked then o
  else
    let o' := next o.state
    { trace := o.trace ++ o'.trace, state := o'.state, panicked := o'.panicked }

/-- The three work lists of a pass. -/
structure WorkLists (B : Type) where
  toDelete : List (FederationRelationship B)
  toCreate : List (FederationRelationship B)
  toUpdate : List (FederationRelationship B)
deriving DecidableEq, Repr

/-- The two `range` loops of `reconcile` (the declarations of the three lists
and the loops after them). The maps are given in the order the loops visit
them. -/
def workLists {B : Type} (Equal : FederationRelationship B → FederationRelationship B → Bool)
    (currentRelationships : GoMap spiffeid.TrustDomain (FederationRelationship B))
    (clusterFederatedTrustDomains :
      GoMap spiffeid.TrustDomain (clusterFederatedTrustDomainState B)) : WorkLists B :=
  let w0 : WorkLists B := { toDelete := [], toCreate := [], toUpdate := [] }
  let w1 := currentRelationships.foldl
    (fun w e =>
      match GoMap.index clusterFederatedTrustDomains e.1 with
      | none => { w with toDelete := w.toDelete ++ [e.2] }
      | some _ => w) w0
  clusterFederatedTrustDomains.foldl
    (fun w e =>
      match GoMap.index currentRelationships e.1 with
      | none => { w with toCreate := w.toCreate ++ [e.2.FederationRelationship] }
      | some currentRelationship =>
        if !Equal currentRelationship e.2.FederationRelationship then
          { w with toUpdate := w.toUpdate ++ [e.2.FederationRelationship] }
        else w) w1

/-- The method `listFederationRelationships`: the remote listing, keyed by
trust domain. -/
def listFederationRelationships {σ B : Type} (config : ReconcilerConfig σ B) (s : σ) :
    Except String (GoMap spiffeid.TrustDomain (FederationRelationship B)) × σ :=
  match config.TrustDomainClient.ListFederationRelationships s with
  | (.error err, s') => (.error err, s')
  | (.ok federationRelationships, s') =>
    (.ok (federationRelationships.foldl
      (fun out federationRelationship =>
        GoMap.assign out federationRelationship.TrustDomain federationRelationship) []), s')

/-- One iteration of the loop of `listClusterFederatedTrustDomains`, on the
map built so far and the log written so far. -/
def listClusterFederatedTrustDomains.step {B : Type} (h : Helpers B) (x : v1alpha1.External B)
    (acc : GoMap spiffeid.TrustDomain (clusterFederatedTrustDomainState B) × List LogEntry)
    (clusterFederatedTrustDomain : v1alpha1.ClusterFederatedTrustDomain) :
    GoMap spiffeid.TrustDomain (clusterFederatedTrustDomainState B) × List LogEntry :=
  let values := [(h.clusterFederatedTrustDomainLogKey, h.objectName clusterFederatedTrustDomain)]
  match v1alpha1.ParseClusterFederatedTrustDomainSpec x clusterFederatedTrustDomain.Spec with
  | .error err =>
    (acc.1, acc.2 ++ [{ isError := true, err := some err,
                        msg := "Ignoring invalid ClusterFederatedTrustDomain",
                        keysAndValues := values }])
  | .ok federationRelationship =>
    let state : clusterFederatedTrustDomainState B :=
      { ClusterFederatedTrustDomain := clusterFederatedTrustDomain
        FederationRelationship := federationRelationship
        NextStatus := {} }
    match GoMap.index acc.1 federationRelationship.TrustDomain with
    | some existing =>
      (acc.1, acc.2 ++ [{ isError := true, err := none,
                          msg := "Ignoring ClusterFederatedTrustDomain with conflicting trust domain",
                          keysAndValues := values ++
                            [(h.conflictWithKey, h.objectName existing.ClusterFederatedTrustDomain)] }])
    | none => (GoMap.assign acc.1 federationRelationship.TrustDomain state, acc.2)

/-- The method `listClusterFederatedTrustDomains`: the desired map and the log
entries written while building it, or the listing error. -/
def listClusterFederatedTrustDomains {σ B : Type} (h : Helpers B) (x : v1alpha1.External B)
    (config : ReconcilerConfig σ B) :
    Except String (GoMap spiffeid.TrustDomain (clusterFederatedTrustDomainState B) × List LogEntry) :=
  match config.K8sClient with
  | .error err => .error err
  | .ok clusterFederatedTrustDomains =>
    .ok (clusterFederatedTrustDomains.foldl (listClusterFederatedTrustDomains.step h x) ([], []))

/-- The function `trustDomainIDsFromFederationRelationships`. -/
def trustDomainIDsFromFederationRelationships {B : Type}
    (frs : List (FederationRelationship B)) : List spiffeid.TrustDomain :=
  frs.foldl (fun out fr => out ++ [fr.TrustDomain]) []

/-- The loop `for i, status := range statuses` shared in shape by the three
dispatchers, from position `i` on: one log entry per status, `okMsg` on code
OK and `errMsg` with the status error otherwise. The fields are those of
`federationRelationships[i]`; when `i` is out of range the loop panics before
logging. Returns the entries logged and whether it panicked. -/
def rangeStatuses {B : Type} (h : Helpers B) (okMsg errMsg : String)
    (federationRelationships : List (FederationRelationship B)) :
    Nat → List Status → List (Event B) × Bool
  | _, [] => ([], false)
  | i, status :: rest =>
    match federationRelationships.get? i with
    | none => ([], true)
    | some federationRelationship =>
      let entry : LogEntry :=
        if status.Code = codes.OK then
          { isError := false, err := none, msg := okMsg,
            keysAndValues := h.federationRelationshipFields federationRelationship }
        else
          { isError := true, err := h.Err status, msg := errMsg,
            keysAndValues := h.federationRelationshipFields federationRelationship }
      let r := rangeStatuses h okMsg errMsg federationRelationships (i + 1) rest
      (Event.log entry :: r.1, r.2)

/-- The method `createFederationRelationships`. -/
def createFederationRelationships {σ B : Type} (h : Helpers B) (config : ReconcilerConfig σ B)
    (federationRelationships : List (FederationRelationship B)) (s : σ) : Outcome σ B :=
  match config.TrustDomainClient.CreateFederationRelationships s federationRelationships with
  | (.error err, s') =>
    { trace := [Event.CreateFederationRelationships federationRelationships,
                Event.log { isError := true, err := some err,
                            msg := "Failed to create federation relationships",
                            keysAndValues := [] }]
      state := s', panicked := false }
  | (.ok statuses, s') =>
    let r := rangeStatuses h "Created federation relationship"
      "Failed to create federation relationship" federationRelationships 0 statuses
    { trace := Event.CreateFederationRelationships federationRelationships :: r.1
      state := s', panicked := r.2 }

/-- The method `updateFederationRelationships`. -/
def updateFederationRelationships {σ B : Type} (h : Helpers B) (config : ReconcilerConfig σ B)
    (federationRelationships : List (FederationRelationship B)) (s : σ) : Outcome σ B :=
  match config.TrustDomainClient.UpdateFederationRelationships s federationRelationships with
  | (.error err, s') =>
    { trace := [Event.UpdateFederationRelationships federationRelationships,
                Event.log { isError := true, err := some err,
                            msg := "Failed to update federation relationships",
                            keysAndValues := [] }]
      state := s', panicked := false }
  | (.ok statuses, s') =>
    let r := rangeStatuses h "Updated federation relationship"
      "Failed to update federation relationship" federationRelationships 0 statuses
    { trace := Event.UpdateFederationRelationships federationRelationships :: r.1
      state := s', panicked := r.2 }

/-- The method `deleteFederationRelationships`. -/
def deleteFederationRelationships {σ B : Type} (h : Helpers B) (config : ReconcilerConfig σ B)
    (federationRelationships : List (FederationRelationship B)) (s : σ) : Outcome σ B :=
  match config.TrustDomainClient.DeleteFederationRelationships s
      (trustDomainIDsFromFederationRelationships federationRelationships) with
  | (.error err, s') =>
    { trace := [Event.DeleteFederationRelationships
                  (trustDomainIDsFromFederationRelationships federationRelationships),
                Event.log { isError := true, err := some err,
                            msg := "Failed to delete federation relationships",
                            keysAndValues := [] }]
      state := s', panicked := false }
  | (.ok statuses, s') =>
    let r := rangeStatuses h "Deleted federation relationship"
      "Failed to delete federation relationship" federationRelationships 0 statuses
    { trace := Event.DeleteFederationRelationships
                 (trustDomainIDsFromFederationRelationships federationRelationships) :: r.1
      state := s', panicked := r.2 }

/-- The dispatch at the end of `reconcile`: each non-empty list is handed to
its dispatcher, delete first, then create, then update. -/
def dispatch {σ B : Type} (h : Helpers B) (config : ReconcilerConfig σ B) (w : WorkLists B)
    (s : σ) : Outcome σ B :=
  let start : Outcome σ B := { trace := [], state := s, panicked := false }
  let afterDelete :=
    if w.toDelete.length > 0 then
      start.andThen (deleteFederationRelationships h config w.toDelete)
    else start
  let afterCreate :=
    if w.toCreate.length > 0 then
      afterDelete.andThen (createFederationRelationships h config w.toCreate)
    else afterDelete
  if w.toUpdate.length > 0 then
    afterCreate.andThen (updateFederationRelationships h config w.toUpdate)
  else afterCreate

/-- The method `reconcile`: one pass, from the state `s` of the authority. -/
def reconcile {σ B : Type} (h : Helpers B) (x : v1alpha1.External B)
    (config : ReconcilerConfig σ B) (order : RangeOrder B) (s : σ) : Outcome σ B :=
  match listFederationRelationships config s with
  | (.error err, s') =>
    { trace := [Event.ListFederationRelationships,
                Event.log { isError := true, err := some err,
                            msg := "Failed to list SPIRE federation relationships",
                            keysAndValues := [] }]
      state := s', panicked := false }
  | (.ok currentRelationships, s') =>
    match listClusterFederatedTrustDomains h x config with
    | .error err =>
      { trace := [Event.ListFederationRelationships, Event.ListClusterFederatedTrustDomains,
                  Event.log { isError := true, err := some err,
                              msg := "Failed to list ClusterFederatedTrustDomains",
                              keysAndValues := [] }]
        state := s', panicked := false }
    | .ok (clusterFederatedTrustDomains, logged) =>
      let listed : Outcome σ B :=
        { trace := [Event.ListFederationRelationships, Event.ListClusterFederatedTrustDomains]
            ++ logged.map Event.log
          state := s', panicked := false }
      listed.andThen (dispatch h config
        (workLists h.Equal (order.current currentRelationships)
          (order.desired clusterFederatedTrustDomains)))

/-- The entry of the remote map is to be deleted: its key is absent from the
desired map. -/
def isDelete {B : Type}
    (desired : GoMap spiffeid.TrustDomain (clusterFederatedTrustDomainState B))
    (e : spiffeid.TrustDomain × FederationRelationship B) : Bool :=
  (GoMap.index desired e.1).isNone

/-- The entry of the desired map is to be created: its key is absent from the
remote map. -/
def isCreate {B : Type}
    (remote : GoMap spiffeid.TrustDomain (FederationRelationship B))
    (e : spiffeid.TrustDomain × clusterFederatedTrustDomainState B) : Bool :=
  (GoMap.index remote e.1).isNone

/-- The entry of the desired map is to be updated: its key is in the remote
map, with a value that is not `Equal` to the desired one. -/
def isUpdate {B : Type} (Equal : FederationRelationship B → FederationRelationship B → Bool)
    (remote : GoMap spiffeid.TrustDomain (FederationRelationship B))
    (e : spiffeid.TrustDomain × clusterFederatedTrustDomainState B) : Bool :=
  match GoMap.index remote e.1 with
  | none => false
  | some currentRelationship => !Equal currentRelationship e.2.FederationRelationship

/-- The event is one of the three batch calls on the trust-domain client. -/
def Event.isBatchCall {B : Type} : Event B → Bool
  | Event.CreateFederationRelationships _ => true
  | Event.UpdateFederationRelationships _ => true
  | Event.DeleteFederationRelationships _ => true
  | _ => false

/-- The record parses, and to the trust domain `T`. -/
def parsesTo {B : Type} (x : v1alpha1.External B) (T : spiffeid.TrustDomain)
    (r : v1alpha1.ClusterFederatedTrustDomain) : Bool :=
  match v1alpha1.ParseClusterFederatedTrustDomainSpec x r.Spec with
  | .error _ => false
  | .ok fr => decide (fr.TrustDomain = T)

/-- The conflict policy in the words of the spec: the first record, in listing
order, that parses to the trust domain `T`. -/
def firstSeen {B : Type} (x : v1alpha1.External B)
    (records : List v1alpha1.ClusterFederatedTrustDomain) (T : spiffeid.TrustDomain) :
    Option v1alpha1.ClusterFederatedTrustDomain :=
  records.find? (parsesTo x T)

/-- The state built from the first record, in listing order, that parses to
the trust domain `T`, if there is one. -/
def winner {B : Type} (x : v1alpha1.External B)
    (records : List v1alpha1.ClusterFederatedTrustDomain) (T : spiffeid.TrustDomain) :
    Option (clusterFederatedTrustDomainState B) :=
  match firstSeen x records T with
  | none => none
  | some r =>
    match v1alpha1.ParseClusterFederatedTrustDomainSpec x r.Spec with
    | .error _ => none
    | .ok fr => some { ClusterFederatedTrustDomain := r, FederationRelationship := fr,
                       NextStatus := {} }

/-- The pass after the delete step of `dispatch`. -/
def afterDelete {σ B : Type} (h : Helpers B) (config : ReconcilerConfig σ B) (w : WorkLists B)
    (s : σ) : Outcome σ B :=
  let start : Outcome σ B := { trace := [], state := s, panicked := false }
  if w.toDelete.length > 0 then
    start.andThen (deleteFederationRelationships h config w.toDelete)
  else start

/-- The pass after the delete and create steps of `dispatch`. -/
def afterCreate {σ B : Type} (h : Helpers B) (config : ReconcilerConfig σ B) (w : WorkLists B)
    (s : σ) : Outcome σ B :=
  if w.toCreate.length > 0 then
    (afterDelete h config w s).andThen (createFederationRelationships h config w.toCreate)
  else afterDelete h config w s

/-- The log entry a dispatcher owes to one item and its status, in the words of
the spec: a success entry when the status has code OK, otherwise a failure
entry carrying the error of the status; either way with the identifying fields
of the item. -/
def statusEntry {B : Type} (h : Helpers B) (okMsg errMsg : String)
    (federationRelationship : FederationRelationship B) (status : Status) : LogEntry :=
  if status.Code = codes.OK then
    { isError := false, err := none, msg := okMsg,
      keysAndValues := h.federationRelationshipFields federationRelationship }
  else
    { isError := true, err := h.Err status, msg := errMsg,
      keysAndValues := h.federationRelationshipFields federationRelationship }

/-- The batch calls of a trace, in the order they were issued. -/
def batchCalls {B : Type} (trace : List (Event B)) : List (Event B) :=
  trace.filter Event.isBatchCall

/-- The event is a create batch call. -/
def Event.isCreateCall {B : Type} : Event B → Bool
  | Event.CreateFederationRelationships _ => true
  | _ => false

/-- The event is an update batch call. -/
def Event.isUpdateCall {B : Type} : Event B → Bool
  | Event.UpdateFederationRelationships _ => true
  | _ => false

/-- The delete call owed to a work list: none for an empty list, otherwise one
call with the trust domains of the list. -/
def deleteCall {B : Type} (toDelete : List (FederationRelationship B)) : List (Event B) :=
  if toDelete.length > 0 then
    [Event.DeleteFederationRelationships (toDelete.map (fun fr => fr.TrustDomain))]
  else []

/-- The create call owed to a work list: none for an empty list, otherwise one
call with the list. -/
def createCall {B : Type} (toCreate : List (FederationRelationship B)) : List (Event B) :=
  if toCreate.length > 0 then [Event.CreateFederationRelationships toCreate] else []

/-- The update call owed to a work list: none for an empty list, otherwise one
call with the list. -/
def updateCall {B : Type} (toUpdate : List (FederationRelationship B)) : List (Event B) :=
  if toUpdate.length > 0 then [Event.UpdateFederationRelationships toUpdate] else []

/-- The batch calls owed to the three work lists: delete, then create, then
update, each only for a non-empty list. -/
def expectedCalls {B : Type} (w : WorkLists B) : List (Event B) :=
  deleteCall w.toDelete ++ createCall w.toCreate ++ updateCall w.toUpdate

/-- A batch call of the authority never answers with more statuses than it was
given items (the spec has it answer with one status per item). -/
def NoExcess {σ α : Type} (f : σ → List α → Except String (List Status) × σ) : Prop :=
  ∀ s items statuses s', f s items = (.ok statuses, s') → statuses.length ≤ items.length

/-- The relationships are in ascending order of trust-domain identifier (the
name of the trust domain, compared character by character): no entry has a
later entry with a smaller name. -/
def ascending {B : Type} (l : List (FederationRelationship B)) : Prop :=
  l.Pairwise (fun a b => ¬ b.TrustDomain.name.data < a.TrustDomain.name.data)

instance ascending.decidable {B : Type} (l : List (FederationRelationship B)) :
    Decidable (ascending l) :=
  by unfold ascending; infer_instance

/-- The log entry is not the one written for an invalid record. -/
def keptEntry (entry : LogEntry) : Bool :=
  decide (entry.msg ≠ "Ignoring invalid ClusterFederatedTrustDomain")

/-- The record parses. -/
def parses {B : Type} (x : v1alpha1.External B)
    (r : v1alpha1.ClusterFederatedTrustDomain) : Bool :=
  match v1alpha1.ParseClusterFederatedTrustDomainSpec x r.Spec with
  | .error _ => false
  | .ok _ => true

/-! ### Sample data, for evaluating the definitions on concrete inputs

Sample bundles are strings (the bundle is its text). -/

/-- A sample endpoint URL, `https://<host>`. -/
def sample.endpoint (host : String) : url.URL :=
  { Scheme := "https", Opaque := "", User := none, Host := host, Path := "", RawPath := "",
    ForceQuery := false, RawQuery := "", Fragment := "", RawFragment := "" }

/-- Sample library functions: a trust domain is any non-empty string; the
SPIFFE IDs, URLs and bundles are those of a small table. The URL table has the
results of `url.Parse` on `http://x`, `https://user@host` and `https://`. -/
def sample.external : v1alpha1.External String :=
  { TrustDomainFromString := fun s =>
      if s = "" then .error "trust domain is missing" else .ok { name := s }
    FromString := fun s =>
      if s = "spiffe://A/endpoint" then .ok { id := s }
      else .error "scheme is missing or invalid"
    Parse := fun s =>
      if s = "https://A" then .ok (sample.endpoint "A")
      else if s = "https://B" then .ok (sample.endpoint "B")
      else if s = "https://C" then .ok (sample.endpoint "C")
      else if s = "https://D" then .ok (sample.endpoint "D")
      else if s = "https://" then .ok (sample.endpoint "")
      else if s = "https://user@host" then
        .ok { sample.endpoint "host" with User := some { username := "user", password := none } }
      else if s = "http://x" then .ok { sample.endpoint "x" with Scheme := "http" }
      else .error "missing protocol scheme"
    Read := fun _ s =>
      if s = "1" then .ok "1" else if s = "2" then .ok "2"
      else .error "unable to parse JWKS"
    quote := fun s => "\"" ++ s ++ "\""
    HTTPSWebProfileType := "https_web"
    HTTPSSPIFFEProfileType := "https_spiffe" }

/-- A sample raw specification. -/
def sample.spec (trustDomain bundleEndpointURL type endpointSPIFFEID trustDomainBundle : String) :
    v1alpha1.ClusterFederatedTrustDomainSpec :=
  { TrustDomain := trustDomain
    BundleEndpointURL := bundleEndpointURL
    BundleEndpointProfile := { Type_ := type, EndpointSPIFFEID := endpointSPIFFEID }
    TrustDomainBundle := trustDomainBundle }

/-- A sample relationship for the trust domain `name`, pinned to the bundle
`version`. -/
def sample.relationship (name version : String) : FederationRelationship String :=
  { TrustDomain := { name := name }
    BundleEndpointURL := sample.endpoint name
    BundleEndpointProfile := BundleEndpointProfile.HTTPSWebProfile
    TrustDomainBundle := some version }

/-- A sample record declaring the trust domain `name` with bundle text
`version`, under the object name `object`. -/
def sample.record (object name version : String) : v1alpha1.ClusterFederatedTrustDomain :=
  { Name := object
    Spec := { TrustDomain := name
              BundleEndpointURL := "https://" ++ name
              BundleEndpointProfile := { Type_ := "https_web", EndpointSPIFFEID := "" }
              TrustDomainBundle := version } }

/-- A sample desired state for the trust domain `name` at `version`, declared
by the object of the same name. -/
def sample.state (name version : String) : clusterFederatedTrustDomainState String :=
  { ClusterFederatedTrustDomain := sample.record name name version
    FederationRelationship := sample.relationship name version
    NextStatus := {} }

/-- A sample equality on relationships: equality of every field. -/
def sample.Equal (a b : FederationRelationship String) : Bool :=
  decide (a = b)

/-- A sample remote map `{A:1, B:1, C:1}`. -/
def sample.remote : GoMap spiffeid.TrustDomain (FederationRelationship String) :=
  [({ name := "A" }, sample.relationship "A" "1"),
   ({ name := "B" }, sample.relationship "B" "1"),
   ({ name := "C" }, sample.relationship "C" "1")]

/-- A sample desired map `{B:1, C:2, D:1}`. -/
def sample.desired : GoMap spiffeid.TrustDomain (clusterFederatedTrustDomainState String) :=
  [({ name := "B" }, sample.state "B" "1"),
   ({ name := "C" }, sample.state "C" "2"),
   ({ name := "D" }, sample.state "D" "1")]

/-- Sample helpers: field-wise equality, the status message as its error, the
trust domain as the only log field, the object name of a record. -/
def sample.helpers : Helpers String :=
  { Equal := sample.Equal
    Err := fun status => some status.Message
    federationRelationshipFields := fun fr => [("trustDomain", fr.TrustDomain.name)]
    objectName := fun r => r.Name
    clusterFederatedTrustDomainLogKey := "clusterFederatedTrustDomain"
    conflictWithKey := "conflictWith" }

/-- A sample authority without state: it lists `listing` and answers every
batch call with one OK status per item. -/
def sample.client (listing : List (FederationRelationship String)) :
    TrustDomainClient Unit String :=
  { ListFederationRelationships := fun s => (.ok listing, s)
    CreateFederationRelationships := fun s frs =>
      (.ok (frs.map (fun _ => { Code := codes.OK, Message := "" })), s)
    UpdateFederationRelationships := fun s frs =>
      (.ok (frs.map (fun _ => { Code := codes.OK, Message := "" })), s)
    DeleteFederationRelationships := fun s tds =>
      (.ok (tds.map (fun _ => { Code := codes.OK, Message := "" })), s) }

/-- A sample configuration: the authority lists `listing`, the declarative
store lists `records`. -/
def sample.config (listing : List (FederationRelationship String))
    (records : List v1alpha1.ClusterFederatedTrustDomain) : ReconcilerConfig Unit String :=
  { TrustDomainClient := sample.client listing
    K8sClient := .ok records
    GCInterval := 0 }

/-- The sample range order: maps are visited in the order they were filled. -/
def sample.order : RangeOrder String :=
  { current := fun m => m, desired := fun m => m }

/-- Sample records declaring `{B:1, C:2, D:1}`. -/
def sample.records : List v1alpha1.ClusterFederatedTrustDomain :=
  [sample.record "B" "B" "1", sample.record "C" "C" "2", sample.record "D" "D" "1"]

/-- Two sample records in conflict: both declare the trust domain `A`. -/
def sample.conflict : List v1alpha1.ClusterFederatedTrustDomain :=
  [sample.record "first" "A" "1", sample.record "second" "A" "2"]

/-- The range order that visits every map back to front. -/
def sample.reversed : RangeOrder String :=
  { current := fun m => m.reverse, desired := fun m => m.reverse }

/-- A sample configuration whose authority fails to list. -/
def sample.failingList : ReconcilerConfig Unit String :=
  { TrustDomainClient :=
      { sample.client [] with
        ListFederationRelationships := fun s => (.error "authority unavailable", s) }
    K8sClient := .ok sample.records
    GCInterval := 0 }

/-- A sample configuration whose declarative store fails to list; the
authority lists `{A:1, B:1, C:1}`. -/
def sample.failingStore : ReconcilerConfig Unit String :=
  { TrustDomainClient :=
      sample.client [sample.relationship "A" "1", sample.relationship "B" "1",
        sample.relationship "C" "1"]
    K8sClient := .error "store unavailable"
    GCInterval := 0 }

/-- The sample pass of the diff example: the authority lists `{A:1, B:1, C:1}`,
the store declares `{B:1, C:2, D:1}`. -/
def sample.pass : ReconcilerConfig Unit String :=
  sample.config [sample.relationship "A" "1", sample.relationship "B" "1",
    sample.relationship "C" "1"] sample.records

/-- The sample pass with an authority that answers a delete call with two OK
statuses, whatever it was given. -/
def sample.excess : ReconcilerConfig Unit String :=
  { sample.pass with
    TrustDomainClient :=
      { sample.pass.TrustDomainClient with
        DeleteFederationRelationships := fun s _ =>
          (.ok [{ Code := codes.OK, Message := "" }, { Code := codes.OK, Message := "" }], s) } }

/-- The sample pass with an authority whose delete call fails as a whole. -/
def sample.failingDelete : ReconcilerConfig Unit String :=
  { sample.pass with
    TrustDomainClient :=
      { sample.pass.TrustDomainClient with
        DeleteFederationRelationships := fun s _ => (.error "delete failed", s) } }

/-- A sample authority that answers a batch call with the status list
`[OK, 6]`, whatever it was given (code 6 is not OK). -/
def sample.mixed : ReconcilerConfig Unit String :=
  { TrustDomainClient :=
      { ListFederationRelationships := fun s => (.ok [], s)
        CreateFederationRelationships := fun s _ =>
          (.ok [{ Code := codes.OK, Message := "" }, { Code := 6, Message := "exists" }], s)
        UpdateFederationRelationships := fun s _ =>
          (.ok [{ Code := codes.OK, Message := "" }, { Code := 6, Message := "exists" }], s)
        DeleteFederationRelationships := fun s _ =>
          (.ok [{ Code := codes.OK, Message := "" }, { Code := 6, Message := "exists" }], s) }
    K8sClient := .ok []
    GCInterval := 0 }

end spirefederationrelationship

/-! ## Maps -/

namespace spirefederationrelationship

open spireapi

theorem GoMap.index_eq_none_iff {K V : Type} [DecidableEq K] (m : GoMap K V) (k : K) :
    GoMap.index m k = none ↔ k ∉ m.map Prod.fst := by
  induction m with
  | nil => simp [GoMap.index]
  | cons e m ih =>
    by_cases hk : e.1 = k
    · simp [GoMap.index, hk]
    · have hk' : ¬ k = e.1 := fun h => hk h.symm
      simp only [GoMap.index, hk, if_false, ih, List.map_cons, List.mem_cons, not_or]
      exact ⟨fun h => ⟨hk', h⟩, fun h => h.2⟩

theorem GoMap.mem_of_index_eq_some {K V : Type} [DecidableEq K] (m : GoMap K V) (k : K) (v : V)
    (h : GoMap.index m k = some v) : (k, v) ∈ m := by
  induction m with
  | nil => simp [GoMap.index] at h
  | cons e m ih =>
    by_cases hk : e.1 = k
    · simp only [GoMap.index, hk, if_true, Option.some.injEq] at h
      have : e = (k, v) := Prod.ext hk h
      simp [this]
    · simp only [GoMap.index, hk, if_false] at h
      exact List.mem_cons_of_mem _ (ih h)

theorem GoMap.index_eq_some_of_mem {K V : Type} [DecidableEq K] (m : GoMap K V) (k : K) (v : V)
    (hwf : GoMap.WF m) (h : (k, v) ∈ m) : GoMap.index m k = some v := by
  induction m with
  | nil => simp at h
  | cons e m ih =>
    have hnd : e.1 ∉ m.map Prod.fst ∧ (m.map Prod.fst).Nodup := by
      simpa [GoMap.WF] using hwf
    rcases List.mem_cons.1 h with h | h
    · subst h
      simp [GoMap.index]
    · have hne : e.1 ≠ k := by
        intro hk
        apply hnd.1
        rw [hk]
        exact List.mem_map_of_mem Prod.fst h
      simp only [GoMap.index, hne, if_false]
      exact ih hnd.2 h

theorem GoMap.index_eq_some_iff {K V : Type} [DecidableEq K] (m : GoMap K V) (k : K) (v : V)
    (hwf : GoMap.WF m) : GoMap.index m k = some v ↔ (k, v) ∈ m :=
  ⟨GoMap.mem_of_index_eq_some m k v, GoMap.index_eq_some_of_mem m k v hwf⟩

theorem GoMap.WF_of_perm {K V : Type} {m m' : GoMap K V} (hp : m'.Perm m) (hwf : GoMap.WF m) :
    GoMap.WF m' :=
  ((hp.map Prod.fst).nodup_iff).2 hwf

theorem GoMap.index_perm {K V : Type} [DecidableEq K] {m m' : GoMap K V} (hp : m'.Perm m)
    (hwf : GoMap.WF m) (k : K) : GoMap.index m' k = GoMap.index m k := by
  have hwf' : GoMap.WF m' := GoMap.WF_of_perm hp hwf
  cases hm : GoMap.index m k with
  | none =>
    rw [GoMap.index_eq_none_iff] at hm ⊢
    intro hk
    exact hm (((hp.map Prod.fst).mem_iff).1 hk)
  | some v =>
    rw [GoMap.index_eq_some_iff _ _ _ hwf] at hm
    rw [GoMap.index_eq_some_iff _ _ _ hwf']
    exact (hp.mem_iff).2 hm

theorem GoMap.index_assign {K V : Type} [DecidableEq K] (m : GoMap K V) (k k' : K) (v : V) :
    GoMap.index (GoMap.assign m k v) k' = if k = k' then some v else GoMap.index m k' := by
  induction m with
  | nil => simp [GoMap.assign, GoMap.index]
  | cons e m ih =>
    by_cases hk : e.1 = k
    · by_cases hk' : k = k'
      · simp [GoMap.assign, GoMap.index, hk, hk']
      · have : ¬ e.1 = k' := fun h => hk' (hk ▸ h)
        simp [GoMap.assign, GoMap.index, hk, hk', this]
    · by_cases hk' : k = k'
      · subst hk'
        simp [GoMap.assign, GoMap.index, hk, ih]
      · simp [GoMap.assign, GoMap.index, hk, hk', ih]

theorem GoMap.keys_assign_of_absent {K V : Type} [DecidableEq K] (m : GoMap K V) (k : K) (v : V)
    (h : GoMap.index m k = none) : GoMap.assign m k v = m ++ [(k, v)] := by
  induction m with
  | nil => simp [GoMap.assign]
  | cons e m ih =>
    by_cases hk : e.1 = k
    · simp [GoMap.index, hk] at h
    · simp only [GoMap.index, hk, if_false] at h
      simp [GoMap.assign, hk, ih h]

theorem GoMap.mem_keys_assign {K V : Type} [DecidableEq K] (m : GoMap K V) (k k' : K) (v : V) :
    k' ∈ (GoMap.assign m k v).map Prod.fst ↔ k' = k ∨ k' ∈ m.map Prod.fst := by
  have h1 := GoMap.index_eq_none_iff (GoMap.assign m k v) k'
  have h2 := GoMap.index_eq_none_iff m k'
  rw [GoMap.index_assign] at h1
  by_cases hk : k = k'
  · simp [hk]  at h1 ⊢
    exact h1
  · have hk' : ¬ k' = k := fun h => hk h.symm
    simp only [hk, if_false] at h1
    simp only [hk', false_or]
    rw [← not_iff_not, ← h1, h2]

theorem GoMap.WF_assign {K V : Type} [DecidableEq K] (m : GoMap K V) (k : K) (v : V)
    (hwf : GoMap.WF m) : GoMap.WF (GoMap.assign m k v) := by
  induction m with
  | nil => simp [GoMap.assign, GoMap.WF]
  | cons e m ih =>
    have hnd : e.1 ∉ m.map Prod.fst ∧ (m.map Prod.fst).Nodup := by
      simpa [GoMap.WF] using hwf
    by_cases hk : e.1 = k
    · simp only [GoMap.assign, hk, if_true]
      have : k ∉ m.map Prod.fst := hk ▸ hnd.1
      simpa [GoMap.WF] using And.intro this hnd.2
    · simp only [GoMap.assign, hk, if_false]
      have h1 : e.1 ∉ (GoMap.assign m k v).map Prod.fst := by
        rw [GoMap.mem_keys_assign]
        exact fun h => h.elim hk hnd.1
      have h2 : ((GoMap.assign m k v).map Prod.fst).Nodup := ih hnd.2
      simpa [GoMap.WF] using And.intro h1 h2

end spirefederationrelationship

/-! ## The work lists as filters of the two maps -/

namespace spirefederationrelationship

open spireapi

theorem workLists_eq {B : Type}
    (Equal : FederationRelationship B → FederationRelationship B → Bool)
    (remote : GoMap spiffeid.TrustDomain (FederationRelationship B))
    (desired : GoMap spiffeid.TrustDomain (clusterFederatedTrustDomainState B)) :
    workLists Equal remote desired =
      { toDelete := (remote.filter (isDelete desired)).map Prod.snd
        toCreate := (desired.filter (isCreate remote)).map (fun e => e.2.FederationRelationship)
        toUpdate :=
          (desired.filter (isUpdate Equal remote)).map (fun e => e.2.FederationRelationship) } := by
  have h1 : ∀ (l : List (spiffeid.TrustDomain × FederationRelationship B)) (w : WorkLists B),
      l.foldl (fun w e =>
        match GoMap.index desired e.1 with
        | none => { w with toDelete := w.toDelete ++ [e.2] }
        | some _ => w) w
      = { w with toDelete := w.toDelete ++ (l.filter (isDelete desired)).map Prod.snd } := by
    intro l
    induction l with
    | nil => intro w; simp
    | cons e l ih =>
      intro w
      rw [List.foldl_cons, ih]
      cases hd : GoMap.index desired e.1 with
      | none => simp [isDelete, hd]
      | some st => simp [isDelete, hd]
  have h2 : ∀ (l : List (spiffeid.TrustDomain × clusterFederatedTrustDomainState B))
      (w : WorkLists B),
      l.foldl (fun w e =>
        match GoMap.index remote e.1 with
        | none => { w with toCreate := w.toCreate ++ [e.2.FederationRelationship] }
        | some currentRelationship =>
          if !Equal currentRelationship e.2.FederationRelationship then
            { w with toUpdate := w.toUpdate ++ [e.2.FederationRelationship] }
          else w) w
      = { toDelete := w.toDelete
          toCreate := w.toCreate ++
            (l.filter (isCreate remote)).map (fun e => e.2.FederationRelationship)
          toUpdate := w.toUpdate ++
            (l.filter (isUpdate Equal remote)).map (fun e => e.2.FederationRelationship) } := by
    intro l
    induction l with
    | nil => intro w; simp
    | cons e l ih =>
      intro w
      rw [List.foldl_cons, ih]
      cases hd : GoMap.index remote e.1 with
      | none => simp [isCreate, isUpdate, hd]
      | some cur =>
        cases he : Equal cur e.2.FederationRelationship <;>
          simp [isCreate, isUpdate, hd, he]
  unfold workLists
  simp only [h1, h2]
  simp

end spirefederationrelationship

/-! ## The diff: `toDelete`, `toCreate`, `toUpdate` -/

namespace spirefederationrelationship

open spireapi

theorem keys_filter_map {B V : Type} (m : GoMap spiffeid.TrustDomain V)
    (p : spiffeid.TrustDomain × V → Bool) (f : V → FederationRelationship B)
    (hkey : ∀ e ∈ m, (f e.2).TrustDomain = e.1) :
    (((m.filter p).map (fun e => f e.2)).map (fun fr => fr.TrustDomain))
      = (m.filter p).map Prod.fst := by
  rw [List.map_map]
  apply List.map_congr_left
  intro e he
  exact hkey e (List.mem_of_mem_filter he)

theorem nodup_keys_filter {V : Type} (m : GoMap spiffeid.TrustDomain V)
    (p : spiffeid.TrustDomain × V → Bool) (hwf : GoMap.WF m) :
    ((m.filter p).map Prod.fst).Nodup :=
  List.Nodup.sublist (List.Sublist.map Prod.fst (List.filter_sublist m)) hwf

theorem mem_toDelete_iff {B : Type}
    (Equal : FederationRelationship B → FederationRelationship B → Bool)
    (remote : GoMap spiffeid.TrustDomain (FederationRelationship B))
    (desired : GoMap spiffeid.TrustDomain (clusterFederatedTrustDomainState B))
    (hwf : GoMap.WF remote) (hkey : ∀ e ∈ remote, e.2.TrustDomain = e.1)
    (fr : FederationRelationship B) :
    fr ∈ (workLists Equal remote desired).toDelete ↔
      GoMap.index remote fr.TrustDomain = some fr ∧
        GoMap.index desired fr.TrustDomain = none := by
  rw [workLists_eq]
  simp only [List.mem_map, List.mem_filter, isDelete, Option.isNone_iff_eq_none]
  constructor
  · rintro ⟨e, ⟨he, hd⟩, rfl⟩
    have hk := hkey e he
    rw [hk]
    exact ⟨GoMap.index_eq_some_of_mem remote e.1 e.2 hwf he, hd⟩
  · rintro ⟨hr, hd⟩
    exact ⟨(fr.TrustDomain, fr), ⟨GoMap.mem_of_index_eq_some remote _ _ hr, hd⟩, rfl⟩

theorem mem_toCreate_iff {B : Type}
    (Equal : FederationRelationship B → FederationRelationship B → Bool)
    (remote : GoMap spiffeid.TrustDomain (FederationRelationship B))
    (desired : GoMap spiffeid.TrustDomain (clusterFederatedTrustDomainState B))
    (hwf : GoMap.WF desired)
    (hkey : ∀ e ∈ desired, e.2.FederationRelationship.TrustDomain = e.1)
    (fr : FederationRelationship B) :
    fr ∈ (workLists Equal remote desired).toCreate ↔
      (∃ st, GoMap.index desired fr.TrustDomain = some st ∧ st.FederationRelationship = fr) ∧
        GoMap.index remote fr.TrustDomain = none := by
  rw [workLists_eq]
  simp only [List.mem_map, List.mem_filter, isCreate, Option.isNone_iff_eq_none]
  constructor
  · rintro ⟨e, ⟨he, hd⟩, rfl⟩
    have hk := hkey e he
    rw [hk]
    exact ⟨⟨e.2, GoMap.index_eq_some_of_mem desired e.1 e.2 hwf he, rfl⟩, hd⟩
  · rintro ⟨⟨st, hst, rfl⟩, hd⟩
    exact ⟨(st.FederationRelationship.TrustDomain, st),
      ⟨GoMap.mem_of_index_eq_some desired _ _ hst, hd⟩, rfl⟩

theorem mem_toUpdate_iff {B : Type}
    (Equal : FederationRelationship B → FederationRelationship B → Bool)
    (remote : GoMap spiffeid.TrustDomain (FederationRelationship B))
    (desired : GoMap spiffeid.TrustDomain (clusterFederatedTrustDomainState B))
    (hwf : GoMap.WF desired)
    (hkey : ∀ e ∈ desired, e.2.FederationRelationship.TrustDomain = e.1)
    (fr : FederationRelationship B) :
    fr ∈ (workLists Equal remote desired).toUpdate ↔
      (∃ st, GoMap.index desired fr.TrustDomain = some st ∧ st.FederationRelationship = fr) ∧
        ∃ cur, GoMap.index remote fr.TrustDomain = some cur ∧ Equal cur fr = false := by
  rw [workLists_eq]
  simp only [List.mem_map, List.mem_filter]
  constructor
  · rintro ⟨e, ⟨he, hd⟩, rfl⟩
    have hk := hkey e he
    rw [hk]
    refine ⟨⟨e.2, GoMap.index_eq_some_of_mem desired e.1 e.2 hwf he, rfl⟩, ?_⟩
    unfold isUpdate at hd
    cases hc : GoMap.index remote e.1 with
    | none => simp [hc] at hd
    | some cur =>
      simp only [hc, Bool.not_eq_true'] at hd
      exact ⟨cur, rfl, hd⟩
  · rintro ⟨⟨st, hst, rfl⟩, cur, hcur, heq⟩
    refine ⟨(st.FederationRelationship.TrustDomain, st),
      ⟨GoMap.mem_of_index_eq_some desired _ _ hst, ?_⟩, rfl⟩
    simp [isUpdate, hcur, heq]

/-- C1: the `toDelete` list of a pass holds exactly the remote relationships
whose trust domain is not a key of the desired map, each with its remote value
and once only (no trust domain occurs twice in the list), and nothing whose
trust domain is a key of the desired map. -/
theorem toDelete_exact {B : Type}
    (Equal : FederationRelationship B → FederationRelationship B → Bool)
    (remote : GoMap spiffeid.TrustDomain (FederationRelationship B))
    (desired : GoMap spiffeid.TrustDomain (clusterFederatedTrustDomainState B))
    (hwf : GoMap.WF remote) (hkey : ∀ e ∈ remote, e.2.TrustDomain = e.1) :
    (∀ fr, fr ∈ (workLists Equal remote desired).toDelete ↔
      GoMap.index remote fr.TrustDomain = some fr ∧
        GoMap.index desired fr.TrustDomain = none) ∧
    ((workLists Equal remote desired).toDelete.map (fun fr => fr.TrustDomain)).Nodup := by
  refine ⟨mem_toDelete_iff Equal remote desired hwf hkey, ?_⟩
  · rw [workLists_eq]
    have h := keys_filter_map remote (isDelete desired) (fun v => v) hkey
    simp only at h
    show (List.map (fun fr => fr.TrustDomain)
      (List.map Prod.snd (List.filter (isDelete desired) remote))).Nodup
    have h' : List.map Prod.snd (List.filter (isDelete desired) remote)
        = List.map (fun e => e.2) (List.filter (isDelete desired) remote) := rfl
    rw [h', h]
    exact nodup_keys_filter remote _ hwf

/-- C1, at the sample maps `{A:1, B:1, C:1}` and `{B:1, C:2, D:1}`. -/
theorem toDelete_exact_witness :
    GoMap.WF sample.remote ∧
    ((workLists sample.Equal sample.remote sample.desired).toDelete.map
      (fun fr => fr.TrustDomain)).Nodup :=
  ⟨by decide,
   (toDelete_exact sample.Equal sample.remote sample.desired (by decide) (by decide)).2⟩

end spirefederationrelationship

namespace spirefederationrelationship

open spireapi

theorem keys_toDelete {B : Type}
    (Equal : FederationRelationship B → FederationRelationship B → Bool)
    (remote : GoMap spiffeid.TrustDomain (FederationRelationship B))
    (desired : GoMap spiffeid.TrustDomain (clusterFederatedTrustDomainState B))
    (hkey : ∀ e ∈ remote, e.2.TrustDomain = e.1) :
    (workLists Equal remote desired).toDelete.map (fun fr => fr.TrustDomain)
      = (remote.filter (isDelete desired)).map Prod.fst := by
  rw [workLists_eq]
  exact keys_filter_map remote (isDelete desired) (fun v => v) hkey

theorem keys_toCreate {B : Type}
    (Equal : FederationRelationship B → FederationRelationship B → Bool)
    (remote : GoMap spiffeid.TrustDomain (FederationRelationship B))
    (desired : GoMap spiffeid.TrustDomain (clusterFederatedTrustDomainState B))
    (hkey : ∀ e ∈ desired, e.2.FederationRelationship.TrustDomain = e.1) :
    (workLists Equal remote desired).toCreate.map (fun fr => fr.TrustDomain)
      = (desired.filter (isCreate remote)).map Prod.fst := by
  rw [workLists_eq]
  exact keys_filter_map desired (isCreate remote) (fun v => v.FederationRelationship) hkey

theorem keys_toUpdate {B : Type}
    (Equal : FederationRelationship B → FederationRelationship B → Bool)
    (remote : GoMap spiffeid.TrustDomain (FederationRelationship B))
    (desired : GoMap spiffeid.TrustDomain (clusterFederatedTrustDomainState B))
    (hkey : ∀ e ∈ desired, e.2.FederationRelationship.TrustDomain = e.1) :
    (workLists Equal remote desired).toUpdate.map (fun fr => fr.TrustDomain)
      = (desired.filter (isUpdate Equal remote)).map Prod.fst := by
  rw [workLists_eq]
  exact keys_filter_map desired (isUpdate Equal remote) (fun v => v.FederationRelationship) hkey

theorem key_of_delete {B : Type}
    (remote : GoMap spiffeid.TrustDomain (FederationRelationship B))
    (desired : GoMap spiffeid.TrustDomain (clusterFederatedTrustDomainState B))
    (k : spiffeid.TrustDomain) (hk : k ∈ (remote.filter (isDelete desired)).map Prod.fst) :
    k ∈ remote.map Prod.fst ∧ GoMap.index desired k = none := by
  obtain ⟨e, he, rfl⟩ := List.mem_map.1 hk
  obtain ⟨hm, hp⟩ := List.mem_filter.1 he
  exact ⟨List.mem_map_of_mem Prod.fst hm, by simpa [isDelete] using hp⟩

theorem key_of_create {B : Type}
    (remote : GoMap spiffeid.TrustDomain (FederationRelationship B))
    (desired : GoMap spiffeid.TrustDomain (clusterFederatedTrustDomainState B))
    (k : spiffeid.TrustDomain) (hk : k ∈ (desired.filter (isCreate remote)).map Prod.fst) :
    k ∈ desired.map Prod.fst ∧ GoMap.index remote k = none := by
  obtain ⟨e, he, rfl⟩ := List.mem_map.1 hk
  obtain ⟨hm, hp⟩ := List.mem_filter.1 he
  exact ⟨List.mem_map_of_mem Prod.fst hm, by simpa [isCreate] using hp⟩

theorem key_of_update {B : Type}
    (Equal : FederationRelationship B → FederationRelationship B → Bool)
    (remote : GoMap spiffeid.TrustDomain (FederationRelationship B))
    (desired : GoMap spiffeid.TrustDomain (clusterFederatedTrustDomainState B))
    (k : spiffeid.TrustDomain)
    (hk : k ∈ (desired.filter (isUpdate Equal remote)).map Prod.fst) :
    k ∈ desired.map Prod.fst ∧ GoMap.index remote k ≠ none := by
  obtain ⟨e, he, rfl⟩ := List.mem_map.1 hk
  obtain ⟨hm, hp⟩ := List.mem_filter.1 he
  refine ⟨List.mem_map_of_mem Prod.fst hm, ?_⟩
  intro hn
  simp [isUpdate, hn] at hp

theorem filter_key_eq_singleton {α κ : Type} [DecidableEq κ] (f : α → κ) (l : List α)
    (hnd : (l.map f).Nodup) (x : α) (hx : x ∈ l) :
    l.filter (fun a => decide (f a = f x)) = [x] := by
  induction l with
  | nil => simp at hx
  | cons a l ih =>
    have hnd' : f a ∉ l.map f ∧ (l.map f).Nodup := by simpa using hnd
    rcases List.mem_cons.1 hx with h | h
    · subst h
      have : l.filter (fun a => decide (f a = f x)) = [] := by
        rw [List.filter_eq_nil_iff]
        intro b hb hfb
        apply hnd'.1
        have hfb' : f b = f x := by simpa using hfb
        rw [← hfb']
        exact List.mem_map_of_mem f hb
      simp [List.filter_cons, this]
    · have hne : ¬ f a = f x := by
        intro hfa
        apply hnd'.1
        rw [hfa]
        exact List.mem_map_of_mem f h
      simp [List.filter_cons, hne, ih hnd'.2 h]

/-- C2: the `toCreate` list of a pass holds exactly the desired relationships
whose trust domain is not a key of the remote map, each with its desired
(parsed) value and once only (no trust domain occurs twice in the list), and
nothing whose trust domain is a key of the remote map. -/
theorem toCreate_exact {B : Type}
    (Equal : FederationRelationship B → FederationRelationship B → Bool)
    (remote : GoMap spiffeid.TrustDomain (FederationRelationship B))
    (desired : GoMap spiffeid.TrustDomain (clusterFederatedTrustDomainState B))
    (hwf : GoMap.WF desired)
    (hkey : ∀ e ∈ desired, e.2.FederationRelationship.TrustDomain = e.1) :
    (∀ fr, fr ∈ (workLists Equal remote desired).toCreate ↔
      (∃ st, GoMap.index desired fr.TrustDomain = some st ∧ st.FederationRelationship = fr) ∧
        GoMap.index remote fr.TrustDomain = none) ∧
    ((workLists Equal remote desired).toCreate.map (fun fr => fr.TrustDomain)).Nodup := by
  refine ⟨mem_toCreate_iff Equal remote desired hwf hkey, ?_⟩
  rw [keys_toCreate Equal remote desired hkey]
  exact nodup_keys_filter desired _ hwf

/-- C2, at the sample maps `{A:1, B:1, C:1}` and `{B:1, C:2, D:1}`. -/
theorem toCreate_exact_witness :
    GoMap.WF sample.desired ∧
    ((workLists sample.Equal sample.remote sample.desired).toCreate.map
      (fun fr => fr.TrustDomain)).Nodup :=
  ⟨by decide,
   (toCreate_exact sample.Equal sample.remote sample.desired (by decide) (by decide)).2⟩

/-- C3: for a trust domain `k` that is a key of both maps, with remote value
`cur` and desired state `st`: when `cur.Equal(desired value)` is false the
entries of `toUpdate` for `k` are the desired value, once; when it is true no
entry of `toDelete`, `toCreate` or `toUpdate` has trust domain `k`. Every entry
of `toUpdate` has a trust domain that is a key of both maps. -/
theorem toUpdate_exact {B : Type}
    (Equal : FederationRelationship B → FederationRelationship B → Bool)
    (remote : GoMap spiffeid.TrustDomain (FederationRelationship B))
    (desired : GoMap spiffeid.TrustDomain (clusterFederatedTrustDomainState B))
    (hwfR : GoMap.WF remote) (hkeyR : ∀ e ∈ remote, e.2.TrustDomain = e.1)
    (hwfD : GoMap.WF desired)
    (hkeyD : ∀ e ∈ desired, e.2.FederationRelationship.TrustDomain = e.1) :
    (∀ k cur st, GoMap.index remote k = some cur → GoMap.index desired k = some st →
      (Equal cur st.FederationRelationship = false →
        (workLists Equal remote desired).toUpdate.filter
          (fun fr => decide (fr.TrustDomain = k)) = [st.FederationRelationship]) ∧
      (Equal cur st.FederationRelationship = true →
        ∀ fr, fr ∈ (workLists Equal remote desired).toDelete ∨
              fr ∈ (workLists Equal remote desired).toCreate ∨
              fr ∈ (workLists Equal remote desired).toUpdate → fr.TrustDomain ≠ k)) ∧
    (∀ fr ∈ (workLists Equal remote desired).toUpdate,
      GoMap.index remote fr.TrustDomain ≠ none ∧ GoMap.index desired fr.TrustDomain ≠ none) := by
  constructor
  · intro k cur st hcur hst
    have hmem : (k, st) ∈ desired := GoMap.mem_of_index_eq_some desired k st hst
    have hk : st.FederationRelationship.TrustDomain = k := hkeyD (k, st) hmem
    constructor
    · intro hne
      have hin : st.FederationRelationship ∈ (workLists Equal remote desired).toUpdate := by
        rw [mem_toUpdate_iff Equal remote desired hwfD hkeyD]
        rw [hk]
        exact ⟨⟨st, hst, rfl⟩, cur, hcur, hne⟩
      have hnd : ((workLists Equal remote desired).toUpdate.map
          (fun fr => fr.TrustDomain)).Nodup := by
        rw [keys_toUpdate Equal remote desired hkeyD]
        exact nodup_keys_filter desired _ hwfD
      have h := filter_key_eq_singleton (fun fr : FederationRelationship B => fr.TrustDomain)
        _ hnd _ hin
      simp only [hk] at h
      exact h
    · intro heq fr hfr hfk
      rcases hfr with h | h | h
      · rw [mem_toDelete_iff Equal remote desired hwfR hkeyR] at h
        rw [hfk, hst] at h
        exact Option.noConfusion h.2
      · rw [mem_toCreate_iff Equal remote desired hwfD hkeyD] at h
        rw [hfk, hcur] at h
        exact Option.noConfusion h.2
      · rw [mem_toUpdate_iff Equal remote desired hwfD hkeyD] at h
        obtain ⟨⟨st', hst', hfr'⟩, cur', hcur', hne'⟩ := h
        rw [hfk, hst] at hst'
        rw [hfk, hcur] at hcur'
        cases hst'
        cases hcur'
        rw [← hfr', heq] at hne'
        exact Bool.noConfusion hne'
  · intro fr hfr
    rw [mem_toUpdate_iff Equal remote desired hwfD hkeyD] at hfr
    obtain ⟨⟨st, hst, _⟩, cur, hcur, _⟩ := hfr
    rw [hst, hcur]
    exact ⟨Option.noConfusion, Option.noConfusion⟩

/-- C3, at the sample maps `{A:1, B:1, C:1}` and `{B:1, C:2, D:1}` and the
trust domain `C`, whose two versions differ. -/
theorem toUpdate_exact_witness :
    GoMap.WF sample.remote ∧ GoMap.WF sample.desired ∧
    (workLists sample.Equal sample.remote sample.desired).toUpdate.filter
      (fun fr => decide (fr.TrustDomain = { name := "C" })) = [sample.relationship "C" "2"] :=
  ⟨by decide, by decide,
   ((toUpdate_exact sample.Equal sample.remote sample.desired
      (by decide) (by decide) (by decide) (by decide)).1
      { name := "C" } (sample.relationship "C" "1") (sample.state "C" "2")
      (by decide) (by decide)).1 (by decide)⟩

/-- C4: the three work lists of a pass are disjoint by key: taken together, the
trust domains of `toDelete`, `toCreate` and `toUpdate` are pairwise distinct,
so none occurs in two lists and none occurs twice in one list. -/
theorem workLists_disjoint {B : Type}
    (Equal : FederationRelationship B → FederationRelationship B → Bool)
    (remote : GoMap spiffeid.TrustDomain (FederationRelationship B))
    (desired : GoMap spiffeid.TrustDomain (clusterFederatedTrustDomainState B))
    (hwfR : GoMap.WF remote) (hkeyR : ∀ e ∈ remote, e.2.TrustDomain = e.1)
    (hwfD : GoMap.WF desired)
    (hkeyD : ∀ e ∈ desired, e.2.FederationRelationship.TrustDomain = e.1) :
    (((workLists Equal remote desired).toDelete ++
      (workLists Equal remote desired).toCreate ++
      (workLists Equal remote desired).toUpdate).map (fun fr => fr.TrustDomain)).Nodup := by
  rw [List.map_append, List.map_append, keys_toDelete Equal remote desired hkeyR,
    keys_toCreate Equal remote desired hkeyD, keys_toUpdate Equal remote desired hkeyD]
  rw [List.nodup_append, List.nodup_append]
  refine ⟨⟨nodup_keys_filter remote _ hwfR, nodup_keys_filter desired _ hwfD, ?_⟩,
    nodup_keys_filter desired _ hwfD, ?_⟩
  · intro k hk1 hk2
    have h1 := key_of_delete remote desired k hk1
    have h2 := key_of_create remote desired k hk2
    exact (GoMap.index_eq_none_iff desired k).1 h1.2 h2.1
  · intro k hk1 hk2
    have h3 := key_of_update Equal remote desired k hk2
    rcases List.mem_append.1 hk1 with h | h
    · have h1 := key_of_delete remote desired k h
      exact (GoMap.index_eq_none_iff desired k).1 h1.2 h3.1
    · have h2 := key_of_create remote desired k h
      exact h3.2 h2.2

/-- C4, at the sample maps `{A:1, B:1, C:1}` and `{B:1, C:2, D:1}`. -/
theorem workLists_disjoint_witness :
    (((workLists sample.Equal sample.remote sample.desired).toDelete ++
      (workLists sample.Equal sample.remote sample.desired).toCreate ++
      (workLists sample.Equal sample.remote sample.desired).toUpdate).map
        (fun fr => fr.TrustDomain)).Nodup :=
  workLists_disjoint sample.Equal sample.remote sample.desired
    (by decide) (by decide) (by decide) (by decide)

end spirefederationrelationship

/-! ## The two listings -/

namespace spirefederationrelationship

open spireapi

theorem GoMap.mem_assign {K V : Type} [DecidableEq K] (m : GoMap K V) (k : K) (v : V)
    (e : K × V) (he : e ∈ GoMap.assign m k v) : e = (k, v) ∨ e ∈ m := by
  induction m with
  | nil => simpa [GoMap.assign] using he
  | cons a m ih =>
    by_cases hk : a.1 = k
    · simp only [GoMap.assign, hk, if_true, List.mem_cons] at he
      rcases he with h | h
      · exact Or.inl h
      · exact Or.inr (List.mem_cons_of_mem _ h)
    · simp only [GoMap.assign, hk, if_false, List.mem_cons] at he
      rcases he with h | h
      · exact Or.inr (by simp [h])
      · rcases ih h with h' | h'
        · exact Or.inl h'
        · exact Or.inr (List.mem_cons_of_mem _ h')

theorem remote_fold_invariant {B : Type} (frs : List (FederationRelationship B))
    (m : GoMap spiffeid.TrustDomain (FederationRelationship B))
    (hwf : GoMap.WF m) (hkey : ∀ e ∈ m, e.2.TrustDomain = e.1) :
    GoMap.WF (frs.foldl (fun out fr => GoMap.assign out fr.TrustDomain fr) m) ∧
    ∀ e ∈ frs.foldl (fun out fr => GoMap.assign out fr.TrustDomain fr) m,
      e.2.TrustDomain = e.1 := by
  induction frs generalizing m with
  | nil => exact ⟨hwf, hkey⟩
  | cons fr frs ih =>
    rw [List.foldl_cons]
    apply ih
    · exact GoMap.WF_assign m _ _ hwf
    · intro e he
      rcases GoMap.mem_assign m _ _ e he with h | h
      · rw [h]
      · exact hkey e h

theorem listFederationRelationships_invariant {σ B : Type} (config : ReconcilerConfig σ B)
    (s s' : σ) (remote : GoMap spiffeid.TrustDomain (FederationRelationship B))
    (hremote : listFederationRelationships config s = (.ok remote, s')) :
    GoMap.WF remote ∧ ∀ e ∈ remote, e.2.TrustDomain = e.1 := by
  unfold listFederationRelationships at hremote
  cases hl : config.TrustDomainClient.ListFederationRelationships s with
  | mk res s1 =>
    cases res with
    | error err => simp [hl] at hremote
    | ok frs =>
      simp only [hl, Prod.mk.injEq, Except.ok.injEq] at hremote
      rw [← hremote.1]
      exact remote_fold_invariant frs [] (by simp [GoMap.WF]) (by simp)

theorem step_invariant {B : Type} (h : Helpers B) (x : v1alpha1.External B)
    (acc : GoMap spiffeid.TrustDomain (clusterFederatedTrustDomainState B) × List LogEntry)
    (r : v1alpha1.ClusterFederatedTrustDomain)
    (hwf : GoMap.WF acc.1)
    (hkey : ∀ e ∈ acc.1, e.2.FederationRelationship.TrustDomain = e.1) :
    GoMap.WF (listClusterFederatedTrustDomains.step h x acc r).1 ∧
    ∀ e ∈ (listClusterFederatedTrustDomains.step h x acc r).1,
      e.2.FederationRelationship.TrustDomain = e.1 := by
  unfold listClusterFederatedTrustDomains.step
  cases hp : v1alpha1.ParseClusterFederatedTrustDomainSpec x r.Spec with
  | error err => exact ⟨hwf, hkey⟩
  | ok fr =>
    cases hi : GoMap.index acc.1 fr.TrustDomain with
    | some existing => simp only [hi]; exact ⟨hwf, hkey⟩
    | none =>
      simp only [hi]
      refine ⟨GoMap.WF_assign _ _ _ hwf, ?_⟩
      intro e he
      rcases GoMap.mem_assign _ _ _ e he with h' | h'
      · rw [h']
      · exact hkey e h'

theorem step_index {B : Type} (h : Helpers B) (x : v1alpha1.External B)
    (acc : GoMap spiffeid.TrustDomain (clusterFederatedTrustDomainState B) × List LogEntry)
    (r : v1alpha1.ClusterFederatedTrustDomain) (T : spiffeid.TrustDomain) :
    GoMap.index (listClusterFederatedTrustDomains.step h x acc r).1 T =
      match GoMap.index acc.1 T with
      | some st => some st
      | none => winner x [r] T := by
  unfold listClusterFederatedTrustDomains.step winner firstSeen parsesTo
  cases hp : v1alpha1.ParseClusterFederatedTrustDomainSpec x r.Spec with
  | error err =>
    cases hT : GoMap.index acc.1 T <;> simp [hp, hT]
  | ok fr =>
    by_cases hfr : fr.TrustDomain = T
    · subst hfr
      cases hi : GoMap.index acc.1 fr.TrustDomain with
      | some existing => simp [hi]
      | none => simp [hi, hp, GoMap.index_assign]
    · cases hi : GoMap.index acc.1 fr.TrustDomain with
      | some existing =>
        cases hT : GoMap.index acc.1 T <;> simp [hi, hp, hT, hfr]
      | none =>
        cases hT : GoMap.index acc.1 T <;> simp [hi, hp, hT, hfr, GoMap.index_assign]

theorem winner_cons {B : Type} (x : v1alpha1.External B)
    (r : v1alpha1.ClusterFederatedTrustDomain)
    (rs : List v1alpha1.ClusterFederatedTrustDomain) (T : spiffeid.TrustDomain) :
    winner x (r :: rs) T =
      match winner x [r] T with
      | some st => some st
      | none => winner x rs T := by
  unfold winner firstSeen
  cases hp : parsesTo x T r with
  | false => simp [List.find?, hp]
  | true =>
    simp only [List.find?, hp]
    unfold parsesTo at hp
    cases hq : v1alpha1.ParseClusterFederatedTrustDomainSpec x r.Spec with
    | error err => simp [hq] at hp
    | ok fr => simp

theorem fold_index {B : Type} (h : Helpers B) (x : v1alpha1.External B)
    (rs : List v1alpha1.ClusterFederatedTrustDomain) (T : spiffeid.TrustDomain)
    (acc : GoMap spiffeid.TrustDomain (clusterFederatedTrustDomainState B) × List LogEntry) :
    GoMap.index (rs.foldl (listClusterFederatedTrustDomains.step h x) acc).1 T =
      match GoMap.index acc.1 T with
      | some st => some st
      | none => winner x rs T := by
  induction rs generalizing acc with
  | nil =>
    cases hT : GoMap.index acc.1 T <;> simp [hT, winner, firstSeen]
  | cons r rs ih =>
    rw [List.foldl_cons, ih, step_index, winner_cons x r rs]
    cases hT : GoMap.index acc.1 T with
    | some st => simp
    | none => simp

theorem fold_invariant {B : Type} (h : Helpers B) (x : v1alpha1.External B)
    (rs : List v1alpha1.ClusterFederatedTrustDomain)
    (acc : GoMap spiffeid.TrustDomain (clusterFederatedTrustDomainState B) × List LogEntry)
    (hwf : GoMap.WF acc.1)
    (hkey : ∀ e ∈ acc.1, e.2.FederationRelationship.TrustDomain = e.1) :
    GoMap.WF (rs.foldl (listClusterFederatedTrustDomains.step h x) acc).1 ∧
    ∀ e ∈ (rs.foldl (listClusterFederatedTrustDomains.step h x) acc).1,
      e.2.FederationRelationship.TrustDomain = e.1 := by
  induction rs generalizing acc with
  | nil => exact ⟨hwf, hkey⟩
  | cons r rs ih =>
    rw [List.foldl_cons]
    have hs := step_invariant h x acc r hwf hkey
    exact ih _ hs.1 hs.2

theorem listClusterFederatedTrustDomains_invariant {σ B : Type} (h : Helpers B)
    (x : v1alpha1.External B) (config : ReconcilerConfig σ B)
    (desired : GoMap spiffeid.TrustDomain (clusterFederatedTrustDomainState B))
    (logged : List LogEntry)
    (hdesired : listClusterFederatedTrustDomains h x config = .ok (desired, logged)) :
    GoMap.WF desired ∧ ∀ e ∈ desired, e.2.FederationRelationship.TrustDomain = e.1 := by
  unfold listClusterFederatedTrustDomains at hdesired
  cases hk : config.K8sClient with
  | error err => simp [hk] at hdesired
  | ok records =>
    simp only [hk, Except.ok.injEq] at hdesired
    have hinv := fold_invariant h x records ([], []) (by simp [GoMap.WF]) (by simp)
    rw [hdesired] at hinv
    exact hinv

theorem listClusterFederatedTrustDomains_index {σ B : Type} (h : Helpers B)
    (x : v1alpha1.External B) (config : ReconcilerConfig σ B)
    (records : List v1alpha1.ClusterFederatedTrustDomain)
    (hk : config.K8sClient = .ok records)
    (desired : GoMap spiffeid.TrustDomain (clusterFederatedTrustDomainState B))
    (logged : List LogEntry)
    (hdesired : listClusterFederatedTrustDomains h x config = .ok (desired, logged))
    (T : spiffeid.TrustDomain) :
    GoMap.index desired T = winner x records T := by
  unfold listClusterFederatedTrustDomains at hdesired
  simp only [hk, Except.ok.injEq] at hdesired
  have hi := fold_index h x records T ([], [])
  rw [hdesired] at hi
  simpa [GoMap.index] using hi

theorem winner_parses {B : Type} (x : v1alpha1.External B)
    (records : List v1alpha1.ClusterFederatedTrustDomain) (T : spiffeid.TrustDomain)
    (st : clusterFederatedTrustDomainState B) (hw : winner x records T = some st) :
    firstSeen x records T = some st.ClusterFederatedTrustDomain ∧
    v1alpha1.ParseClusterFederatedTrustDomainSpec x st.ClusterFederatedTrustDomain.Spec
      = .ok st.FederationRelationship := by
  unfold winner at hw
  cases hf : firstSeen x records T with
  | none => simp [hf] at hw
  | some r =>
    cases hp : v1alpha1.ParseClusterFederatedTrustDomainSpec x r.Spec with
    | error err => simp [hf, hp] at hw
    | ok fr =>
      simp only [hf, hp, Option.some.injEq] at hw
      rw [← hw]
      exact ⟨rfl, hp⟩

theorem workLists_nil_of_equal {B : Type}
    (Equal : FederationRelationship B → FederationRelationship B → Bool)
    (remote : GoMap spiffeid.TrustDomain (FederationRelationship B))
    (desired : GoMap spiffeid.TrustDomain (clusterFederatedTrustDomainState B))
    (hwfD : GoMap.WF desired)
    (hsame : ∀ T, GoMap.index remote T = none ↔ GoMap.index desired T = none)
    (hequal : ∀ T cur st, GoMap.index remote T = some cur → GoMap.index desired T = some st →
      Equal cur st.FederationRelationship = true) :
    workLists Equal remote desired = { toDelete := [], toCreate := [], toUpdate := [] } := by
  rw [workLists_eq]
  have hD : remote.filter (isDelete desired) = [] := by
    rw [List.filter_eq_nil_iff]
    intro e he hd
    have hk : e.1 ∈ remote.map Prod.fst := List.mem_map_of_mem Prod.fst he
    have hnone : GoMap.index desired e.1 = none := by simpa [isDelete] using hd
    exact (GoMap.index_eq_none_iff remote e.1).1 ((hsame e.1).2 hnone) hk
  have hC : desired.filter (isCreate remote) = [] := by
    rw [List.filter_eq_nil_iff]
    intro e he hd
    have hk : e.1 ∈ desired.map Prod.fst := List.mem_map_of_mem Prod.fst he
    have hnone : GoMap.index remote e.1 = none := by simpa [isCreate] using hd
    exact (GoMap.index_eq_none_iff desired e.1).1 ((hsame e.1).1 hnone) hk
  have hU : desired.filter (isUpdate Equal remote) = [] := by
    rw [List.filter_eq_nil_iff]
    intro e he hd
    have hst : GoMap.index desired e.1 = some e.2 :=
      GoMap.index_eq_some_of_mem desired e.1 e.2 hwfD he
    unfold isUpdate at hd
    cases hc : GoMap.index remote e.1 with
    | none => simp [hc] at hd
    | some cur =>
      have := hequal e.1 cur e.2 hc hst
      simp [hc, this] at hd
  rw [hD, hC, hU]
  rfl

theorem dispatch_nil {σ B : Type} (h : Helpers B) (config : ReconcilerConfig σ B) (s : σ) :
    dispatch h config { toDelete := [], toCreate := [], toUpdate := [] } s
      = { trace := [], state := s, panicked := false } := by
  simp [dispatch]

/-- C5: idempotence of a pass. When both listings succeed, the remote map and
the conflict-resolved desired map have the same trust domains, and for every
trust domain the remote relationship is `Equal` to the desired one, the pass
computes three empty work lists and its trace is the two listings and the log
entries of the desired listing: it holds no create, update or delete call, the
authority is left in the state the listing left it in, and there is no panic.
This holds for every order in which the maps are visited. -/
theorem reconcile_idempotent {σ B : Type} (h : Helpers B) (x : v1alpha1.External B)
    (config : ReconcilerConfig σ B) (order : RangeOrder B) (s s' : σ)
    (remote : GoMap spiffeid.TrustDomain (FederationRelationship B))
    (desired : GoMap spiffeid.TrustDomain (clusterFederatedTrustDomainState B))
    (logged : List LogEntry)
    (hord : order.Valid)
    (hremote : listFederationRelationships config s = (.ok remote, s'))
    (hdesired : listClusterFederatedTrustDomains h x config = .ok (desired, logged))
    (hsame : ∀ T, GoMap.index remote T = none ↔ GoMap.index desired T = none)
    (hequal : ∀ T cur st, GoMap.index remote T = some cur → GoMap.index desired T = some st →
      h.Equal cur st.FederationRelationship = true) :
    workLists h.Equal (order.current remote) (order.desired desired)
      = { toDelete := [], toCreate := [], toUpdate := [] } ∧
    (reconcile h x config order s).trace
      = [Event.ListFederationRelationships, Event.ListClusterFederatedTrustDomains]
          ++ logged.map Event.log ∧
    (∀ e ∈ (reconcile h x config order s).trace, e.isBatchCall = false) ∧
    (reconcile h x config order s).state = s' ∧
    (reconcile h x config order s).panicked = false := by
  have hR := listFederationRelationships_invariant config s s' remote hremote
  have hD := listClusterFederatedTrustDomains_invariant h x config desired logged hdesired
  have hiR : ∀ T, GoMap.index (order.current remote) T = GoMap.index remote T :=
    fun T => GoMap.index_perm (hord.1 remote) hR.1 T
  have hiD : ∀ T, GoMap.index (order.desired desired) T = GoMap.index desired T :=
    fun T => GoMap.index_perm (hord.2 desired) hD.1 T
  have hw : workLists h.Equal (order.current remote) (order.desired desired)
      = { toDelete := [], toCreate := [], toUpdate := [] } := by
    apply workLists_nil_of_equal
    · exact GoMap.WF_of_perm (hord.2 desired) hD.1
    · intro T
      rw [hiR, hiD]
      exact hsame T
    · intro T cur st h1 h2
      rw [hiR] at h1
      rw [hiD] at h2
      exact hequal T cur st h1 h2
  have htrace : reconcile h x config order s
      = { trace := [Event.ListFederationRelationships, Event.ListClusterFederatedTrustDomains]
            ++ logged.map Event.log
          state := s', panicked := false } := by
    unfold reconcile
    simp only [hremote, hdesired, hw, Outcome.andThen, dispatch_nil]
    simp
  refine ⟨hw, ?_, ?_, ?_, ?_⟩
  · rw [htrace]
  · rw [htrace]
    intro e he
    simp only [List.mem_append, List.mem_cons, List.mem_singleton, List.mem_map,
      List.not_mem_nil, or_false] at he
    rcases he with (h1 | h1) | ⟨l, _, h1⟩
    · rw [h1]; rfl
    · rw [h1]; rfl
    · rw [← h1]; rfl
  · rw [htrace]
  · rw [htrace]

/-- C5, at a sample pass: the authority lists `{B:1, C:2, D:1}` and the store
declares the same. -/
theorem reconcile_idempotent_witness :
    workLists sample.helpers.Equal
      (sample.order.current
        [({ name := "B" }, sample.relationship "B" "1"),
         ({ name := "C" }, sample.relationship "C" "2"),
         ({ name := "D" }, sample.relationship "D" "1")])
      (sample.order.desired sample.desired)
      = { toDelete := [], toCreate := [], toUpdate := [] } ∧
    (reconcile sample.helpers sample.external
      (sample.config [sample.relationship "B" "1", sample.relationship "C" "2",
        sample.relationship "D" "1"] sample.records) sample.order ()).trace
      = [Event.ListFederationRelationships, Event.ListClusterFederatedTrustDomains] :=
  have h := reconcile_idempotent sample.helpers sample.external
    (sample.config [sample.relationship "B" "1", sample.relationship "C" "2",
      sample.relationship "D" "1"] sample.records) sample.order () ()
    [({ name := "B" }, sample.relationship "B" "1"),
     ({ name := "C" }, sample.relationship "C" "2"),
     ({ name := "D" }, sample.relationship "D" "1")]
    sample.desired []
    ⟨fun _ => List.Perm.refl _, fun _ => List.Perm.refl _⟩
    (by decide) (by decide)
    (by
      intro T
      simp only [GoMap.index, sample.desired]
      by_cases h1 : ({ name := "B" } : spiffeid.TrustDomain) = T
      · simp [h1]
      · by_cases h2 : ({ name := "C" } : spiffeid.TrustDomain) = T
        · simp [h1, h2]
        · by_cases h3 : ({ name := "D" } : spiffeid.TrustDomain) = T
          · simp [h1, h2, h3]
          · simp [h1, h2, h3])
    (by
      intro T cur st
      simp only [GoMap.index, sample.desired]
      by_cases h1 : ({ name := "B" } : spiffeid.TrustDomain) = T
      · simp only [h1, if_true, Option.some.injEq]
        rintro rfl rfl
        decide
      · by_cases h2 : ({ name := "C" } : spiffeid.TrustDomain) = T
        · simp only [h1, h2, if_true, if_false, Option.some.injEq]
          rintro rfl rfl
          decide
        · by_cases h3 : ({ name := "D" } : spiffeid.TrustDomain) = T
          · simp only [h1, h2, h3, if_true, if_false, Option.some.injEq]
            rintro rfl rfl
            decide
          · simp [h1, h2, h3])
  ⟨h.1, h.2.1⟩

/-- C6: conflict resolution is first-seen-wins. When the store lists `records`,
`listClusterFederatedTrustDomains` returns a map with one state per trust
domain; it maps every trust domain `T` to the state built from the first
record, in listing order, that parses to `T` (and has no entry for `T` when no
record parses to it), so every later record parsing to `T` is left out. Every
relationship that a pass puts in `toCreate` or `toUpdate` is the parse of the
first record for its trust domain, whatever the remote map, the equality and
the order in which the maps are visited. -/
theorem first_seen_wins {σ B : Type} (h : Helpers B) (x : v1alpha1.External B)
    (config : ReconcilerConfig σ B)
    (records : List v1alpha1.ClusterFederatedTrustDomain)
    (hk : config.K8sClient = .ok records) :
    ∃ desired logged,
      listClusterFederatedTrustDomains h x config = .ok (desired, logged) ∧
      GoMap.WF desired ∧
      (∀ T, GoMap.index desired T = winner x records T) ∧
      (∀ T, (∃ r' ∈ records, ∃ fr', v1alpha1.ParseClusterFederatedTrustDomainSpec x r'.Spec
            = .ok fr' ∧ fr'.TrustDomain = T) →
        ∃ r fr, firstSeen x records T = some r ∧
          v1alpha1.ParseClusterFederatedTrustDomainSpec x r.Spec = .ok fr ∧
          fr.TrustDomain = T ∧
          GoMap.index desired T = some { ClusterFederatedTrustDomain := r
                                         FederationRelationship := fr
                                         NextStatus := {} }) ∧
      (∀ (Equal : FederationRelationship B → FederationRelationship B → Bool)
          (remote : GoMap spiffeid.TrustDomain (FederationRelationship B))
          (order : RangeOrder B), order.Valid →
        ∀ fr, fr ∈ (workLists Equal remote (order.desired desired)).toCreate ∨
              fr ∈ (workLists Equal remote (order.desired desired)).toUpdate →
          ∃ r, firstSeen x records fr.TrustDomain = some r ∧
            v1alpha1.ParseClusterFederatedTrustDomainSpec x r.Spec = .ok fr) := by
  have hdes : listClusterFederatedTrustDomains h x config
      = .ok (records.foldl (listClusterFederatedTrustDomains.step h x) ([], [])) := by
    unfold listClusterFederatedTrustDomains
    simp [hk]
  refine ⟨(records.foldl (listClusterFederatedTrustDomains.step h x) ([], [])).1,
    (records.foldl (listClusterFederatedTrustDomains.step h x) ([], [])).2, hdes, ?_, ?_, ?_, ?_⟩
  · exact (listClusterFederatedTrustDomains_invariant h x config _ _ hdes).1
  · exact listClusterFederatedTrustDomains_index h x config records hk _ _ hdes
  · rintro T ⟨r', hr', fr', hp', hT'⟩
    have hsome : (firstSeen x records T).isSome = true := by
      unfold firstSeen
      rw [List.find?_isSome]
      exact ⟨r', hr', by simp [parsesTo, hp', hT']⟩
    obtain ⟨r, hr⟩ := Option.isSome_iff_exists.1 hsome
    have hidx := listClusterFederatedTrustDomains_index h x config records hk _ _ hdes T
    have hpt : parsesTo x T r = true := by
      unfold firstSeen at hr
      exact List.find?_some hr
    unfold parsesTo at hpt
    cases hp : v1alpha1.ParseClusterFederatedTrustDomainSpec x r.Spec with
    | error err => simp [hp] at hpt
    | ok fr =>
      refine ⟨r, fr, hr, hp, ?_, ?_⟩
      · simpa [hp] using hpt
      · rw [hidx]
        simp [winner, hr, hp]
  · intro Equal remote order hord fr hfr
    have hinv := listClusterFederatedTrustDomains_invariant h x config _ _ hdes
    have hperm := hord.2 (records.foldl (listClusterFederatedTrustDomains.step h x) ([], [])).1
    have hwf := GoMap.WF_of_perm hperm hinv.1
    have hkey : ∀ e ∈ order.desired
        (records.foldl (listClusterFederatedTrustDomains.step h x) ([], [])).1,
        e.2.FederationRelationship.TrustDomain = e.1 :=
      fun e he => hinv.2 e ((hperm.mem_iff).1 he)
    have hst : ∃ st, GoMap.index (order.desired
        (records.foldl (listClusterFederatedTrustDomains.step h x) ([], [])).1) fr.TrustDomain
          = some st ∧ st.FederationRelationship = fr := by
      rcases hfr with h1 | h1
      · exact ((mem_toCreate_iff Equal remote _ hwf hkey fr).1 h1).1
      · exact ((mem_toUpdate_iff Equal remote _ hwf hkey fr).1 h1).1
    obtain ⟨st, hst, hfr'⟩ := hst
    rw [GoMap.index_perm hperm hinv.1,
      listClusterFederatedTrustDomains_index h x config records hk _ _ hdes] at hst
    have hw := winner_parses x records fr.TrustDomain st hst
    rw [hfr'] at hw
    exact ⟨st.ClusterFederatedTrustDomain, hw.1, hw.2⟩

/-- C6, at two sample records that both declare the trust domain `A`: the map
has the first one. -/
theorem first_seen_wins_witness :
    winner sample.external sample.conflict { name := "A" }
      = some { ClusterFederatedTrustDomain := sample.record "first" "A" "1"
               FederationRelationship := sample.relationship "A" "1"
               NextStatus := {} } ∧
    ∃ desired logged,
      listClusterFederatedTrustDomains sample.helpers sample.external
        (sample.config [] sample.conflict) = .ok (desired, logged) ∧
      GoMap.index desired { name := "A" }
        = winner sample.external sample.conflict { name := "A" } :=
  ⟨by decide,
   match first_seen_wins sample.helpers sample.external (sample.config [] sample.conflict)
      sample.conflict rfl with
   | ⟨desired, logged, h1, _, h3, _⟩ => ⟨desired, logged, h1, h3 { name := "A" }⟩⟩

end spirefederationrelationship

/-! ## The parser -/

namespace v1alpha1

open spireapi spirefederationrelationship

theorem failsWith_append {α : Type} (pre lit tail : String) (h : pre.data <+: lit.data) :
    failsWith (Except.error (lit ++ tail) : Except String α) pre :=
  ⟨lit ++ tail, rfl, by
    rw [String.data_append]
    exact h.trans (List.prefix_append _ _)⟩

theorem not_failsWith_ok {α : Type} (a : α) (pre : String) :
    ¬ failsWith (Except.ok a : Except String α) pre := by
  rintro ⟨msg, h, _⟩
  exact Except.noConfusion h

theorem not_failsWith_append {α : Type} (pre lit tail : String)
    (hlen : pre.data.length ≤ lit.data.length) (h : ¬ pre.data <+: lit.data) :
    ¬ failsWith (Except.error (lit ++ tail) : Except String α) pre := by
  rintro ⟨msg, hmsg, hp⟩
  have hm : msg = lit ++ tail := by
    cases hmsg
    rfl
  rw [hm, String.data_append] at hp
  apply h
  rw [List.prefix_iff_eq_take] at hp ⊢
  rw [List.take_append_of_le_length hlen] at hp
  exact hp

theorem parse_rule1_error {B : Type} (x : External B) (spec : ClusterFederatedTrustDomainSpec)
    (e : String) (h1 : x.TrustDomainFromString spec.TrustDomain = .error e) :
    ParseClusterFederatedTrustDomainSpec x spec = .error ("invalid trustDomain value: " ++ e) := by
  simp [ParseClusterFederatedTrustDomainSpec, h1]

theorem parse_rule2_error {B : Type} (x : External B) (spec : ClusterFederatedTrustDomainSpec)
    (td : spiffeid.TrustDomain) (e : String)
    (h1 : x.TrustDomainFromString spec.TrustDomain = .ok td)
    (h2 : parseBundleEndpointURL x spec.BundleEndpointURL = .error e) :
    ParseClusterFederatedTrustDomainSpec x spec
      = .error ("invalid bundleEndpointURL value: " ++ e) := by
  simp [ParseClusterFederatedTrustDomainSpec, h1, h2]

theorem parse_web_nonempty {B : Type} (x : External B) (spec : ClusterFederatedTrustDomainSpec)
    (td : spiffeid.TrustDomain) (u : url.URL)
    (h1 : x.TrustDomainFromString spec.TrustDomain = .ok td)
    (h2 : parseBundleEndpointURL x spec.BundleEndpointURL = .ok u)
    (ht : spec.BundleEndpointProfile.Type_ = x.HTTPSWebProfileType)
    (hid : spec.BundleEndpointProfile.EndpointSPIFFEID ≠ "") :
    ParseClusterFederatedTrustDomainSpec x spec
      = .error ("invalid endpointSPIFFEID value: not applicable to the "
          ++ x.quote x.HTTPSWebProfileType ++ " profile") := by
  simp [ParseClusterFederatedTrustDomainSpec, h1, h2, ht, hid]

theorem parse_web_empty {B : Type} (x : External B) (spec : ClusterFederatedTrustDomainSpec)
    (td : spiffeid.TrustDomain) (u : url.URL)
    (h1 : x.TrustDomainFromString spec.TrustDomain = .ok td)
    (h2 : parseBundleEndpointURL x spec.BundleEndpointURL = .ok u)
    (ht : spec.BundleEndpointProfile.Type_ = x.HTTPSWebProfileType)
    (hid : spec.BundleEndpointProfile.EndpointSPIFFEID = "") :
    ParseClusterFederatedTrustDomainSpec x spec
      = bundleStage x spec td u BundleEndpointProfile.HTTPSWebProfile := by
  unfold bundleStage
  by_cases hb : spec.TrustDomainBundle = ""
  · simp [ParseClusterFederatedTrustDomainSpec, h1, h2, ht, hid, hb]
  · cases hr : x.Read td spec.TrustDomainBundle <;>
      simp [ParseClusterFederatedTrustDomainSpec, h1, h2, ht, hid, hb, hr]

theorem parse_spiffe_error {B : Type} (x : External B) (spec : ClusterFederatedTrustDomainSpec)
    (td : spiffeid.TrustDomain) (u : url.URL) (e : String)
    (h1 : x.TrustDomainFromString spec.TrustDomain = .ok td)
    (h2 : parseBundleEndpointURL x spec.BundleEndpointURL = .ok u)
    (hw : spec.BundleEndpointProfile.Type_ ≠ x.HTTPSWebProfileType)
    (ht : spec.BundleEndpointProfile.Type_ = x.HTTPSSPIFFEProfileType)
    (hid : x.FromString spec.BundleEndpointProfile.EndpointSPIFFEID = .error e) :
    ParseClusterFederatedTrustDomainSpec x spec
      = .error ("invalid endpointSPIFFEID value: " ++ e) := by
  have hw' : ¬ x.HTTPSSPIFFEProfileType = x.HTTPSWebProfileType := fun h => hw (ht.trans h)
  simp [ParseClusterFederatedTrustDomainSpec, h1, h2, ht, hid, hw']

theorem parse_spiffe_ok {B : Type} (x : External B) (spec : ClusterFederatedTrustDomainSpec)
    (td : spiffeid.TrustDomain) (u : url.URL) (id : spiffeid.ID)
    (h1 : x.TrustDomainFromString spec.TrustDomain = .ok td)
    (h2 : parseBundleEndpointURL x spec.BundleEndpointURL = .ok u)
    (hw : spec.BundleEndpointProfile.Type_ ≠ x.HTTPSWebProfileType)
    (ht : spec.BundleEndpointProfile.Type_ = x.HTTPSSPIFFEProfileType)
    (hid : x.FromString spec.BundleEndpointProfile.EndpointSPIFFEID = .ok id) :
    ParseClusterFederatedTrustDomainSpec x spec
      = bundleStage x spec td u (BundleEndpointProfile.HTTPSSPIFFEProfile id) := by
  have hw' : ¬ x.HTTPSSPIFFEProfileType = x.HTTPSWebProfileType := fun h => hw (ht.trans h)
  unfold bundleStage
  by_cases hb : spec.TrustDomainBundle = ""
  · simp [ParseClusterFederatedTrustDomainSpec, h1, h2, ht, hid, hb, hw']
  · cases hr : x.Read td spec.TrustDomainBundle <;>
      simp [ParseClusterFederatedTrustDomainSpec, h1, h2, ht, hid, hb, hr, hw']

theorem parse_other_type {B : Type} (x : External B) (spec : ClusterFederatedTrustDomainSpec)
    (td : spiffeid.TrustDomain) (u : url.URL)
    (h1 : x.TrustDomainFromString spec.TrustDomain = .ok td)
    (h2 : parseBundleEndpointURL x spec.BundleEndpointURL = .ok u)
    (hw : spec.BundleEndpointProfile.Type_ ≠ x.HTTPSWebProfileType)
    (hs : spec.BundleEndpointProfile.Type_ ≠ x.HTTPSSPIFFEProfileType) :
    ParseClusterFederatedTrustDomainSpec x spec
      = .error ("invalid type value " ++ x.quote spec.BundleEndpointProfile.Type_) := by
  simp [ParseClusterFederatedTrustDomainSpec, h1, h2, hw, hs]

theorem bundleStage_ok_iff {B : Type} (x : External B) (spec : ClusterFederatedTrustDomainSpec)
    (td : spiffeid.TrustDomain) (u : url.URL) (p : spireapi.BundleEndpointProfile)
    (fr : FederationRelationship B) :
    bundleStage x spec td u p = .ok fr ↔
      fr.TrustDomain = td ∧ fr.BundleEndpointURL = u ∧ fr.BundleEndpointProfile = p ∧
      (if spec.TrustDomainBundle = "" then fr.TrustDomainBundle = none
       else ∃ b, x.Read td spec.TrustDomainBundle = .ok b ∧ fr.TrustDomainBundle = some b) := by
  unfold bundleStage
  by_cases hb : spec.TrustDomainBundle = ""
  · simp only [hb, if_true, Except.ok.injEq]
    constructor
    · rintro rfl
      exact ⟨rfl, rfl, rfl, rfl⟩
    · rintro ⟨h1, h2, h3, h4⟩
      cases fr
      simp_all
  · simp only [hb, if_false]
    cases hr : x.Read td spec.TrustDomainBundle with
    | error e => simp
    | ok b =>
      simp only [Except.ok.injEq]
      constructor
      · rintro rfl
        exact ⟨rfl, rfl, rfl, b, rfl, rfl⟩
      · rintro ⟨h1, h2, h3, b', hb', h4⟩
        cases fr
        simp_all

theorem bundleStage_error {B : Type} (x : External B) (spec : ClusterFederatedTrustDomainSpec)
    (td : spiffeid.TrustDomain) (u : url.URL) (p : spireapi.BundleEndpointProfile)
    (msg : String) (h : bundleStage x spec td u p = .error msg) :
    spec.TrustDomainBundle ≠ "" ∧
    ∃ e, x.Read td spec.TrustDomainBundle = .error e ∧
      msg = "invalid trustDomainBundle value: " ++ e := by
  unfold bundleStage at h
  by_cases hb : spec.TrustDomainBundle = ""
  · simp [hb] at h
  · refine ⟨hb, ?_⟩
    cases hr : x.Read td spec.TrustDomainBundle with
    | error e =>
      simp only [hb, if_false, hr, Except.error.injEq] at h
      exact ⟨e, rfl, h.symm⟩
    | ok b => simp [hb, hr] at h

/-- C7: `ParseClusterFederatedTrustDomainSpec` succeeds exactly when the four
rules hold, and on success the relationship holds the parsed values: the parsed
trust domain, the URL accepted by `parseBundleEndpointURL`, the web profile or
the SPIFFE profile with the parsed ID, and the bundle read for the parsed trust
domain, which is absent (`none`) whenever `trustDomainBundle` is empty. The two
profile type constants are distinct, as the cases of a Go switch are. -/
theorem parse_succeeds_iff {B : Type} (x : External B) (spec : ClusterFederatedTrustDomainSpec)
    (hne : x.HTTPSWebProfileType ≠ x.HTTPSSPIFFEProfileType) :
    ((∃ fr, ParseClusterFederatedTrustDomainSpec x spec = .ok fr) ↔
      (rule1 x spec && rule2 x spec && rule3 x spec && rule4 x spec) = true) ∧
    (∀ fr, ParseClusterFederatedTrustDomainSpec x spec = .ok fr →
      x.TrustDomainFromString spec.TrustDomain = .ok fr.TrustDomain ∧
      parseBundleEndpointURL x spec.BundleEndpointURL = .ok fr.BundleEndpointURL ∧
      ((spec.BundleEndpointProfile.Type_ = x.HTTPSWebProfileType ∧
          spec.BundleEndpointProfile.EndpointSPIFFEID = "" ∧
          fr.BundleEndpointProfile = BundleEndpointProfile.HTTPSWebProfile) ∨
        (spec.BundleEndpointProfile.Type_ = x.HTTPSSPIFFEProfileType ∧
          ∃ id, x.FromString spec.BundleEndpointProfile.EndpointSPIFFEID = .ok id ∧
            fr.BundleEndpointProfile = BundleEndpointProfile.HTTPSSPIFFEProfile id)) ∧
      (if spec.TrustDomainBundle = "" then fr.TrustDomainBundle = none
       else ∃ b, x.Read fr.TrustDomain spec.TrustDomainBundle = .ok b ∧
          fr.TrustDomainBundle = some b)) := by
  cases h1 : x.TrustDomainFromString spec.TrustDomain with
  | error e =>
    have hp := parse_rule1_error x spec e h1
    simp [hp, rule1, h1]
  | ok td =>
    cases h2 : parseBundleEndpointURL x spec.BundleEndpointURL with
    | error e =>
      have hp := parse_rule2_error x spec td e h1 h2
      simp [hp, rule1, rule2, h1, h2]
    | ok u =>
      have hstage : ∀ p, (∃ fr, bundleStage x spec td u p = .ok fr) ↔ rule4 x spec = true := by
        intro p
        unfold bundleStage rule4
        by_cases hb : spec.TrustDomainBundle = ""
        · simp [hb]
        · cases hr : x.Read td spec.TrustDomainBundle <;> simp [hb, h1, hr]
      by_cases ht : spec.BundleEndpointProfile.Type_ = x.HTTPSWebProfileType
      · have hs : ¬ spec.BundleEndpointProfile.Type_ = x.HTTPSSPIFFEProfileType :=
          fun h => hne (ht.symm.trans h)
        by_cases hid : spec.BundleEndpointProfile.EndpointSPIFFEID = ""
        · have hp := parse_web_empty x spec td u h1 h2 ht hid
          rw [hp]
          constructor
          · rw [hstage]
            simp [rule1, rule2, rule3, h1, h2, ht, hid]
          · intro fr hfr
            rw [bundleStage_ok_iff] at hfr
            obtain ⟨e1, e2, e3, e4⟩ := hfr
            rw [e1, e2]
            exact ⟨rfl, rfl, Or.inl ⟨ht, hid, e3⟩, e4⟩
        · have hp := parse_web_nonempty x spec td u h1 h2 ht hid
          simp [hp, rule3, ht, hid, hne, hne.symm]
      · by_cases hs : spec.BundleEndpointProfile.Type_ = x.HTTPSSPIFFEProfileType
        · cases hid : x.FromString spec.BundleEndpointProfile.EndpointSPIFFEID with
          | error e =>
            have hp := parse_spiffe_error x spec td u e h1 h2 ht hs hid
            simp [hp, rule3, hs, hid, hne, hne.symm]
          | ok id =>
            have hp := parse_spiffe_ok x spec td u id h1 h2 ht hs hid
            rw [hp]
            constructor
            · rw [hstage]
              simp [rule1, rule2, rule3, h1, h2, ht, hs, hid]
            · intro fr hfr
              rw [bundleStage_ok_iff] at hfr
              obtain ⟨e1, e2, e3, e4⟩ := hfr
              rw [e1, e2]
              exact ⟨rfl, rfl, Or.inr ⟨hs, id, rfl, e3⟩, e4⟩
        · have hp := parse_other_type x spec td u h1 h2 ht hs
          simp [hp, rule3, ht, hs]

/-- C7, at the sample record declaring `B` with bundle `1`. -/
theorem parse_succeeds_iff_witness :
    sample.external.HTTPSWebProfileType ≠ sample.external.HTTPSSPIFFEProfileType ∧
    ((∃ fr, ParseClusterFederatedTrustDomainSpec sample.external (sample.record "B" "B" "1").Spec
        = .ok fr) ↔
      (rule1 sample.external (sample.record "B" "B" "1").Spec &&
        rule2 sample.external (sample.record "B" "B" "1").Spec &&
        rule3 sample.external (sample.record "B" "B" "1").Spec &&
        rule4 sample.external (sample.record "B" "B" "1").Spec) = true) :=
  ⟨by decide,
   (parse_succeeds_iff sample.external (sample.record "B" "B" "1").Spec (by decide)).1⟩

/-- C8: the first failing rule wins. A spec that breaks rule 1 fails with
"invalid trustDomain value"; one that passes rule 1 and breaks rule 2 fails
with "invalid bundleEndpointURL value"; one that passes rules 1 and 2 and
breaks rule 3 fails with "invalid endpointSPIFFEID value" when its type is one
of the two profile types and with "invalid type value" otherwise; one that
passes rules 1 to 3 and breaks rule 4 fails with "invalid trustDomainBundle
value". In each case no relationship is returned, whatever the fields of the
later rules hold. -/
theorem first_failing_rule_wins {B : Type} (x : External B)
    (spec : ClusterFederatedTrustDomainSpec)
    (hne : x.HTTPSWebProfileType ≠ x.HTTPSSPIFFEProfileType) :
    (rule1 x spec = false →
      failsWith (ParseClusterFederatedTrustDomainSpec x spec) "invalid trustDomain value") ∧
    (rule1 x spec = true → rule2 x spec = false →
      failsWith (ParseClusterFederatedTrustDomainSpec x spec)
        "invalid bundleEndpointURL value") ∧
    (rule1 x spec = true → rule2 x spec = true → rule3 x spec = false →
      if spec.BundleEndpointProfile.Type_ = x.HTTPSWebProfileType ∨
          spec.BundleEndpointProfile.Type_ = x.HTTPSSPIFFEProfileType then
        failsWith (ParseClusterFederatedTrustDomainSpec x spec)
          "invalid endpointSPIFFEID value"
      else
        failsWith (ParseClusterFederatedTrustDomainSpec x spec) "invalid type value") ∧
    (rule1 x spec = true → rule2 x spec = true → rule3 x spec = true →
      rule4 x spec = false →
      failsWith (ParseClusterFederatedTrustDomainSpec x spec)
        "invalid trustDomainBundle value") := by
  cases h1 : x.TrustDomainFromString spec.TrustDomain with
  | error e =>
    rw [parse_rule1_error x spec e h1]
    refine ⟨fun _ => failsWith_append _ _ _ (by decide), ?_, ?_, ?_⟩ <;>
      simp [rule1, h1]
  | ok td =>
    cases h2 : parseBundleEndpointURL x spec.BundleEndpointURL with
    | error e =>
      rw [parse_rule2_error x spec td e h1 h2]
      refine ⟨?_, fun _ _ => failsWith_append _ _ _ (by decide), ?_, ?_⟩ <;>
        simp [rule1, rule2, h1, h2]
    | ok u =>
      have hstage : ∀ p, rule4 x spec = false →
          failsWith (bundleStage x spec td u p) "invalid trustDomainBundle value" := by
        intro p h4
        unfold rule4 at h4
        unfold bundleStage
        by_cases hb : spec.TrustDomainBundle = ""
        · simp [hb] at h4
        · cases hr : x.Read td spec.TrustDomainBundle with
          | error e =>
            simp only [hb, if_false]
            exact failsWith_append _ _ _ (by decide)
          | ok b => simp [hb, h1, hr] at h4
      refine ⟨by simp [rule1, h1], by simp [rule2, h2], ?_, ?_⟩
      · intro _ _ h3
        by_cases ht : spec.BundleEndpointProfile.Type_ = x.HTTPSWebProfileType
        · have hid : spec.BundleEndpointProfile.EndpointSPIFFEID ≠ "" := by
            intro hid
            simp [rule3, ht, hid] at h3
          rw [parse_web_nonempty x spec td u h1 h2 ht hid, if_pos (Or.inl ht),
            String.append_assoc]
          exact failsWith_append _ _ _ (by decide)
        · by_cases hs : spec.BundleEndpointProfile.Type_ = x.HTTPSSPIFFEProfileType
          · cases hid : x.FromString spec.BundleEndpointProfile.EndpointSPIFFEID with
            | error e =>
              rw [parse_spiffe_error x spec td u e h1 h2 ht hs hid, if_pos (Or.inr hs)]
              exact failsWith_append _ _ _ (by decide)
            | ok id => simp [rule3, hs, hid] at h3
          · rw [parse_other_type x spec td u h1 h2 ht hs, if_neg (by simp [ht, hs])]
            exact failsWith_append _ _ _ (by decide)
      · intro _ _ h3 h4
        by_cases ht : spec.BundleEndpointProfile.Type_ = x.HTTPSWebProfileType
        · have hs : ¬ x.HTTPSWebProfileType = x.HTTPSSPIFFEProfileType := hne
          have hid : spec.BundleEndpointProfile.EndpointSPIFFEID = "" := by
            simpa [rule3, ht, hs] using h3
          rw [parse_web_empty x spec td u h1 h2 ht hid]
          exact hstage _ h4
        · by_cases hs : spec.BundleEndpointProfile.Type_ = x.HTTPSSPIFFEProfileType
          · cases hid : x.FromString spec.BundleEndpointProfile.EndpointSPIFFEID with
            | error e => simp [rule3, ht, hs, hid, hne.symm] at h3
            | ok id =>
              rw [parse_spiffe_ok x spec td u id h1 h2 ht hs hid]
              exact hstage _ h4
          · simp [rule3, ht, hs] at h3

/-- C8, at a sample spec whose trust domain is valid and whose URL has the
scheme `http`, with an unknown profile type and an unreadable bundle. -/
theorem first_failing_rule_wins_witness :
    rule1 sample.external (sample.spec "A" "http://x" "other" "" "garbage") = true ∧
    rule2 sample.external (sample.spec "A" "http://x" "other" "" "garbage") = false ∧
    failsWith (ParseClusterFederatedTrustDomainSpec sample.external
      (sample.spec "A" "http://x" "other" "" "garbage")) "invalid bundleEndpointURL value" :=
  ⟨by decide, by decide,
   (first_failing_rule_wins sample.external (sample.spec "A" "http://x" "other" "" "garbage")
      (by decide)).2.1 (by decide) (by decide)⟩

theorem parseBundleEndpointURL_ok_iff {B : Type} (x : External B) (s : String) (u : url.URL) :
    parseBundleEndpointURL x s = .ok u ↔
      x.Parse s = .ok u ∧ u.Scheme = "https" ∧ u.Host ≠ "" ∧ u.User = none := by
  unfold parseBundleEndpointURL
  cases hp : x.Parse s with
  | error e => simp
  | ok v =>
    by_cases h1 : v.Scheme = "https"
    · by_cases h2 : v.Host = ""
      · simp only [h1, h2, ne_eq, not_true_eq_false, if_false, if_true, Except.ok.injEq]
        constructor
        · intro h
          exact Except.noConfusion h
        · rintro ⟨rfl, _, h, _⟩
          exact absurd h2 h
      · by_cases h3 : v.User = none
        · simp only [h1, h2, h3, ne_eq, not_true_eq_false, if_false, Except.ok.injEq]
          constructor
          · rintro rfl
            exact ⟨rfl, h1, h2, h3⟩
          · rintro ⟨h, _⟩
            exact h
        · simp only [h1, h2, h3, ne_eq, not_true_eq_false, not_false_eq_true, if_false,
            if_true, Except.ok.injEq]
          constructor
          · intro h
            exact Except.noConfusion h
          · rintro ⟨rfl, _, _, h⟩
            exact absurd h h3
    · simp only [h1, ne_eq, not_false_eq_true, if_true, Except.ok.injEq]
      constructor
      · intro h
        exact Except.noConfusion h
      · rintro ⟨rfl, h, _⟩
        exact absurd h h1

/-- C9: `parseBundleEndpointURL` accepts a string exactly when `url.Parse`
parses it to a URL with scheme `https`, a non-empty host and no userinfo, and
then returns that URL; every other string is rejected. With the results of
`url.Parse` on the three strings of the spec (`http://x` has scheme `http`,
`https://user@host` has a userinfo, `https://` has an empty host), these are
rejected for the scheme, the userinfo and the host. Whenever
`ParseClusterFederatedTrustDomainSpec` gets such a rejection (it calls
`parseBundleEndpointURL` once the trust domain has parsed) it fails with
"invalid bundleEndpointURL value" followed by the reason. -/
theorem bundleEndpointURL_rule {B : Type} (x : External B)
    (h1 : ∃ u, x.Parse "http://x" = .ok u ∧ u.Scheme = "http")
    (h2 : ∃ u, x.Parse "https://user@host" = .ok u ∧ u.Scheme = "https" ∧ u.Host = "host" ∧
      u.User ≠ none)
    (h3 : ∃ u, x.Parse "https://" = .ok u ∧ u.Scheme = "https" ∧ u.Host = "") :
    (∀ s u, parseBundleEndpointURL x s = .ok u ↔
      x.Parse s = .ok u ∧ u.Scheme = "https" ∧ u.Host ≠ "" ∧ u.User = none) ∧
    (∀ s, (¬ ∃ u, x.Parse s = .ok u ∧ u.Scheme = "https" ∧ u.Host ≠ "" ∧ u.User = none) →
      ∃ e, parseBundleEndpointURL x s = .error e) ∧
    parseBundleEndpointURL x "http://x" = .error "scheme must be https" ∧
    parseBundleEndpointURL x "https://user@host" = .error "cannot contain userinfo" ∧
    parseBundleEndpointURL x "https://" = .error "host is not specified" ∧
    (∀ spec td e, x.TrustDomainFromString spec.TrustDomain = .ok td →
      parseBundleEndpointURL x spec.BundleEndpointURL = .error e →
      ParseClusterFederatedTrustDomainSpec x spec
          = .error ("invalid bundleEndpointURL value: " ++ e) ∧
        failsWith (ParseClusterFederatedTrustDomainSpec x spec)
          "invalid bundleEndpointURL value") := by
  refine ⟨parseBundleEndpointURL_ok_iff x, ?_, ?_, ?_, ?_, ?_⟩
  · intro s hs
    cases hp : parseBundleEndpointURL x s with
    | error e => exact ⟨e, rfl⟩
    | ok u => exact absurd ⟨u, (parseBundleEndpointURL_ok_iff x s u).1 hp⟩ hs
  · obtain ⟨u, hu, hs⟩ := h1
    simp [parseBundleEndpointURL, hu, hs]
  · obtain ⟨u, hu, hs, hh, hus⟩ := h2
    simp [parseBundleEndpointURL, hu, hs, hh, hus]
  · obtain ⟨u, hu, hs, hh⟩ := h3
    simp [parseBundleEndpointURL, hu, hs, hh]
  · intro spec td e htd he
    have hp := parse_rule2_error x spec td e htd he
    rw [hp]
    exact ⟨rfl, failsWith_append _ _ _ (by decide)⟩

/-- C9, at the sample library, whose URL table has the three strings. -/
theorem bundleEndpointURL_rule_witness :
    parseBundleEndpointURL sample.external "http://x" = .error "scheme must be https" ∧
    parseBundleEndpointURL sample.external "https://user@host"
      = .error "cannot contain userinfo" ∧
    parseBundleEndpointURL sample.external "https://" = .error "host is not specified" ∧
    parseBundleEndpointURL sample.external "https://A" = .ok (sample.endpoint "A") :=
  have h := bundleEndpointURL_rule sample.external
    ⟨{ sample.endpoint "x" with Scheme := "http" }, by decide, by decide⟩
    ⟨{ sample.endpoint "host" with User := some { username := "user", password := none } },
      by decide, by decide, by decide, by decide⟩
    ⟨sample.endpoint "", by decide, by decide, by decide⟩
  ⟨h.2.2.1, h.2.2.2.1, h.2.2.2.2.1, by decide⟩

/-- C10 as stated fails: the sample spec has a valid trust domain, a valid URL,
the web profile type and an empty `endpointSPIFFEID`, and is rejected all the
same, by the bundle rule; so with the web type "rejected" is not equivalent to
"`endpointSPIFFEID` is non-empty", and no web profile is returned. -/
theorem profile_rule_counterexample :
    rule1 sample.external (sample.spec "A" "https://A" "https_web" "" "garbage") = true ∧
    rule2 sample.external (sample.spec "A" "https://A" "https_web" "" "garbage") = true ∧
    (sample.spec "A" "https://A" "https_web" "" "garbage").BundleEndpointProfile.Type_
      = sample.external.HTTPSWebProfileType ∧
    (sample.spec "A" "https://A" "https_web" "" "garbage").BundleEndpointProfile.EndpointSPIFFEID
      = "" ∧
    ParseClusterFederatedTrustDomainSpec sample.external
        (sample.spec "A" "https://A" "https_web" "" "garbage")
      = .error "invalid trustDomainBundle value: unable to parse JWKS" ∧
    ¬ ((∃ e, ParseClusterFederatedTrustDomainSpec sample.external
          (sample.spec "A" "https://A" "https_web" "" "garbage") = .error e) ↔
        (sample.spec "A" "https://A" "https_web" "" "garbage").BundleEndpointProfile.EndpointSPIFFEID
          ≠ "") := by
  refine ⟨by decide, by decide, by decide, by decide, by decide, ?_⟩
  intro h
  exact h.1 ⟨"invalid trustDomainBundle value: unable to parse JWKS", by decide⟩ rfl

/-- C10, amended: for a spec whose trust domain and URL are valid, the profile
rule behaves as follows. Web type: the spec fails with "invalid
endpointSPIFFEID value" iff `endpointSPIFFEID` is non-empty; otherwise the
profile is the web profile, which carries no identity, and the parse goes on to
the bundle rule: it returns a relationship with the web profile when rule 4
holds and fails with "invalid trustDomainBundle value" when it does not.
SPIFFE type: the spec fails with "invalid endpointSPIFFEID value" iff
`endpointSPIFFEID` does not parse as a SPIFFE ID; otherwise the profile is the
SPIFFE profile with exactly the parsed ID, and again the parse returns a
relationship with it when rule 4 holds and fails with "invalid
trustDomainBundle value" when it does not. Any other type value, the empty
string too when it is not one of the two constants, fails with "invalid type
value". -/
theorem profile_rule {B : Type} (x : External B) (spec : ClusterFederatedTrustDomainSpec)
    (hne : x.HTTPSWebProfileType ≠ x.HTTPSSPIFFEProfileType)
    (h1 : rule1 x spec = true) (h2 : rule2 x spec = true) :
    (spec.BundleEndpointProfile.Type_ = x.HTTPSWebProfileType →
      (failsWith (ParseClusterFederatedTrustDomainSpec x spec)
          "invalid endpointSPIFFEID value" ↔
        spec.BundleEndpointProfile.EndpointSPIFFEID ≠ "") ∧
      (spec.BundleEndpointProfile.EndpointSPIFFEID = "" → rule4 x spec = true →
        ∃ fr, ParseClusterFederatedTrustDomainSpec x spec = .ok fr ∧
          fr.BundleEndpointProfile = BundleEndpointProfile.HTTPSWebProfile) ∧
      (spec.BundleEndpointProfile.EndpointSPIFFEID = "" → rule4 x spec = false →
        failsWith (ParseClusterFederatedTrustDomainSpec x spec)
          "invalid trustDomainBundle value")) ∧
    (spec.BundleEndpointProfile.Type_ = x.HTTPSSPIFFEProfileType →
      (failsWith (ParseClusterFederatedTrustDomainSpec x spec)
          "invalid endpointSPIFFEID value" ↔
        ∀ id, x.FromString spec.BundleEndpointProfile.EndpointSPIFFEID ≠ .ok id) ∧
      (∀ id, x.FromString spec.BundleEndpointProfile.EndpointSPIFFEID = .ok id →
        rule4 x spec = true →
        ∃ fr, ParseClusterFederatedTrustDomainSpec x spec = .ok fr ∧
          fr.BundleEndpointProfile = BundleEndpointProfile.HTTPSSPIFFEProfile id) ∧
      (∀ id, x.FromString spec.BundleEndpointProfile.EndpointSPIFFEID = .ok id →
        rule4 x spec = false →
        failsWith (ParseClusterFederatedTrustDomainSpec x spec)
          "invalid trustDomainBundle value")) ∧
    (spec.BundleEndpointProfile.Type_ ≠ x.HTTPSWebProfileType →
      spec.BundleEndpointProfile.Type_ ≠ x.HTTPSSPIFFEProfileType →
      failsWith (ParseClusterFederatedTrustDomainSpec x spec) "invalid type value") ∧
    (spec.BundleEndpointProfile.Type_ = "" →
      "" ≠ x.HTTPSWebProfileType → "" ≠ x.HTTPSSPIFFEProfileType →
      failsWith (ParseClusterFederatedTrustDomainSpec x spec) "invalid type value") := by
  cases htd : x.TrustDomainFromString spec.TrustDomain with
  | error e => simp [rule1, htd] at h1
  | ok td =>
    cases hu : parseBundleEndpointURL x spec.BundleEndpointURL with
    | error e => simp [rule2, hu] at h2
    | ok u =>
      have hok : ∀ p, rule4 x spec = true →
          ∃ fr, bundleStage x spec td u p = .ok fr ∧ fr.BundleEndpointProfile = p := by
        intro p h4
        unfold rule4 at h4
        unfold bundleStage
        by_cases hb : spec.TrustDomainBundle = ""
        · simp [hb]
        · cases hr : x.Read td spec.TrustDomainBundle with
          | error e => simp [hb, htd, hr] at h4
          | ok b => simp [hb]
      have hbad : ∀ p, rule4 x spec = false →
          failsWith (bundleStage x spec td u p) "invalid trustDomainBundle value" := by
        intro p h4
        unfold rule4 at h4
        unfold bundleStage
        by_cases hb : spec.TrustDomainBundle = ""
        · simp [hb] at h4
        · cases hr : x.Read td spec.TrustDomainBundle with
          | error e =>
            simp only [hb, if_false]
            exact failsWith_append _ _ _ (by decide)
          | ok b => simp [hb, htd, hr] at h4
      have hnot : ∀ p, ¬ failsWith (bundleStage x spec td u p)
          "invalid endpointSPIFFEID value" := by
        intro p
        unfold bundleStage
        by_cases hb : spec.TrustDomainBundle = ""
        · simp only [hb, if_true]
          exact not_failsWith_ok _ _
        · cases hr : x.Read td spec.TrustDomainBundle with
          | error e =>
            simp only [hb, if_false]
            exact not_failsWith_append _ _ _ (by decide) (by decide)
          | ok b =>
            simp only [hb, if_false]
            exact not_failsWith_ok _ _
      have hother : spec.BundleEndpointProfile.Type_ ≠ x.HTTPSWebProfileType →
          spec.BundleEndpointProfile.Type_ ≠ x.HTTPSSPIFFEProfileType →
          failsWith (ParseClusterFederatedTrustDomainSpec x spec) "invalid type value" := by
        intro hw hs
        rw [parse_other_type x spec td u htd hu hw hs]
        exact failsWith_append _ _ _ (by decide)
      refine ⟨?_, ?_, hother, ?_⟩
      · intro ht
        refine ⟨?_, ?_, ?_⟩
        · constructor
          · intro hf hid
            rw [parse_web_empty x spec td u htd hu ht hid] at hf
            exact hnot _ hf
          · intro hid
            rw [parse_web_nonempty x spec td u htd hu ht hid, String.append_assoc]
            exact failsWith_append _ _ _ (by decide)
        · intro hid h4
          rw [parse_web_empty x spec td u htd hu ht hid]
          exact hok _ h4
        · intro hid h4
          rw [parse_web_empty x spec td u htd hu ht hid]
          exact hbad _ h4
      · intro hs
        have hw : spec.BundleEndpointProfile.Type_ ≠ x.HTTPSWebProfileType :=
          fun h => hne (h.symm.trans hs)
        refine ⟨?_, ?_, ?_⟩
        · constructor
          · intro hf id hid
            rw [parse_spiffe_ok x spec td u id htd hu hw hs hid] at hf
            exact hnot _ hf
          · intro hall
            cases hid : x.FromString spec.BundleEndpointProfile.EndpointSPIFFEID with
            | error e =>
              rw [parse_spiffe_error x spec td u e htd hu hw hs hid]
              exact failsWith_append _ _ _ (by decide)
            | ok id => exact absurd hid (hall id)
        · intro id hid h4
          rw [parse_spiffe_ok x spec td u id htd hu hw hs hid]
          exact hok _ h4
        · intro id hid h4
          rw [parse_spiffe_ok x spec td u id htd hu hw hs hid]
          exact hbad _ h4
      · intro ht hw hs
        exact hother (ht ▸ hw) (ht ▸ hs)

/-- C10 amended, at a sample spec with the SPIFFE type and an `endpointSPIFFEID`
that parses. -/
theorem profile_rule_witness :
    rule1 sample.external
      (sample.spec "A" "https://A" "https_spiffe" "spiffe://A/endpoint" "") = true ∧
    rule2 sample.external
      (sample.spec "A" "https://A" "https_spiffe" "spiffe://A/endpoint" "") = true ∧
    ∃ fr, ParseClusterFederatedTrustDomainSpec sample.external
        (sample.spec "A" "https://A" "https_spiffe" "spiffe://A/endpoint" "") = .ok fr ∧
      fr.BundleEndpointProfile
        = BundleEndpointProfile.HTTPSSPIFFEProfile { id := "spiffe://A/endpoint" } :=
  ⟨by decide, by decide,
   (profile_rule sample.external
      (sample.spec "A" "https://A" "https_spiffe" "spiffe://A/endpoint" "")
      (by decide) (by decide) (by decide)).2.1 (by decide)
      |>.2.1 { id := "spiffe://A/endpoint" } (by decide) (by decide)⟩

end v1alpha1

/-! ## The dispatchers -/

namespace spirefederationrelationship

open spireapi

theorem trustDomainIDs_eq_map {B : Type} (frs : List (FederationRelationship B)) :
    trustDomainIDsFromFederationRelationships frs = frs.map (fun fr => fr.TrustDomain) := by
  have hgen : ∀ (l : List (FederationRelationship B)) (out : List spiffeid.TrustDomain),
      l.foldl (fun out fr => out ++ [fr.TrustDomain]) out
        = out ++ l.map (fun fr => fr.TrustDomain) := by
    intro l
    induction l with
    | nil => intro out; simp
    | cons fr l ih => intro out; simp [List.foldl_cons, ih]
  unfold trustDomainIDsFromFederationRelationships
  rw [hgen]
  simp

theorem rangeStatuses_entry {B : Type} (h : Helpers B) (okMsg errMsg : String)
    (frs : List (FederationRelationship B)) (i : Nat) (status : Status) (rest : List Status)
    (fr : FederationRelationship B) (hfr : frs.get? i = some fr) :
    rangeStatuses h okMsg errMsg frs i (status :: rest)
      = (Event.log (statusEntry h okMsg errMsg fr status)
          :: (rangeStatuses h okMsg errMsg frs (i + 1) rest).1,
         (rangeStatuses h okMsg errMsg frs (i + 1) rest).2) := by
  rw [rangeStatuses]
  simp only [hfr, statusEntry]

theorem rangeStatuses_out_of_range {B : Type} (h : Helpers B) (okMsg errMsg : String)
    (frs : List (FederationRelationship B)) (i : Nat) (status : Status) (rest : List Status)
    (hfr : frs.get? i = none) :
    rangeStatuses h okMsg errMsg frs i (status :: rest) = ([], true) := by
  rw [rangeStatuses]
  simp only [hfr]

theorem rangeStatuses_in_range {B : Type} (h : Helpers B) (okMsg errMsg : String)
    (frs : List (FederationRelationship B)) (statuses : List Status) (i : Nat)
    (hlen : i + statuses.length ≤ frs.length) :
    rangeStatuses h okMsg errMsg frs i statuses
      = ((List.zipWith (statusEntry h okMsg errMsg) (frs.drop i) statuses).map Event.log,
         false) := by
  induction statuses generalizing i with
  | nil => simp [rangeStatuses]
  | cons status rest ih =>
    have hi : i < frs.length := by
      simp only [List.length_cons] at hlen
      omega
    have hget : frs.get? i = some (frs.get ⟨i, hi⟩) := List.get?_eq_get hi
    have hdrop : frs.drop i = frs.get ⟨i, hi⟩ :: frs.drop (i + 1) := by
      simp
    have hlen' : i + 1 + rest.length ≤ frs.length := by
      simp only [List.length_cons] at hlen
      omega
    rw [rangeStatuses_entry h okMsg errMsg frs i status rest _ hget, ih (i + 1) hlen', hdrop]
    rfl

theorem rangeStatuses_panics_iff {B : Type} (h : Helpers B) (okMsg errMsg : String)
    (frs : List (FederationRelationship B)) (statuses : List Status) (i : Nat)
    (hi : i ≤ frs.length) :
    (rangeStatuses h okMsg errMsg frs i statuses).2 = true ↔
      frs.length < i + statuses.length := by
  induction statuses generalizing i with
  | nil =>
    simp only [rangeStatuses, List.length_nil, Nat.add_zero]
    constructor
    · intro hf
      exact Bool.noConfusion hf
    · intro hlt
      omega
  | cons status rest ih =>
    by_cases hlt : i < frs.length
    · have hget : frs.get? i = some (frs.get ⟨i, hlt⟩) := List.get?_eq_get hlt
      rw [rangeStatuses_entry h okMsg errMsg frs i status rest _ hget]
      simp only [List.length_cons]
      rw [ih (i + 1) hlt]
      omega
    · have hget : frs.get? i = none := List.get?_eq_none.2 (by omega)
      rw [rangeStatuses_out_of_range h okMsg errMsg frs i status rest hget]
      simp only [List.length_cons, true_iff]
      omega

theorem rangeStatuses_logs {B : Type} (h : Helpers B) (okMsg errMsg : String)
    (frs : List (FederationRelationship B)) (statuses : List Status) (i : Nat) :
    ∃ entries : List LogEntry,
      (rangeStatuses h okMsg errMsg frs i statuses).1 = entries.map Event.log := by
  induction statuses generalizing i with
  | nil => exact ⟨[], by simp [rangeStatuses]⟩
  | cons status rest ih =>
    cases hget : frs.get? i with
    | none =>
      rw [rangeStatuses_out_of_range h okMsg errMsg frs i status rest hget]
      exact ⟨[], rfl⟩
    | some fr =>
      rw [rangeStatuses_entry h okMsg errMsg frs i status rest fr hget]
      obtain ⟨entries, he⟩ := ih (i + 1)
      exact ⟨statusEntry h okMsg errMsg fr status :: entries, by simp [he]⟩

theorem create_shape {σ B : Type} (h : Helpers B) (config : ReconcilerConfig σ B)
    (frs : List (FederationRelationship B)) (s : σ) :
    (∃ entries : List LogEntry,
      (createFederationRelationships h config frs s).trace
        = Event.CreateFederationRelationships (frs) :: entries.map Event.log) ∧
    (createFederationRelationships h config frs s).state
      = (config.TrustDomainClient.CreateFederationRelationships s (frs)).2 ∧
    ((createFederationRelationships h config frs s).panicked = true ↔
      ∃ statuses s', config.TrustDomainClient.CreateFederationRelationships s (frs)
          = (.ok statuses, s') ∧ frs.length < statuses.length) := by
  unfold createFederationRelationships
  cases hc : config.TrustDomainClient.CreateFederationRelationships s (frs) with
  | mk res s1 =>
    cases res with
    | error err =>
      refine ⟨⟨[{ isError := true, err := some err,
                  msg := "Failed to create federation relationships",
                  keysAndValues := [] }], by simp⟩, by simp, ?_⟩
      simp
    | ok statuses =>
      obtain ⟨entries, he⟩ := rangeStatuses_logs h "Created federation relationship"
        "Failed to create federation relationship" frs statuses 0
      refine ⟨⟨entries, by simp [he]⟩, by simp, ?_⟩
      have hp := rangeStatuses_panics_iff h "Created federation relationship"
        "Failed to create federation relationship" frs statuses 0 (Nat.zero_le _)
      simp only [Nat.zero_add] at hp
      simp only [hp, Prod.mk.injEq, Except.ok.injEq]
      constructor
      · intro hlt
        exact ⟨statuses, s1, ⟨rfl, rfl⟩, hlt⟩
      · rintro ⟨sts, s2, ⟨rfl, _⟩, hlt⟩
        exact hlt

theorem update_shape {σ B : Type} (h : Helpers B) (config : ReconcilerConfig σ B)
    (frs : List (FederationRelationship B)) (s : σ) :
    (∃ entries : List LogEntry,
      (updateFederationRelationships h config frs s).trace
        = Event.UpdateFederationRelationships (frs) :: entries.map Event.log) ∧
    (updateFederationRelationships h config frs s).state
      = (config.TrustDomainClient.UpdateFederationRelationships s (frs)).2 ∧
    ((updateFederationRelationships h config frs s).panicked = true ↔
      ∃ statuses s', config.TrustDomainClient.UpdateFederationRelationships s (frs)
          = (.ok statuses, s') ∧ frs.length < statuses.length) := by
  unfold updateFederationRelationships
  cases hc : config.TrustDomainClient.UpdateFederationRelationships s (frs) with
  | mk res s1 =>
    cases res with
    | error err =>
      refine ⟨⟨[{ isError := true, err := some err,
                  msg := "Failed to update federation relationships",
                  keysAndValues := [] }], by simp⟩, by simp, ?_⟩
      simp
    | ok statuses =>
      obtain ⟨entries, he⟩ := rangeStatuses_logs h "Updated federation relationship"
        "Failed to update federation relationship" frs statuses 0
      refine ⟨⟨entries, by simp [he]⟩, by simp, ?_⟩
      have hp := rangeStatuses_panics_iff h "Updated federation relationship"
        "Failed to update federation relationship" frs statuses 0 (Nat.zero_le _)
      simp only [Nat.zero_add] at hp
      simp only [hp, Prod.mk.injEq, Except.ok.injEq]
      constructor
      · intro hlt
        exact ⟨statuses, s1, ⟨rfl, rfl⟩, hlt⟩
      · rintro ⟨sts, s2, ⟨rfl, _⟩, hlt⟩
        exact hlt

theorem delete_shape {σ B : Type} (h : Helpers B) (config : ReconcilerConfig σ B)
    (frs : List (FederationRelationship B)) (s : σ) :
    (∃ entries : List LogEntry,
      (deleteFederationRelationships h config frs s).trace
        = Event.DeleteFederationRelationships (frs.map (fun fr => fr.TrustDomain)) :: entries.map Event.log) ∧
    (deleteFederationRelationships h config frs s).state
      = (config.TrustDomainClient.DeleteFederationRelationships s (frs.map (fun fr => fr.TrustDomain))).2 ∧
    ((deleteFederationRelationships h config frs s).panicked = true ↔
      ∃ statuses s', config.TrustDomainClient.DeleteFederationRelationships s (frs.map (fun fr => fr.TrustDomain))
          = (.ok statuses, s') ∧ frs.length < statuses.length) := by
  unfold deleteFederationRelationships
  rw [trustDomainIDs_eq_map]
  cases hc : config.TrustDomainClient.DeleteFederationRelationships s (frs.map (fun fr => fr.TrustDomain)) with
  | mk res s1 =>
    cases res with
    | error err =>
      refine ⟨⟨[{ isError := true, err := some err,
                  msg := "Failed to delete federation relationships",
                  keysAndValues := [] }], by simp⟩, by simp, ?_⟩
      simp
    | ok statuses =>
      obtain ⟨entries, he⟩ := rangeStatuses_logs h "Deleted federation relationship"
        "Failed to delete federation relationship" frs statuses 0
      refine ⟨⟨entries, by simp [he]⟩, by simp, ?_⟩
      have hp := rangeStatuses_panics_iff h "Deleted federation relationship"
        "Failed to delete federation relationship" frs statuses 0 (Nat.zero_le _)
      simp only [Nat.zero_add] at hp
      simp only [hp, Prod.mk.injEq, Except.ok.injEq]
      constructor
      · intro hlt
        exact ⟨statuses, s1, ⟨rfl, rfl⟩, hlt⟩
      · rintro ⟨sts, s2, ⟨rfl, _⟩, hlt⟩
        exact hlt

theorem dispatch_eq {σ B : Type} (h : Helpers B) (config : ReconcilerConfig σ B)
    (w : WorkLists B) (s : σ) :
    dispatch h config w s =
      if w.toUpdate.length > 0 then
        (afterCreate h config w s).andThen (updateFederationRelationships h config w.toUpdate)
      else afterCreate h config w s := rfl

theorem afterDelete_shape {σ B : Type} (h : Helpers B) (config : ReconcilerConfig σ B)
    (w : WorkLists B) (s : σ) :
    ∃ eD : List LogEntry,
      (afterDelete h config w s).trace = deleteCall w.toDelete ++ eD.map Event.log := by
  unfold afterDelete deleteCall
  by_cases hd : w.toDelete.length > 0
  · obtain ⟨eD, he⟩ := (delete_shape h config w.toDelete s).1
    exact ⟨eD, by simp [hd, Outcome.andThen, he]⟩
  · exact ⟨[], by simp [hd]⟩

theorem afterCreate_shape {σ B : Type} (h : Helpers B) (config : ReconcilerConfig σ B)
    (w : WorkLists B) (s : σ) :
    (∃ eD eC : List LogEntry,
      (afterCreate h config w s).trace =
        deleteCall w.toDelete ++ eD.map Event.log ++
          (if (afterDelete h config w s).panicked then []
           else createCall w.toCreate ++ eC.map Event.log)) ∧
    ((afterDelete h config w s).panicked = true → (afterCreate h config w s).panicked = true) := by
  obtain ⟨eD, hD⟩ := afterDelete_shape h config w s
  unfold afterCreate createCall
  by_cases hc : w.toCreate.length > 0
  · obtain ⟨eC, he⟩ := (create_shape h config w.toCreate (afterDelete h config w s).state).1
    cases hp : (afterDelete h config w s).panicked with
    | true =>
      refine ⟨⟨eD, eC, ?_⟩, ?_⟩
      · simp [hc, Outcome.andThen, hp, hD]
      · intro _
        simp [hc, Outcome.andThen, hp]
    | false =>
      refine ⟨⟨eD, eC, ?_⟩, ?_⟩
      · simp [hc, Outcome.andThen, hp, hD, he]
      · intro hf
        exact Bool.noConfusion hf
  · cases hp : (afterDelete h config w s).panicked with
    | true =>
      refine ⟨⟨eD, [], ?_⟩, ?_⟩
      · simp [hc, hD]
      · intro _
        simp [hc, hp]
    | false =>
      refine ⟨⟨eD, [], ?_⟩, ?_⟩
      · simp [hc, hD]
      · intro hf
        exact Bool.noConfusion hf

theorem dispatch_shape {σ B : Type} (h : Helpers B) (config : ReconcilerConfig σ B)
    (w : WorkLists B) (s : σ) :
    (∃ eD eC eU : List LogEntry,
      (dispatch h config w s).trace =
        deleteCall w.toDelete ++ eD.map Event.log ++
          (if (afterDelete h config w s).panicked then []
           else createCall w.toCreate ++ eC.map Event.log ++
             (if (afterCreate h config w s).panicked then []
              else updateCall w.toUpdate ++ eU.map Event.log))) ∧
    ((afterCreate h config w s).panicked = true → (dispatch h config w s).panicked = true) := by
  obtain ⟨⟨eD, eC, hC⟩, hmono⟩ := afterCreate_shape h config w s
  rw [dispatch_eq]
  unfold updateCall
  by_cases hu : w.toUpdate.length > 0
  · obtain ⟨eU, he⟩ := (update_shape h config w.toUpdate (afterCreate h config w s).state).1
    cases hp : (afterCreate h config w s).panicked with
    | true =>
      refine ⟨⟨eD, eC, eU, ?_⟩, ?_⟩
      · simp only [hu, if_true, Outcome.andThen, hp, hC]
        cases hq : (afterDelete h config w s).panicked <;> simp
      · intro _
        simp [hu, Outcome.andThen, hp]
    | false =>
      have hq : (afterDelete h config w s).panicked = false := by
        cases hq : (afterDelete h config w s).panicked with
        | false => rfl
        | true =>
          have := hmono hq
          rw [hp] at this
          exact Bool.noConfusion this
      refine ⟨⟨eD, eC, eU, ?_⟩, ?_⟩
      · simp [hu, Outcome.andThen, hp, hC, he, hq]
      · intro hf
        exact Bool.noConfusion hf
  · cases hp : (afterCreate h config w s).panicked with
    | true =>
      refine ⟨⟨eD, eC, [], ?_⟩, ?_⟩
      · simp only [hu, if_false, hC]
        cases hq : (afterDelete h config w s).panicked <;> simp
      · intro _
        simp [hu, hp]
    | false =>
      refine ⟨⟨eD, eC, [], ?_⟩, ?_⟩
      · simp only [hu, if_false, hC]
        cases hq : (afterDelete h config w s).panicked <;> simp
      · intro hf
        exact Bool.noConfusion hf

theorem delete_no_panic {σ B : Type} (h : Helpers B) (config : ReconcilerConfig σ B)
    (frs : List (FederationRelationship B)) (s : σ)
    (hD : NoExcess config.TrustDomainClient.DeleteFederationRelationships) :
    (deleteFederationRelationships h config frs s).panicked = false := by
  cases hp : (deleteFederationRelationships h config frs s).panicked with
  | false => rfl
  | true =>
    obtain ⟨statuses, s', hc, hlt⟩ := (delete_shape h config frs s).2.2.1 hp
    have := hD s _ statuses s' hc
    simp only [List.length_map] at this
    omega

theorem create_no_panic {σ B : Type} (h : Helpers B) (config : ReconcilerConfig σ B)
    (frs : List (FederationRelationship B)) (s : σ)
    (hC : NoExcess config.TrustDomainClient.CreateFederationRelationships) :
    (createFederationRelationships h config frs s).panicked = false := by
  cases hp : (createFederationRelationships h config frs s).panicked with
  | false => rfl
  | true =>
    obtain ⟨statuses, s', hc, hlt⟩ := (create_shape h config frs s).2.2.1 hp
    have := hC s _ statuses s' hc
    omega

theorem update_no_panic {σ B : Type} (h : Helpers B) (config : ReconcilerConfig σ B)
    (frs : List (FederationRelationship B)) (s : σ)
    (hU : NoExcess config.TrustDomainClient.UpdateFederationRelationships) :
    (updateFederationRelationships h config frs s).panicked = false := by
  cases hp : (updateFederationRelationships h config frs s).panicked with
  | false => rfl
  | true =>
    obtain ⟨statuses, s', hc, hlt⟩ := (update_shape h config frs s).2.2.1 hp
    have := hU s _ statuses s' hc
    omega

theorem afterDelete_no_panic {σ B : Type} (h : Helpers B) (config : ReconcilerConfig σ B)
    (w : WorkLists B) (s : σ)
    (hD : NoExcess config.TrustDomainClient.DeleteFederationRelationships) :
    (afterDelete h config w s).panicked = false := by
  unfold afterDelete
  by_cases hd : w.toDelete.length > 0
  · simp [hd, Outcome.andThen, delete_no_panic h config w.toDelete s hD]
  · simp [hd]

theorem afterCreate_no_panic {σ B : Type} (h : Helpers B) (config : ReconcilerConfig σ B)
    (w : WorkLists B) (s : σ)
    (hD : NoExcess config.TrustDomainClient.DeleteFederationRelationships)
    (hC : NoExcess config.TrustDomainClient.CreateFederationRelationships) :
    (afterCreate h config w s).panicked = false := by
  unfold afterCreate
  by_cases hc : w.toCreate.length > 0
  · simp [hc, Outcome.andThen, afterDelete_no_panic h config w s hD,
      create_no_panic h config w.toCreate _ hC]
  · simp [hc, afterDelete_no_panic h config w s hD]

theorem dispatch_no_panic {σ B : Type} (h : Helpers B) (config : ReconcilerConfig σ B)
    (w : WorkLists B) (s : σ)
    (hD : NoExcess config.TrustDomainClient.DeleteFederationRelationships)
    (hC : NoExcess config.TrustDomainClient.CreateFederationRelationships)
    (hU : NoExcess config.TrustDomainClient.UpdateFederationRelationships) :
    (dispatch h config w s).panicked = false := by
  rw [dispatch_eq]
  by_cases hu : w.toUpdate.length > 0
  · simp [hu, Outcome.andThen, afterCreate_no_panic h config w s hD hC,
      update_no_panic h config w.toUpdate _ hU]
  · simp [hu, afterCreate_no_panic h config w s hD hC]

theorem filter_logs {B : Type} (p : Event B → Bool) (hp : ∀ entry, p (Event.log entry) = false)
    (entries : List LogEntry) : (entries.map Event.log).filter p = [] := by
  rw [List.filter_eq_nil_iff]
  intro e he
  obtain ⟨entry, _, rfl⟩ := List.mem_map.1 he
  simp [hp entry]

theorem dispatch_filter {σ B : Type} (h : Helpers B) (config : ReconcilerConfig σ B)
    (w : WorkLists B) (s : σ) (p : Event B → Bool)
    (hp : ∀ entry, p (Event.log entry) = false) :
    (dispatch h config w s).trace.filter p =
      (deleteCall w.toDelete).filter p ++
        (if (afterDelete h config w s).panicked then []
         else (createCall w.toCreate).filter p ++
           (if (afterCreate h config w s).panicked then []
            else (updateCall w.toUpdate).filter p)) := by
  obtain ⟨⟨eD, eC, eU, ht⟩, _⟩ := dispatch_shape h config w s
  rw [ht]
  cases hq : (afterDelete h config w s).panicked <;>
    cases hr : (afterCreate h config w s).panicked <;>
      simp [List.filter_append, filter_logs p hp]

theorem batchCalls_expected {B : Type} (w : WorkLists B) :
    (deleteCall w.toDelete).filter Event.isBatchCall = deleteCall w.toDelete ∧
    (createCall w.toCreate).filter Event.isBatchCall = createCall w.toCreate ∧
    (updateCall w.toUpdate).filter Event.isBatchCall = updateCall w.toUpdate := by
  unfold deleteCall createCall updateCall
  refine ⟨?_, ?_, ?_⟩
  · by_cases hd : w.toDelete.length > 0 <;> simp [hd, Event.isBatchCall]
  · by_cases hd : w.toCreate.length > 0 <;> simp [hd, Event.isBatchCall]
  · by_cases hd : w.toUpdate.length > 0 <;> simp [hd, Event.isBatchCall]

theorem dispatch_batchCalls {σ B : Type} (h : Helpers B) (config : ReconcilerConfig σ B)
    (w : WorkLists B) (s : σ) :
    batchCalls (dispatch h config w s).trace =
      deleteCall w.toDelete ++
        (if (afterDelete h config w s).panicked then []
         else createCall w.toCreate ++
           (if (afterCreate h config w s).panicked then [] else updateCall w.toUpdate)) := by
  unfold batchCalls
  rw [dispatch_filter h config w s Event.isBatchCall (fun _ => rfl)]
  obtain ⟨h1, h2, h3⟩ := batchCalls_expected w
  rw [h1, h2, h3]

theorem reconcile_listed {σ B : Type} (h : Helpers B) (x : v1alpha1.External B)
    (config : ReconcilerConfig σ B) (order : RangeOrder B) (s s' : σ)
    (remote : GoMap spiffeid.TrustDomain (FederationRelationship B))
    (desired : GoMap spiffeid.TrustDomain (clusterFederatedTrustDomainState B))
    (logged : List LogEntry)
    (hremote : listFederationRelationships config s = (.ok remote, s'))
    (hdesired : listClusterFederatedTrustDomains h x config = .ok (desired, logged)) :
    (reconcile h x config order s).trace =
      [Event.ListFederationRelationships, Event.ListClusterFederatedTrustDomains]
        ++ logged.map Event.log
        ++ (dispatch h config
            (workLists h.Equal (order.current remote) (order.desired desired)) s').trace ∧
    (reconcile h x config order s).panicked =
      (dispatch h config
        (workLists h.Equal (order.current remote) (order.desired desired)) s').panicked ∧
    (reconcile h x config order s).state =
      (dispatch h config
        (workLists h.Equal (order.current remote) (order.desired desired)) s').state := by
  unfold reconcile
  simp [hremote, hdesired, Outcome.andThen]

theorem reconcile_filter {σ B : Type} (h : Helpers B) (x : v1alpha1.External B)
    (config : ReconcilerConfig σ B) (order : RangeOrder B) (s s' : σ)
    (remote : GoMap spiffeid.TrustDomain (FederationRelationship B))
    (desired : GoMap spiffeid.TrustDomain (clusterFederatedTrustDomainState B))
    (logged : List LogEntry)
    (hremote : listFederationRelationships config s = (.ok remote, s'))
    (hdesired : listClusterFederatedTrustDomains h x config = .ok (desired, logged))
    (p : Event B → Bool) (hp : ∀ entry, p (Event.log entry) = false)
    (hp1 : p Event.ListFederationRelationships = false)
    (hp2 : p Event.ListClusterFederatedTrustDomains = false) :
    (reconcile h x config order s).trace.filter p =
      (dispatch h config
        (workLists h.Equal (order.current remote) (order.desired desired)) s').trace.filter p := by
  rw [(reconcile_listed h x config order s s' remote desired logged hremote hdesired).1]
  simp [List.filter_append, filter_logs p hp, hp1, hp2]

end spirefederationrelationship

/-! ## The pass -/

namespace spirefederationrelationship

open spireapi

theorem sample.client_noExcess (listing : List (FederationRelationship String)) :
    NoExcess (sample.client listing).DeleteFederationRelationships ∧
    NoExcess (sample.client listing).CreateFederationRelationships ∧
    NoExcess (sample.client listing).UpdateFederationRelationships := by
  refine ⟨?_, ?_, ?_⟩ <;>
  · intro s items statuses s' hc
    simp only [sample.client, Prod.mk.injEq, Except.ok.injEq] at hc
    rw [← hc.1]
    simp

/-- C11: a pass aborts on a listing failure. When the remote listing returns
an error, or it succeeds and the listing of the declarative store returns an
error, the trace of `reconcile` holds no create, update or delete call and the
pass ends without a panic; when the remote listing fails the declarative store
is not listed at all (the trace is the remote listing and one error entry). -/
theorem abort_on_listing_failure {σ B : Type} (h : Helpers B) (x : v1alpha1.External B)
    (config : ReconcilerConfig σ B) (order : RangeOrder B) (s : σ)
    (hfail :
      (∃ err s', config.TrustDomainClient.ListFederationRelationships s = (.error err, s')) ∨
      (∃ frs s' err, config.TrustDomainClient.ListFederationRelationships s = (.ok frs, s') ∧
        config.K8sClient = .error err)) :
    batchCalls (reconcile h x config order s).trace = [] ∧
    (∀ e ∈ (reconcile h x config order s).trace, e.isBatchCall = false) ∧
    (reconcile h x config order s).panicked = false ∧
    (∀ err s', config.TrustDomainClient.ListFederationRelationships s = (.error err, s') →
      (reconcile h x config order s).trace =
        [Event.ListFederationRelationships,
         Event.log { isError := true, err := some err,
                     msg := "Failed to list SPIRE federation relationships",
                     keysAndValues := [] }] ∧
      Event.ListClusterFederatedTrustDomains ∉ (reconcile h x config order s).trace) ∧
    (∀ frs s' err, config.TrustDomainClient.ListFederationRelationships s = (.ok frs, s') →
      config.K8sClient = .error err →
      (reconcile h x config order s).trace =
        [Event.ListFederationRelationships, Event.ListClusterFederatedTrustDomains,
         Event.log { isError := true, err := some err,
                     msg := "Failed to list ClusterFederatedTrustDomains",
                     keysAndValues := [] }]) := by
  have h1 : ∀ err s', config.TrustDomainClient.ListFederationRelationships s = (.error err, s') →
      reconcile h x config order s =
        { trace := [Event.ListFederationRelationships,
                    Event.log { isError := true, err := some err,
                                msg := "Failed to list SPIRE federation relationships",
                                keysAndValues := [] }]
          state := s', panicked := false } := by
    intro err s' hl
    simp [reconcile, listFederationRelationships, hl]
  have h2 : ∀ frs s' err,
      config.TrustDomainClient.ListFederationRelationships s = (.ok frs, s') →
      config.K8sClient = .error err →
      reconcile h x config order s =
        { trace := [Event.ListFederationRelationships, Event.ListClusterFederatedTrustDomains,
                    Event.log { isError := true, err := some err,
                                msg := "Failed to list ClusterFederatedTrustDomains",
                                keysAndValues := [] }]
          state := s', panicked := false } := by
    intro frs s' err hl hk
    simp [reconcile, listFederationRelationships, listClusterFederatedTrustDomains, hl, hk]
  refine ⟨?_, ?_, ?_, ?_, ?_⟩
  · rcases hfail with ⟨err, s', hl⟩ | ⟨frs, s', err, hl, hk⟩
    · rw [h1 err s' hl]
      simp [batchCalls, Event.isBatchCall]
    · rw [h2 frs s' err hl hk]
      simp [batchCalls, Event.isBatchCall]
  · rcases hfail with ⟨err, s', hl⟩ | ⟨frs, s', err, hl, hk⟩
    · rw [h1 err s' hl]
      intro e he
      simp only [List.mem_cons, List.mem_singleton, List.not_mem_nil, or_false] at he
      rcases he with rfl | rfl <;> rfl
    · rw [h2 frs s' err hl hk]
      intro e he
      simp only [List.mem_cons, List.mem_singleton, List.not_mem_nil, or_false] at he
      rcases he with rfl | rfl | rfl <;> rfl
  · rcases hfail with ⟨err, s', hl⟩ | ⟨frs, s', err, hl, hk⟩
    · rw [h1 err s' hl]
    · rw [h2 frs s' err hl hk]
  · intro err s' hl
    rw [h1 err s' hl]
    simp
  · intro frs s' err hl hk
    rw [h2 frs s' err hl hk]

/-- C11, at the sample passes whose authority fails to list and whose store
fails to list. -/
theorem abort_on_listing_failure_witness :
    batchCalls (reconcile sample.helpers sample.external sample.failingStore
      sample.order ()).trace = [] ∧
    Event.ListClusterFederatedTrustDomains ∉
      (reconcile sample.helpers sample.external sample.failingList sample.order ()).trace :=
  ⟨(abort_on_listing_failure sample.helpers sample.external sample.failingStore sample.order ()
      (Or.inr ⟨_, (), "store unavailable", rfl, rfl⟩)).1,
   ((abort_on_listing_failure sample.helpers sample.external sample.failingList sample.order ()
      (Or.inl ⟨"authority unavailable", (), rfl⟩)).2.2.2.1
      "authority unavailable" () rfl).2⟩

theorem dispatch_createCalls {σ B : Type} (h : Helpers B) (config : ReconcilerConfig σ B)
    (w : WorkLists B) (s : σ)
    (hD : NoExcess config.TrustDomainClient.DeleteFederationRelationships) :
    (dispatch h config w s).trace.filter Event.isCreateCall = createCall w.toCreate := by
  rw [dispatch_filter h config w s Event.isCreateCall (fun _ => rfl),
    afterDelete_no_panic h config w s hD]
  unfold deleteCall createCall updateCall
  by_cases hd : w.toDelete.length > 0 <;> by_cases hc : w.toCreate.length > 0 <;>
    by_cases hu : w.toUpdate.length > 0 <;>
      cases (afterCreate h config w s).panicked <;>
        simp [hd, hc, hu, Event.isCreateCall]

theorem dispatch_updateCalls {σ B : Type} (h : Helpers B) (config : ReconcilerConfig σ B)
    (w : WorkLists B) (s : σ)
    (hD : NoExcess config.TrustDomainClient.DeleteFederationRelationships)
    (hC : NoExcess config.TrustDomainClient.CreateFederationRelationships) :
    (dispatch h config w s).trace.filter Event.isUpdateCall = updateCall w.toUpdate := by
  rw [dispatch_filter h config w s Event.isUpdateCall (fun _ => rfl),
    afterDelete_no_panic h config w s hD, afterCreate_no_panic h config w s hD hC]
  unfold deleteCall createCall updateCall
  by_cases hd : w.toDelete.length > 0 <;> by_cases hc : w.toCreate.length > 0 <;>
    by_cases hu : w.toUpdate.length > 0 <;>
      simp [hd, hc, hu, Event.isUpdateCall]

theorem createCalls_of_pass {σ B : Type} (h : Helpers B) (x : v1alpha1.External B)
    (config : ReconcilerConfig σ B) (order : RangeOrder B) (s s' : σ)
    (remote : GoMap spiffeid.TrustDomain (FederationRelationship B))
    (desired : GoMap spiffeid.TrustDomain (clusterFederatedTrustDomainState B))
    (logged : List LogEntry)
    (hremote : listFederationRelationships config s = (.ok remote, s'))
    (hdesired : listClusterFederatedTrustDomains h x config = .ok (desired, logged))
    (hD : NoExcess config.TrustDomainClient.DeleteFederationRelationships) :
    (reconcile h x config order s).trace.filter Event.isCreateCall =
      createCall (workLists h.Equal (order.current remote) (order.desired desired)).toCreate := by
  rw [reconcile_filter h x config order s s' remote desired logged hremote hdesired
    Event.isCreateCall (fun _ => rfl) rfl rfl]
  exact dispatch_createCalls h config _ s' hD

theorem updateCalls_of_pass {σ B : Type} (h : Helpers B) (x : v1alpha1.External B)
    (config : ReconcilerConfig σ B) (order : RangeOrder B) (s s' : σ)
    (remote : GoMap spiffeid.TrustDomain (FederationRelationship B))
    (desired : GoMap spiffeid.TrustDomain (clusterFederatedTrustDomainState B))
    (logged : List LogEntry)
    (hremote : listFederationRelationships config s = (.ok remote, s'))
    (hdesired : listClusterFederatedTrustDomains h x config = .ok (desired, logged))
    (hD : NoExcess config.TrustDomainClient.DeleteFederationRelationships)
    (hC : NoExcess config.TrustDomainClient.CreateFederationRelationships) :
    (reconcile h x config order s).trace.filter Event.isUpdateCall =
      updateCall (workLists h.Equal (order.current remote) (order.desired desired)).toUpdate := by
  rw [reconcile_filter h x config order s s' remote desired logged hremote hdesired
    Event.isUpdateCall (fun _ => rfl) rfl rfl]
  exact dispatch_updateCalls h config _ s' hD hC

/-- C12: batch independence. In a pass in which both listings succeed, take any
other answers `delete2` and `create2` of the authority to the delete and
create batch calls, where every answer is a failure of the whole call or a
list of statuses no longer than the list of items. The create calls of the
pass are the same whatever the delete call answers: none when `toCreate` is
empty, otherwise one call with `toCreate`. The update calls of the pass are
the same whatever the delete and create calls answer: none when `toUpdate` is
empty, otherwise one call with `toUpdate`. -/
theorem batch_independence {σ B : Type} (h : Helpers B) (x : v1alpha1.External B)
    (config : ReconcilerConfig σ B) (order : RangeOrder B) (s s' : σ)
    (remote : GoMap spiffeid.TrustDomain (FederationRelationship B))
    (desired : GoMap spiffeid.TrustDomain (clusterFederatedTrustDomainState B))
    (logged : List LogEntry)
    (delete2 : σ → List spiffeid.TrustDomain → Except String (List Status) × σ)
    (create2 : σ → List (FederationRelationship B) → Except String (List Status) × σ)
    (hremote : listFederationRelationships config s = (.ok remote, s'))
    (hdesired : listClusterFederatedTrustDomains h x config = .ok (desired, logged))
    (hD : NoExcess config.TrustDomainClient.DeleteFederationRelationships)
    (hC : NoExcess config.TrustDomainClient.CreateFederationRelationships)
    (hD2 : NoExcess delete2) (hC2 : NoExcess create2) :
    (reconcile h x
        { config with
          TrustDomainClient :=
            { config.TrustDomainClient with DeleteFederationRelationships := delete2 } }
        order s).trace.filter Event.isCreateCall
      = (reconcile h x config order s).trace.filter Event.isCreateCall ∧
    (reconcile h x config order s).trace.filter Event.isCreateCall
      = createCall (workLists h.Equal (order.current remote) (order.desired desired)).toCreate ∧
    (reconcile h x
        { config with
          TrustDomainClient :=
            { config.TrustDomainClient with
              DeleteFederationRelationships := delete2
              CreateFederationRelationships := create2 } }
        order s).trace.filter Event.isUpdateCall
      = (reconcile h x config order s).trace.filter Event.isUpdateCall ∧
    (reconcile h x config order s).trace.filter Event.isUpdateCall
      = updateCall (workLists h.Equal (order.current remote) (order.desired desired)).toUpdate := by
  have c1 := createCalls_of_pass h x config order s s' remote desired logged hremote hdesired hD
  have u1 := updateCalls_of_pass h x config order s s' remote desired logged hremote hdesired
    hD hC
  have c2 := createCalls_of_pass h x
    { config with
      TrustDomainClient :=
        { config.TrustDomainClient with DeleteFederationRelationships := delete2 } }
    order s s' remote desired logged hremote hdesired hD2
  have u2 := updateCalls_of_pass h x
    { config with
      TrustDomainClient :=
        { config.TrustDomainClient with
          DeleteFederationRelationships := delete2
          CreateFederationRelationships := create2 } }
    order s s' remote desired logged hremote hdesired hD2 hC2
  exact ⟨c2.trans c1.symm, c1, u2.trans u1.symm, u1⟩

/-- C12, at the sample pass of the diff example: the create call is the same
when the delete call fails as a whole. -/
theorem batch_independence_witness :
    (reconcile sample.helpers sample.external sample.failingDelete sample.order
        ()).trace.filter Event.isCreateCall
      = (reconcile sample.helpers sample.external sample.pass sample.order
        ()).trace.filter Event.isCreateCall ∧
    (reconcile sample.helpers sample.external sample.pass sample.order
        ()).trace.filter Event.isCreateCall
      = [Event.CreateFederationRelationships [sample.relationship "D" "1"]] :=
  have hs := sample.client_noExcess
    [sample.relationship "A" "1", sample.relationship "B" "1", sample.relationship "C" "1"]
  have h := batch_independence sample.helpers sample.external sample.pass sample.order () ()
    sample.remote sample.desired []
    (fun s _ => (.error "delete failed", s))
    (fun s frs => (.ok (frs.map (fun _ => { Code := 6, Message := "exists" })), s))
    (by decide) (by decide) hs.1 hs.2.1
    (by
      intro s items statuses s' hc
      simp at hc)
    (by
      intro s items statuses s' hc
      simp only [Prod.mk.injEq, Except.ok.injEq] at hc
      rw [← hc.1]
      simp)
  ⟨h.1, h.2.1.trans (by decide)⟩

theorem isDelete_perm {B : Type}
    (desired desired' : GoMap spiffeid.TrustDomain (clusterFederatedTrustDomainState B))
    (hwf : GoMap.WF desired) (hp : desired'.Perm desired) :
    isDelete desired' = isDelete desired := by
  funext e
  simp only [isDelete, GoMap.index_perm hp hwf]

theorem isCreate_perm {B : Type}
    (remote remote' : GoMap spiffeid.TrustDomain (FederationRelationship B))
    (hwf : GoMap.WF remote) (hp : remote'.Perm remote) :
    isCreate remote' = isCreate remote := by
  funext e
  simp only [isCreate, GoMap.index_perm hp hwf]

theorem isUpdate_perm {B : Type}
    (Equal : FederationRelationship B → FederationRelationship B → Bool)
    (remote remote' : GoMap spiffeid.TrustDomain (FederationRelationship B))
    (hwf : GoMap.WF remote) (hp : remote'.Perm remote) :
    isUpdate Equal remote' = isUpdate Equal remote := by
  funext e
  simp only [isUpdate, GoMap.index_perm hp hwf]

theorem workLists_perm {B : Type}
    (Equal : FederationRelationship B → FederationRelationship B → Bool)
    (remote remote' : GoMap spiffeid.TrustDomain (FederationRelationship B))
    (desired desired' : GoMap spiffeid.TrustDomain (clusterFederatedTrustDomainState B))
    (hwfR : GoMap.WF remote) (hwfD : GoMap.WF desired)
    (hpR : remote'.Perm remote) (hpD : desired'.Perm desired) :
    (workLists Equal remote' desired').toDelete.Perm (workLists Equal remote desired).toDelete ∧
    (workLists Equal remote' desired').toCreate.Perm (workLists Equal remote desired).toCreate ∧
    (workLists Equal remote' desired').toUpdate.Perm (workLists Equal remote desired).toUpdate := by
  rw [workLists_eq, workLists_eq]
  simp only [isDelete_perm desired desired' hwfD hpD, isCreate_perm remote remote' hwfR hpR,
    isUpdate_perm Equal remote remote' hwfR hpR]
  exact ⟨(hpR.filter _).map _, (hpD.filter _).map _, (hpD.filter _).map _⟩

/-- C13 as stated fails: the remote map `{A:1, B:1}` against an empty desired
map, visited back to front (a rearrangement of its entries, which Go allows),
gives `toDelete = [B, A]`, which is not in ascending order of trust domain, and
the delete call of the pass gets `[B, A]`; visited front to back the same map
gives `[A, B]`, so the list is not determined by the contents of the maps. -/
theorem work_lists_sorted_counterexample :
    RangeOrder.Valid sample.reversed ∧
    (workLists sample.Equal
      (sample.reversed.current
        [({ name := "A" }, sample.relationship "A" "1"),
         ({ name := "B" }, sample.relationship "B" "1")])
      (sample.reversed.desired [])).toDelete
      = [sample.relationship "B" "1", sample.relationship "A" "1"] ∧
    ¬ ascending (workLists sample.Equal
      (sample.reversed.current
        [({ name := "A" }, sample.relationship "A" "1"),
         ({ name := "B" }, sample.relationship "B" "1")])
      (sample.reversed.desired [])).toDelete ∧
    (workLists sample.Equal
      (sample.order.current
        [({ name := "A" }, sample.relationship "A" "1"),
         ({ name := "B" }, sample.relationship "B" "1")])
      (sample.order.desired [])).toDelete
      = [sample.relationship "A" "1", sample.relationship "B" "1"] ∧
    batchCalls (reconcile sample.helpers sample.external
      (sample.config [sample.relationship "A" "1", sample.relationship "B" "1"] [])
      sample.reversed ()).trace
      = [Event.DeleteFederationRelationships [{ name := "B" }, { name := "A" }]] := by
  refine ⟨⟨fun m => List.reverse_perm m, fun m => List.reverse_perm m⟩, ?_, ?_, ?_, ?_⟩ <;>
    decide

/-- C13, amended: the work lists follow the order in which the maps are
visited and are not sorted: `toDelete` is the values of the remote entries
whose key the desired map lacks, in the order the remote map is visited, and
`toCreate` and `toUpdate` are the desired values of the qualifying entries of
the desired map, in the order the desired map is visited. Visiting the same
two maps in another order (`remote'`, `desired'` rearrange `remote`,
`desired`) gives lists with the same entries, rearranged. -/
theorem work_lists_follow_range_order {B : Type}
    (Equal : FederationRelationship B → FederationRelationship B → Bool)
    (remote remote' : GoMap spiffeid.TrustDomain (FederationRelationship B))
    (desired desired' : GoMap spiffeid.TrustDomain (clusterFederatedTrustDomainState B))
    (hwfR : GoMap.WF remote) (hwfD : GoMap.WF desired)
    (hpR : remote'.Perm remote) (hpD : desired'.Perm desired) :
    (workLists Equal remote' desired').toDelete
      = (remote'.filter (fun e => (GoMap.index desired e.1).isNone)).map Prod.snd ∧
    (workLists Equal remote' desired').toCreate
      = (desired'.filter (fun e => (GoMap.index remote e.1).isNone)).map
          (fun e => e.2.FederationRelationship) ∧
    (workLists Equal remote' desired').toUpdate
      = (desired'.filter (fun e =>
            match GoMap.index remote e.1 with
            | none => false
            | some currentRelationship =>
              !Equal currentRelationship e.2.FederationRelationship)).map
          (fun e => e.2.FederationRelationship) ∧
    (workLists Equal remote' desired').toDelete.Perm (workLists Equal remote desired).toDelete ∧
    (workLists Equal remote' desired').toCreate.Perm (workLists Equal remote desired).toCreate ∧
    (workLists Equal remote' desired').toUpdate.Perm (workLists Equal remote desired).toUpdate := by
  have hperm := workLists_perm Equal remote remote' desired desired' hwfR hwfD hpR hpD
  refine ⟨?_, ?_, ?_, hperm.1, hperm.2.1, hperm.2.2⟩
  · rw [workLists_eq, isDelete_perm desired desired' hwfD hpD]
    rfl
  · rw [workLists_eq, isCreate_perm remote remote' hwfR hpR]
    rfl
  · rw [workLists_eq, isUpdate_perm Equal remote remote' hwfR hpR]
    rfl

/-- C13 amended, at the sample maps `{A:1, B:1, C:1}` and `{B:1, C:2, D:1}`
visited back to front. -/
theorem work_lists_follow_range_order_witness :
    GoMap.WF sample.remote ∧ GoMap.WF sample.desired ∧
    (workLists sample.Equal sample.remote.reverse sample.desired.reverse).toDelete.Perm
      (workLists sample.Equal sample.remote sample.desired).toDelete :=
  ⟨by decide, by decide,
   (work_lists_follow_range_order sample.Equal sample.remote sample.remote.reverse
      sample.desired sample.desired.reverse (by decide) (by decide)
      (List.reverse_perm _) (List.reverse_perm _)).2.2.2.1⟩

/-- C14: the diff example. For four distinct trust domains `A`, `B`, `C`, `D`,
a remote map `{A: rA, B: rB, C: rC}` and a desired map `{B: sB, C: sC, D: sD}`
where `rB` is `Equal` to the desired relationship of `B` and `rC` is not
`Equal` to the desired relationship of `C`, in whatever order the two maps are
visited: `toDelete = [rA]`, `toCreate = [desired D]`, `toUpdate = [desired C]`,
and, the listed relationships carrying their own trust domains, no list has
an entry for `B`. -/
theorem diff_example {B : Type}
    (Equal : FederationRelationship B → FederationRelationship B → Bool)
    (tA tB tC tD : spiffeid.TrustDomain)
    (rA rB rC : FederationRelationship B)
    (sB sC sD : clusterFederatedTrustDomainState B)
    (remote : GoMap spiffeid.TrustDomain (FederationRelationship B))
    (desired : GoMap spiffeid.TrustDomain (clusterFederatedTrustDomainState B))
    (hAB : tA ≠ tB) (hAC : tA ≠ tC) (hAD : tA ≠ tD) (hBC : tB ≠ tC) (hBD : tB ≠ tD)
    (hCD : tC ≠ tD)
    (hremote : remote.Perm [(tA, rA), (tB, rB), (tC, rC)])
    (hdesired : desired.Perm [(tB, sB), (tC, sC), (tD, sD)])
    (hB : Equal rB sB.FederationRelationship = true)
    (hC : Equal rC sC.FederationRelationship = false)
    (hkA : rA.TrustDomain = tA) (hkC : sC.FederationRelationship.TrustDomain = tC)
    (hkD : sD.FederationRelationship.TrustDomain = tD) :
    (workLists Equal remote desired).toDelete = [rA] ∧
    (workLists Equal remote desired).toCreate = [sD.FederationRelationship] ∧
    (workLists Equal remote desired).toUpdate = [sC.FederationRelationship] ∧
    (∀ fr, fr ∈ (workLists Equal remote desired).toDelete ∨
           fr ∈ (workLists Equal remote desired).toCreate ∨
           fr ∈ (workLists Equal remote desired).toUpdate → fr.TrustDomain ≠ tB) := by
  have hwfR : GoMap.WF [(tA, rA), (tB, rB), (tC, rC)] := by
    simp [GoMap.WF, hAB, hAC, hBC]
  have hwfD : GoMap.WF [(tB, sB), (tC, sC), (tD, sD)] := by
    simp [GoMap.WF, hBC, hBD, hCD]
  have hcanon : workLists Equal [(tA, rA), (tB, rB), (tC, rC)] [(tB, sB), (tC, sC), (tD, sD)]
      = { toDelete := [rA], toCreate := [sD.FederationRelationship],
          toUpdate := [sC.FederationRelationship] } := by
    simp [workLists, GoMap.index, hAB, hAC, hAD, hBC, hBD, hCD, hAB.symm, hAC.symm, hAD.symm,
      hBC.symm, hBD.symm, hCD.symm, hB, hC]
  have hperm := workLists_perm Equal _ remote _ desired hwfR hwfD hremote hdesired
  rw [hcanon] at hperm
  have h1 := List.perm_singleton.1 hperm.1
  have h2 := List.perm_singleton.1 hperm.2.1
  have h3 := List.perm_singleton.1 hperm.2.2
  refine ⟨h1, h2, h3, ?_⟩
  intro fr hfr
  rw [h1, h2, h3] at hfr
  simp only [List.mem_singleton] at hfr
  rcases hfr with rfl | rfl | rfl
  · rw [hkA]; exact hAB
  · rw [hkD]; exact hBD.symm
  · rw [hkC]; exact hBC.symm

/-- C14, at the sample maps `{A:1, B:1, C:1}` and `{B:1, C:2, D:1}`, visited
back to front. -/
theorem diff_example_witness :
    (workLists sample.Equal sample.remote.reverse sample.desired.reverse).toDelete
      = [sample.relationship "A" "1"] ∧
    (workLists sample.Equal sample.remote.reverse sample.desired.reverse).toCreate
      = [sample.relationship "D" "1"] ∧
    (workLists sample.Equal sample.remote.reverse sample.desired.reverse).toUpdate
      = [sample.relationship "C" "2"] :=
  have h := diff_example sample.Equal { name := "A" } { name := "B" } { name := "C" }
    { name := "D" } (sample.relationship "A" "1") (sample.relationship "B" "1")
    (sample.relationship "C" "1") (sample.state "B" "1") (sample.state "C" "2")
    (sample.state "D" "1") sample.remote.reverse sample.desired.reverse
    (by decide) (by decide) (by decide) (by decide) (by decide) (by decide)
    (List.reverse_perm _) (List.reverse_perm _) (by decide) (by decide)
    (by decide) (by decide) (by decide)
  ⟨h.1, h.2.1, h.2.2.1⟩

end spirefederationrelationship

/-! ## Invalid records -/

namespace spirefederationrelationship

open spireapi

theorem step_logs_append {B : Type} (h : Helpers B) (x : v1alpha1.External B)
    (m : GoMap spiffeid.TrustDomain (clusterFederatedTrustDomainState B)) (l : List LogEntry)
    (r : v1alpha1.ClusterFederatedTrustDomain) :
    listClusterFederatedTrustDomains.step h x (m, l) r =
      ((listClusterFederatedTrustDomains.step h x (m, []) r).1,
       l ++ (listClusterFederatedTrustDomains.step h x (m, []) r).2) := by
  unfold listClusterFederatedTrustDomains.step
  cases hp : v1alpha1.ParseClusterFederatedTrustDomainSpec x r.Spec with
  | error err => simp
  | ok fr =>
    cases hi : GoMap.index m fr.TrustDomain with
    | some existing => simp [hi]
    | none => simp [hi]

theorem fold_logs_append {B : Type} (h : Helpers B) (x : v1alpha1.External B)
    (rs : List v1alpha1.ClusterFederatedTrustDomain)
    (m : GoMap spiffeid.TrustDomain (clusterFederatedTrustDomainState B)) (l : List LogEntry) :
    rs.foldl (listClusterFederatedTrustDomains.step h x) (m, l) =
      ((rs.foldl (listClusterFederatedTrustDomains.step h x) (m, [])).1,
       l ++ (rs.foldl (listClusterFederatedTrustDomains.step h x) (m, [])).2) := by
  induction rs generalizing m l with
  | nil => simp
  | cons r rs ih =>
    rw [List.foldl_cons, List.foldl_cons, step_logs_append h x m l r,
      ih (listClusterFederatedTrustDomains.step h x (m, []) r).1
        (l ++ (listClusterFederatedTrustDomains.step h x (m, []) r).2)]
    have h2 := ih (listClusterFederatedTrustDomains.step h x (m, []) r).1
      (listClusterFederatedTrustDomains.step h x (m, []) r).2
    rw [Prod.mk.eta] at h2
    rw [h2]
    simp [List.append_assoc]

theorem step_of_invalid {B : Type} (h : Helpers B) (x : v1alpha1.External B)
    (m : GoMap spiffeid.TrustDomain (clusterFederatedTrustDomainState B))
    (r : v1alpha1.ClusterFederatedTrustDomain) (hr : parses x r = false) :
    ∃ entry : LogEntry, keptEntry entry = false ∧
      listClusterFederatedTrustDomains.step h x (m, []) r = (m, [entry]) := by
  unfold parses at hr
  unfold listClusterFederatedTrustDomains.step
  cases hp : v1alpha1.ParseClusterFederatedTrustDomainSpec x r.Spec with
  | error err =>
    exact ⟨{ isError := true, err := some err,
             msg := "Ignoring invalid ClusterFederatedTrustDomain",
             keysAndValues := [(h.clusterFederatedTrustDomainLogKey, h.objectName r)] },
      rfl, by simp⟩
  | ok fr => simp [hp] at hr

theorem step_of_valid {B : Type} (h : Helpers B) (x : v1alpha1.External B)
    (m : GoMap spiffeid.TrustDomain (clusterFederatedTrustDomainState B))
    (r : v1alpha1.ClusterFederatedTrustDomain) (hr : parses x r = true) :
    ∀ entry ∈ (listClusterFederatedTrustDomains.step h x (m, []) r).2,
      keptEntry entry = true := by
  unfold parses at hr
  unfold listClusterFederatedTrustDomains.step
  cases hp : v1alpha1.ParseClusterFederatedTrustDomainSpec x r.Spec with
  | error err => simp [hp] at hr
  | ok fr =>
    cases hi : GoMap.index m fr.TrustDomain with
    | some existing => simp [hi, keptEntry]
    | none => simp [hi]

theorem fold_filter_parses {B : Type} (h : Helpers B) (x : v1alpha1.External B)
    (rs : List v1alpha1.ClusterFederatedTrustDomain)
    (m : GoMap spiffeid.TrustDomain (clusterFederatedTrustDomainState B)) :
    (rs.filter (parses x)).foldl (listClusterFederatedTrustDomains.step h x) (m, []) =
      ((rs.foldl (listClusterFederatedTrustDomains.step h x) (m, [])).1,
       (rs.foldl (listClusterFederatedTrustDomains.step h x) (m, [])).2.filter keptEntry) := by
  induction rs generalizing m with
  | nil => simp
  | cons r rs ih =>
    cases hr : parses x r with
    | false =>
      obtain ⟨entry, he, hs⟩ := step_of_invalid h x m r hr
      rw [List.filter_cons_of_neg (by simp [hr]), ih m, List.foldl_cons, hs,
        fold_logs_append h x rs m [entry]]
      simp [List.filter_cons, he]
    | true =>
      have hv := step_of_valid h x m r hr
      rw [List.filter_cons_of_pos (by simp [hr]), List.foldl_cons, List.foldl_cons]
      have he : listClusterFederatedTrustDomains.step h x (m, []) r
          = ((listClusterFederatedTrustDomains.step h x (m, []) r).1,
             (listClusterFederatedTrustDomains.step h x (m, []) r).2) := rfl
      rw [he, fold_logs_append h x (rs.filter (parses x)),
        fold_logs_append h x rs, ih]
      simp only [List.filter_append]
      congr 1
      congr 1
      symm
      rw [List.filter_eq_self]
      exact hv

/-- C16: invalid records are skipped, not fatal. When the store lists
`records`, `listClusterFederatedTrustDomains` returns without error, and the
same map is returned for `records` with every record that fails
`ParseClusterFederatedTrustDomainSpec` removed; the log of that second run is
the log of the first without the entries for invalid records, so the conflict
entries are the same. Every state of the map is built from a record that
parses, stored under its parsed trust domain. -/
theorem invalid_records_skipped {σ B : Type} (h : Helpers B) (x : v1alpha1.External B)
    (config : ReconcilerConfig σ B)
    (records : List v1alpha1.ClusterFederatedTrustDomain)
    (hk : config.K8sClient = .ok records) :
    ∃ desired logged,
      listClusterFederatedTrustDomains h x config = .ok (desired, logged) ∧
      listClusterFederatedTrustDomains h x
          { config with K8sClient := .ok (records.filter (parses x)) }
        = .ok (desired, logged.filter keptEntry) ∧
      (∀ e ∈ desired,
        v1alpha1.ParseClusterFederatedTrustDomainSpec x e.2.ClusterFederatedTrustDomain.Spec
          = .ok e.2.FederationRelationship ∧
        e.2.ClusterFederatedTrustDomain ∈ records ∧
        e.2.FederationRelationship.TrustDomain = e.1) := by
  have hdes : listClusterFederatedTrustDomains h x config
      = .ok (records.foldl (listClusterFederatedTrustDomains.step h x) ([], [])) := by
    unfold listClusterFederatedTrustDomains
    simp [hk]
  refine ⟨(records.foldl (listClusterFederatedTrustDomains.step h x) ([], [])).1,
    (records.foldl (listClusterFederatedTrustDomains.step h x) ([], [])).2, hdes, ?_, ?_⟩
  · unfold listClusterFederatedTrustDomains
    simp only [fold_filter_parses h x records []]
  · intro e he
    have hinv := listClusterFederatedTrustDomains_invariant h x config _ _ hdes
    have hidx := listClusterFederatedTrustDomains_index h x config records hk _ _ hdes e.1
    rw [GoMap.index_eq_some_of_mem _ e.1 e.2 hinv.1 he] at hidx
    have hw := winner_parses x records e.1 e.2 hidx.symm
    refine ⟨hw.2, ?_, hinv.2 e he⟩
    have hf := hw.1
    unfold firstSeen at hf
    exact List.mem_of_find?_eq_some hf

/-- C16, at a sample listing with an invalid record (an empty trust domain)
before a valid one. -/
theorem invalid_records_skipped_witness :
    ∃ desired logged,
      listClusterFederatedTrustDomains sample.helpers sample.external
        (sample.config [] [sample.record "bad" "" "1", sample.record "B" "B" "1"])
        = .ok (desired, logged) ∧
      listClusterFederatedTrustDomains sample.helpers sample.external
        (sample.config [] [sample.record "B" "B" "1"])
        = .ok (desired, logged.filter keptEntry) :=
  match invalid_records_skipped sample.helpers sample.external
      (sample.config [] [sample.record "bad" "" "1", sample.record "B" "B" "1"])
      [sample.record "bad" "" "1", sample.record "B" "B" "1"] rfl with
  | ⟨desired, logged, h1, h2, _⟩ => ⟨desired, logged, h1, h2⟩

end spirefederationrelationship

/-! ## Admission -/

namespace v1alpha1

open spireapi spirefederationrelationship

/-- C15: the admission validators. `ValidateDelete` returns no error for every
resource. `ValidateCreate` and `ValidateUpdate`, whatever the old object,
return the error `e` exactly when `ParseClusterFederatedTrustDomainSpec` fails
on the spec of the resource with the error `e`, and no error exactly when it
succeeds. -/
theorem admission_validation {B Obj : Type} (x : External B)
    (r : ClusterFederatedTrustDomain) (old : Obj) :
    ValidateDelete r = none ∧
    (∀ e, ValidateCreate x r = some e ↔ ParseClusterFederatedTrustDomainSpec x r.Spec = .error e) ∧
    (∀ e, ValidateUpdate x r old = some e ↔
      ParseClusterFederatedTrustDomainSpec x r.Spec = .error e) ∧
    (ValidateCreate x r = none ↔ ∃ fr, ParseClusterFederatedTrustDomainSpec x r.Spec = .ok fr) ∧
    (ValidateUpdate x r old = none ↔
      ∃ fr, ParseClusterFederatedTrustDomainSpec x r.Spec = .ok fr) := by
  unfold ValidateDelete ValidateCreate ValidateUpdate validate
  cases hp : ParseClusterFederatedTrustDomainSpec x r.Spec with
  | error err => simp
  | ok fr => simp

end v1alpha1

/-! ## Status handling and dispatch -/

namespace spirefederationrelationship

open spireapi

/-- C17: per-item status handling, for the create, update and delete
dispatchers and every input list `frs`. When the batch call returns an error,
the dispatcher logs exactly one failure, with that error, and nothing per
item. When it returns a status list as long as the input, the dispatcher logs
exactly one entry per input item, in input order: entry `i` is `statusEntry` of
item `i` and status `i`, which carries the identifying fields of the item, is a
success entry iff the status has code OK, and otherwise is a failure entry
with the error of the status; the entries after a non-OK status are all there.
Neither case panics. -/
theorem per_item_status_handling {σ B : Type} (h : Helpers B) (config : ReconcilerConfig σ B)
    (frs : List (FederationRelationship B)) (s : σ) :
    (∀ err s', config.TrustDomainClient.CreateFederationRelationships s (frs) = (.error err, s') →
      (createFederationRelationships h config frs s).trace =
        [Event.CreateFederationRelationships (frs),
         Event.log { isError := true, err := some err,
                     msg := "Failed to create federation relationships",
                     keysAndValues := [] }] ∧
      (createFederationRelationships h config frs s).panicked = false) ∧
    (∀ statuses s',
      config.TrustDomainClient.CreateFederationRelationships s (frs) = (.ok statuses, s') →
      statuses.length = frs.length →
      (createFederationRelationships h config frs s).trace =
        Event.CreateFederationRelationships (frs) ::
          (List.zipWith (statusEntry h "Created federation relationship"
            "Failed to create federation relationship") frs statuses).map Event.log ∧
      (createFederationRelationships h config frs s).panicked = false) ∧
    (∀ err s', config.TrustDomainClient.UpdateFederationRelationships s (frs) = (.error err, s') →
      (updateFederationRelationships h config frs s).trace =
        [Event.UpdateFederationRelationships (frs),
         Event.log { isError := true, err := some err,
                     msg := "Failed to update federation relationships",
                     keysAndValues := [] }] ∧
      (updateFederationRelationships h config frs s).panicked = false) ∧
    (∀ statuses s',
      config.TrustDomainClient.UpdateFederationRelationships s (frs) = (.ok statuses, s') →
      statuses.length = frs.length →
      (updateFederationRelationships h config frs s).trace =
        Event.UpdateFederationRelationships (frs) ::
          (List.zipWith (statusEntry h "Updated federation relationship"
            "Failed to update federation relationship") frs statuses).map Event.log ∧
      (updateFederationRelationships h config frs s).panicked = false) ∧
    (∀ err s', config.TrustDomainClient.DeleteFederationRelationships s (frs.map (fun fr => fr.TrustDomain)) = (.error err, s') →
      (deleteFederationRelationships h config frs s).trace =
        [Event.DeleteFederationRelationships (frs.map (fun fr => fr.TrustDomain)),
         Event.log { isError := true, err := some err,
                     msg := "Failed to delete federation relationships",
                     keysAndValues := [] }] ∧
      (deleteFederationRelationships h config frs s).panicked = false) ∧
    (∀ statuses s',
      config.TrustDomainClient.DeleteFederationRelationships s (frs.map (fun fr => fr.TrustDomain)) = (.ok statuses, s') →
      statuses.length = frs.length →
      (deleteFederationRelationships h config frs s).trace =
        Event.DeleteFederationRelationships (frs.map (fun fr => fr.TrustDomain)) ::
          (List.zipWith (statusEntry h "Deleted federation relationship"
            "Failed to delete federation relationship") frs statuses).map Event.log ∧
      (deleteFederationRelationships h config frs s).panicked = false) ∧
    (∀ okMsg errMsg fr status,
      (statusEntry h okMsg errMsg fr status).keysAndValues
        = h.federationRelationshipFields fr ∧
      ((statusEntry h okMsg errMsg fr status).isError = false ↔ status.Code = codes.OK) ∧
      (status.Code = codes.OK →
        statusEntry h okMsg errMsg fr status
          = { isError := false, err := none, msg := okMsg,
              keysAndValues := h.federationRelationshipFields fr }) ∧
      (status.Code ≠ codes.OK →
        statusEntry h okMsg errMsg fr status
          = { isError := true, err := h.Err status, msg := errMsg,
              keysAndValues := h.federationRelationshipFields fr })) := by
  refine ⟨?_, ?_, ?_, ?_, ?_, ?_, ?_⟩
  · intro err s' hc
    simp [createFederationRelationships, hc]
  · intro statuses s' hc hlen
    have hr := rangeStatuses_in_range h "Created federation relationship"
      "Failed to create federation relationship" frs statuses 0 (by omega)
    simp [createFederationRelationships, hc, hr]
  · intro err s' hc
    simp [updateFederationRelationships, hc]
  · intro statuses s' hc hlen
    have hr := rangeStatuses_in_range h "Updated federation relationship"
      "Failed to update federation relationship" frs statuses 0 (by omega)
    simp [updateFederationRelationships, hc, hr]
  · intro err s' hc
    simp [deleteFederationRelationships, trustDomainIDs_eq_map, hc]
  · intro statuses s' hc hlen
    have hr := rangeStatuses_in_range h "Deleted federation relationship"
      "Failed to delete federation relationship" frs statuses 0 (by omega)
    simp [deleteFederationRelationships, trustDomainIDs_eq_map, hc, hr]
  · intro okMsg errMsg fr status
    by_cases hc : status.Code = codes.OK <;> simp [statusEntry, hc]

/-- C17, at a sample create batch of two items answered with `[OK, 6]`: both
results are logged, the second as a failure. -/
theorem per_item_status_handling_witness :
    (createFederationRelationships sample.helpers sample.mixed
      [sample.relationship "A" "1", sample.relationship "B" "1"] ()).trace =
      [Event.CreateFederationRelationships
         [sample.relationship "A" "1", sample.relationship "B" "1"],
       Event.log { isError := false, err := none, msg := "Created federation relationship",
                   keysAndValues := [("trustDomain", "A")] },
       Event.log { isError := true, err := some "exists",
                   msg := "Failed to create federation relationship",
                   keysAndValues := [("trustDomain", "B")] }] :=
  ((per_item_status_handling sample.helpers sample.mixed
      [sample.relationship "A" "1", sample.relationship "B" "1"] ()).2.1
      [{ Code := codes.OK, Message := "" }, { Code := 6, Message := "exists" }] ()
      rfl rfl).1.trans (by decide)

theorem afterDelete_panicked_iff {σ B : Type} (h : Helpers B) (config : ReconcilerConfig σ B)
    (w : WorkLists B) (s : σ) :
    (afterDelete h config w s).panicked = true ↔
      w.toDelete.length > 0 ∧
      ∃ statuses s2, config.TrustDomainClient.DeleteFederationRelationships s
          (w.toDelete.map (fun fr => fr.TrustDomain)) = (.ok statuses, s2) ∧
        w.toDelete.length < statuses.length := by
  unfold afterDelete
  by_cases hd : w.toDelete.length > 0
  · simp only [hd, if_true, Outcome.andThen, Bool.false_eq_true, if_false, true_and]
    exact (delete_shape h config w.toDelete s).2.2
  · simp [hd]

theorem afterCreate_panicked_iff {σ B : Type} (h : Helpers B) (config : ReconcilerConfig σ B)
    (w : WorkLists B) (s : σ) :
    (afterCreate h config w s).panicked = true ↔
      (afterDelete h config w s).panicked = true ∨
      (w.toCreate.length > 0 ∧
        ∃ statuses s2, config.TrustDomainClient.CreateFederationRelationships
            (afterDelete h config w s).state w.toCreate = (.ok statuses, s2) ∧
          w.toCreate.length < statuses.length) := by
  unfold afterCreate
  by_cases hc : w.toCreate.length > 0
  · cases hp : (afterDelete h config w s).panicked with
    | true => simp [hc, Outcome.andThen, hp]
    | false =>
      simp only [hc, if_true, Outcome.andThen, hp, Bool.false_eq_true, if_false, false_or,
        true_and]
      exact (create_shape h config w.toCreate _).2.2
  · simp [hc]

theorem batchCalls_of_pass {σ B : Type} (h : Helpers B) (x : v1alpha1.External B)
    (config : ReconcilerConfig σ B) (order : RangeOrder B) (s s' : σ)
    (remote : GoMap spiffeid.TrustDomain (FederationRelationship B))
    (desired : GoMap spiffeid.TrustDomain (clusterFederatedTrustDomainState B))
    (logged : List LogEntry) (w : WorkLists B)
    (hremote : listFederationRelationships config s = (.ok remote, s'))
    (hdesired : listClusterFederatedTrustDomains h x config = .ok (desired, logged))
    (hw : workLists h.Equal (order.current remote) (order.desired desired) = w) :
    batchCalls (reconcile h x config order s).trace =
      deleteCall w.toDelete ++
        (if (afterDelete h config w s').panicked then []
         else createCall w.toCreate ++
           (if (afterCreate h config w s').panicked then [] else updateCall w.toUpdate)) := by
  unfold batchCalls
  rw [reconcile_filter h x config order s s' remote desired logged hremote hdesired
    Event.isBatchCall (fun _ => rfl) rfl rfl, hw]
  exact dispatch_batchCalls h config w s'

theorem calls_initial {σ B : Type} (h : Helpers B) (config : ReconcilerConfig σ B)
    (w : WorkLists B) (s : σ) :
    (deleteCall w.toDelete ++
        (if (afterDelete h config w s).panicked then []
         else createCall w.toCreate ++
           (if (afterCreate h config w s).panicked then [] else updateCall w.toUpdate)))
      <+: expectedCalls w := by
  unfold expectedCalls
  cases (afterDelete h config w s).panicked with
  | true =>
    simp only [if_true, List.append_nil, List.append_assoc]
    exact List.prefix_append _ _
  | false =>
    cases (afterCreate h config w s).panicked with
    | true =>
      simp only [Bool.false_eq_true, if_false, if_true, List.append_nil]
      exact List.prefix_append _ _
    | false =>
      simp only [Bool.false_eq_true, if_false, List.append_assoc]
      exact List.prefix_refl _

theorem mem_expectedCalls {B : Type} (w : WorkLists B) (e : Event B)
    (he : e ∈ expectedCalls w) :
    e = Event.DeleteFederationRelationships (w.toDelete.map (fun fr => fr.TrustDomain)) ∨
    e = Event.CreateFederationRelationships w.toCreate ∨
    e = Event.UpdateFederationRelationships w.toUpdate := by
  unfold expectedCalls deleteCall createCall updateCall at he
  simp only [List.mem_append] at he
  rcases he with (hd | hc) | hu
  · by_cases hl : w.toDelete.length > 0
    · simp only [hl, if_true, List.mem_singleton] at hd
      exact Or.inl hd
    · simp [hl] at hd
  · by_cases hl : w.toCreate.length > 0
    · simp only [hl, if_true, List.mem_singleton] at hc
      exact Or.inr (Or.inl hc)
    · simp [hl] at hc
  · by_cases hl : w.toUpdate.length > 0
    · simp only [hl, if_true, List.mem_singleton] at hu
      exact Or.inr (Or.inr hu)
    · simp [hl] at hu

/-- C18: batch arguments. `trustDomainIDsFromFederationRelationships` is the
element-wise projection to `TrustDomain`, so it keeps length and order. The
delete dispatcher calls the authority with exactly the trust domains of the
list it is given, the create and update dispatchers with the list they are
given, unchanged. In a pass in which both listings succeed every batch call
issued is the delete call with the trust domains of `toDelete`, the create
call with `toCreate` or the update call with `toUpdate`. -/
theorem batch_arguments {σ B : Type} (h : Helpers B) (x : v1alpha1.External B)
    (config : ReconcilerConfig σ B) (order : RangeOrder B) (s s' : σ)
    (remote : GoMap spiffeid.TrustDomain (FederationRelationship B))
    (desired : GoMap spiffeid.TrustDomain (clusterFederatedTrustDomainState B))
    (logged : List LogEntry) (w : WorkLists B)
    (frs : List (FederationRelationship B)) (s0 : σ)
    (hremote : listFederationRelationships config s = (.ok remote, s'))
    (hdesired : listClusterFederatedTrustDomains h x config = .ok (desired, logged))
    (hw : workLists h.Equal (order.current remote) (order.desired desired) = w) :
    trustDomainIDsFromFederationRelationships frs = frs.map (fun fr => fr.TrustDomain) ∧
    (trustDomainIDsFromFederationRelationships frs).length = frs.length ∧
    ((∃ entries : List LogEntry,
        (deleteFederationRelationships h config frs s0).trace
          = Event.DeleteFederationRelationships (frs.map (fun fr => fr.TrustDomain))
              :: entries.map Event.log) ∧
      (deleteFederationRelationships h config frs s0).state
        = (config.TrustDomainClient.DeleteFederationRelationships s0
            (frs.map (fun fr => fr.TrustDomain))).2) ∧
    ((∃ entries : List LogEntry,
        (createFederationRelationships h config frs s0).trace
          = Event.CreateFederationRelationships frs :: entries.map Event.log) ∧
      (createFederationRelationships h config frs s0).state
        = (config.TrustDomainClient.CreateFederationRelationships s0 frs).2) ∧
    ((∃ entries : List LogEntry,
        (updateFederationRelationships h config frs s0).trace
          = Event.UpdateFederationRelationships frs :: entries.map Event.log) ∧
      (updateFederationRelationships h config frs s0).state
        = (config.TrustDomainClient.UpdateFederationRelationships s0 frs).2) ∧
    (∀ e ∈ batchCalls (reconcile h x config order s).trace,
      e = Event.DeleteFederationRelationships (w.toDelete.map (fun fr => fr.TrustDomain)) ∨
      e = Event.CreateFederationRelationships w.toCreate ∨
      e = Event.UpdateFederationRelationships w.toUpdate) := by
  have hd := delete_shape h config frs s0
  have hc := create_shape h config frs s0
  have hu := update_shape h config frs s0
  refine ⟨trustDomainIDs_eq_map frs, ?_, ⟨hd.1, hd.2.1⟩, ⟨hc.1, hc.2.1⟩, ⟨hu.1, hu.2.1⟩, ?_⟩
  · rw [trustDomainIDs_eq_map, List.length_map]
  · intro e he
    rw [batchCalls_of_pass h x config order s s' remote desired logged w hremote hdesired hw]
      at he
    exact mem_expectedCalls w e ((calls_initial h config w s').subset he)

/-- C18, at the sample pass of the diff example: the delete call gets the
trust domain `A` of `toDelete`. -/
theorem batch_arguments_witness :
    trustDomainIDsFromFederationRelationships
        [sample.relationship "A" "1", sample.relationship "B" "1"]
      = [{ name := "A" }, { name := "B" }] ∧
    (∀ e ∈ batchCalls (reconcile sample.helpers sample.external sample.pass sample.order
        ()).trace,
      e = Event.DeleteFederationRelationships [{ name := "A" }] ∨
      e = Event.CreateFederationRelationships [sample.relationship "D" "1"] ∨
      e = Event.UpdateFederationRelationships [sample.relationship "C" "2"]) :=
  have h := batch_arguments sample.helpers sample.external sample.pass sample.order () ()
    sample.remote sample.desired []
    { toDelete := [sample.relationship "A" "1"], toCreate := [sample.relationship "D" "1"],
      toUpdate := [sample.relationship "C" "2"] }
    [sample.relationship "A" "1", sample.relationship "B" "1"] ()
    (by decide) (by decide) (by decide)
  ⟨h.1, h.2.2.2.2.2⟩

/-- C19: status indexing safety. The loop over the returned statuses indexes
the input list `frs` by the position of each status; it stays in bounds at
every iteration, that is it does not panic, exactly when the statuses are no
more than the input items. So with as many statuses as items the out-of-bounds
branch is not reached, and with one status more than items it is. The same
holds of the create, update and delete dispatchers for every answer of the
authority that is a status list. -/
theorem status_indexing_safety {σ B : Type} (h : Helpers B) (config : ReconcilerConfig σ B)
    (frs : List (FederationRelationship B)) (s : σ) :
    (∀ okMsg errMsg statuses,
      (rangeStatuses h okMsg errMsg frs 0 statuses).2 = false ↔
        statuses.length ≤ frs.length) ∧
    (∀ okMsg errMsg statuses, statuses.length = frs.length →
      (rangeStatuses h okMsg errMsg frs 0 statuses).2 = false) ∧
    (∀ okMsg errMsg status,
      (rangeStatuses h okMsg errMsg frs 0 (List.replicate (frs.length + 1) status)).2 = true) ∧
    (∀ statuses s',
      config.TrustDomainClient.CreateFederationRelationships s frs = (.ok statuses, s') →
      ((createFederationRelationships h config frs s).panicked = false ↔
        statuses.length ≤ frs.length)) ∧
    (∀ statuses s',
      config.TrustDomainClient.UpdateFederationRelationships s frs = (.ok statuses, s') →
      ((updateFederationRelationships h config frs s).panicked = false ↔
        statuses.length ≤ frs.length)) ∧
    (∀ statuses s',
      config.TrustDomainClient.DeleteFederationRelationships s
          (trustDomainIDsFromFederationRelationships frs) = (.ok statuses, s') →
      ((deleteFederationRelationships h config frs s).panicked = false ↔
        statuses.length ≤ frs.length)) := by
  have hr : ∀ okMsg errMsg statuses,
      (rangeStatuses h okMsg errMsg frs 0 statuses).2 = false ↔
        statuses.length ≤ frs.length := by
    intro okMsg errMsg statuses
    have hp := rangeStatuses_panics_iff h okMsg errMsg frs statuses 0 (Nat.zero_le _)
    simp only [Nat.zero_add] at hp
    cases hb : (rangeStatuses h okMsg errMsg frs 0 statuses).2 with
    | true =>
      have := hp.1 hb
      constructor
      · intro hf
        exact Bool.noConfusion hf
      · intro hle
        omega
    | false =>
      constructor
      · intro _
        by_contra hgt
        have := hp.2 (by omega)
        rw [hb] at this
        exact Bool.noConfusion this
      · intro _
        rfl
  refine ⟨hr, ?_, ?_, ?_, ?_, ?_⟩
  · intro okMsg errMsg statuses hlen
    exact (hr okMsg errMsg statuses).2 (by omega)
  · intro okMsg errMsg status
    have hp := rangeStatuses_panics_iff h okMsg errMsg frs
      (List.replicate (frs.length + 1) status) 0 (Nat.zero_le _)
    exact hp.2 (by simp)
  · intro statuses s' hc
    simp only [createFederationRelationships, hc]
    exact hr _ _ statuses
  · intro statuses s' hc
    simp only [updateFederationRelationships, hc]
    exact hr _ _ statuses
  · intro statuses s' hc
    simp only [deleteFederationRelationships, hc]
    exact hr _ _ statuses

/-- C19, at the sample authority that answers a delete of one item with two
statuses: the dispatcher panics. -/
theorem status_indexing_safety_witness :
    (deleteFederationRelationships sample.helpers sample.excess
      [sample.relationship "A" "1"] ()).panicked = true ∧
    ((deleteFederationRelationships sample.helpers sample.excess
        [sample.relationship "A" "1"] ()).panicked = false ↔
      [({ Code := codes.OK, Message := "" } : Status), { Code := codes.OK, Message := "" }].length
        ≤ [sample.relationship "A" "1"].length) :=
  ⟨by decide,
   (status_indexing_safety sample.helpers sample.excess [sample.relationship "A" "1"]
      ()).2.2.2.2.2
      [{ Code := codes.OK, Message := "" }, { Code := codes.OK, Message := "" }] () rfl⟩

/-- C20 as stated fails: in the sample pass both listings succeed and
`toCreate` and `toUpdate` are non-empty, but the authority answers the delete
of one item with two statuses; the delete dispatcher panics on the second
status and the pass ends there, with the delete call as its only batch call:
the create and update calls are not issued although their lists are
non-empty. -/
theorem dispatch_shape_counterexample :
    listFederationRelationships sample.excess () = (.ok sample.remote, ()) ∧
    listClusterFederatedTrustDomains sample.helpers sample.external sample.excess
      = .ok (sample.desired, []) ∧
    workLists sample.helpers.Equal (sample.order.current sample.remote)
        (sample.order.desired sample.desired)
      = { toDelete := [sample.relationship "A" "1"], toCreate := [sample.relationship "D" "1"],
          toUpdate := [sample.relationship "C" "2"] } ∧
    batchCalls (reconcile sample.helpers sample.external sample.excess sample.order ()).trace
      = [Event.DeleteFederationRelationships [{ name := "A" }]] ∧
    Event.CreateFederationRelationships [sample.relationship "D" "1"] ∉
      (reconcile sample.helpers sample.external sample.excess sample.order ()).trace ∧
    (reconcile sample.helpers sample.external sample.excess sample.order ()).panicked = true := by
  refine ⟨?_, ?_, ?_, ?_, ?_, ?_⟩ <;> decide

/-- C20, amended: the dispatch of a pass in which both listings succeed, with
work lists `w`. The batch calls of the pass are: the delete call when
`toDelete` is non-empty; then, unless the delete dispatcher panicked, the
create call when `toCreate` is non-empty; then, unless an earlier dispatcher
panicked, the update call when `toUpdate` is non-empty. So each call is issued
at most once, never with an empty list, and in the order delete, create,
update (the calls are an initial part of the calls owed to the three lists).
A dispatcher panics exactly when its batch call answers with more statuses
than items. When the pass does not panic, and in particular when no batch call
answers with more statuses than items, each call is issued exactly when its
list is non-empty. -/
theorem dispatch_shape_of_pass {σ B : Type} (h : Helpers B) (x : v1alpha1.External B)
    (config : ReconcilerConfig σ B) (order : RangeOrder B) (s s' : σ)
    (remote : GoMap spiffeid.TrustDomain (FederationRelationship B))
    (desired : GoMap spiffeid.TrustDomain (clusterFederatedTrustDomainState B))
    (logged : List LogEntry) (w : WorkLists B)
    (hremote : listFederationRelationships config s = (.ok remote, s'))
    (hdesired : listClusterFederatedTrustDomains h x config = .ok (desired, logged))
    (hw : workLists h.Equal (order.current remote) (order.desired desired) = w) :
    batchCalls (reconcile h x config order s).trace =
      deleteCall w.toDelete ++
        (if (afterDelete h config w s').panicked then []
         else createCall w.toCreate ++
           (if (afterCreate h config w s').panicked then [] else updateCall w.toUpdate)) ∧
    ((afterDelete h config w s').panicked = true ↔
      w.toDelete.length > 0 ∧
      ∃ statuses s2, config.TrustDomainClient.DeleteFederationRelationships s'
          (w.toDelete.map (fun fr => fr.TrustDomain)) = (.ok statuses, s2) ∧
        w.toDelete.length < statuses.length) ∧
    ((afterCreate h config w s').panicked = true ↔
      (afterDelete h config w s').panicked = true ∨
      (w.toCreate.length > 0 ∧
        ∃ statuses s2, config.TrustDomainClient.CreateFederationRelationships
            (afterDelete h config w s').state w.toCreate = (.ok statuses, s2) ∧
          w.toCreate.length < statuses.length)) ∧
    batchCalls (reconcile h x config order s).trace <+: expectedCalls w ∧
    ((reconcile h x config order s).panicked = false →
      batchCalls (reconcile h x config order s).trace = expectedCalls w) ∧
    (NoExcess config.TrustDomainClient.DeleteFederationRelationships →
      NoExcess config.TrustDomainClient.CreateFederationRelationships →
      NoExcess config.TrustDomainClient.UpdateFederationRelationships →
      (reconcile h x config order s).panicked = false ∧
      batchCalls (reconcile h x config order s).trace = expectedCalls w) := by
  have hcalls := batchCalls_of_pass h x config order s s' remote desired logged w
    hremote hdesired hw
  have hpan : (reconcile h x config order s).panicked = (dispatch h config w s').panicked := by
    rw [(reconcile_listed h x config order s s' remote desired logged hremote hdesired).2.1, hw]
  have hfull : (reconcile h x config order s).panicked = false →
      batchCalls (reconcile h x config order s).trace = expectedCalls w := by
    intro hnp
    rw [hpan] at hnp
    have hC : (afterCreate h config w s').panicked = false := by
      cases hq : (afterCreate h config w s').panicked with
      | false => rfl
      | true =>
        have := (dispatch_shape h config w s').2 hq
        rw [hnp] at this
        exact Bool.noConfusion this
    have hD : (afterDelete h config w s').panicked = false := by
      cases hq : (afterDelete h config w s').panicked with
      | false => rfl
      | true =>
        have := (afterCreate_shape h config w s').2 hq
        rw [hC] at this
        exact Bool.noConfusion this
    rw [hcalls, hD, hC]
    simp [expectedCalls]
  refine ⟨hcalls, afterDelete_panicked_iff h config w s', afterCreate_panicked_iff h config w s',
    ?_, hfull, ?_⟩
  · rw [hcalls]
    exact calls_initial h config w s'
  · intro hD hC hU
    have hnp : (reconcile h x config order s).panicked = false := by
      rw [hpan]
      exact dispatch_no_panic h config w s' hD hC hU
    exact ⟨hnp, hfull hnp⟩

/-- C20 amended, at the sample pass of the diff example, whose authority
answers with one status per item: the three calls, in order. -/
theorem dispatch_shape_of_pass_witness :
    batchCalls (reconcile sample.helpers sample.external sample.pass sample.order ()).trace
      = [Event.DeleteFederationRelationships [{ name := "A" }],
         Event.CreateFederationRelationships [sample.relationship "D" "1"],
         Event.UpdateFederationRelationships [sample.relationship "C" "2"]] :=
  have hs := sample.client_noExcess
    [sample.relationship "A" "1", sample.relationship "B" "1", sample.relationship "C" "1"]
  ((dispatch_shape_of_pass sample.helpers sample.external sample.pass sample.order () ()
      sample.remote sample.desired []
      { toDelete := [sample.relationship "A" "1"], toCreate := [sample.relationship "D" "1"],
        toUpdate := [sample.relationship "C" "2"] }
      (by decide) (by decide) (by decide)).2.2.2.2.2 hs.1 hs.2.1 hs.2.2).2.trans (by decide)

end spirefederationrelationship
